import Mathlib

set_option maxHeartbeats 1600000

/-!
A shallow embedding of the Luau unification engine
(src/Analysis/src/Unifier.cpp) and proofs about the claims of the
specification.  Type and pack graph nodes live in an arena indexed by
natural numbers; the unifier is a fuel-indexed state-passing function whose
structure mirrors the C++ source function by function.  Internal compiler
errors (ICE) abort the computation through an exception value; running out
of fuel is a distinct exception value (the C++ code has no fuel: its
termination on cyclic graphs is enforced by iteration counters, which are
modelled faithfully as well).

Helpers whose definitions live in headers that are not part of the
repository snapshot (TxnLog.cpp, TypeVar.h helpers such as follow,
TypeLevel::subsumes, isSubclass, size/flatten of packs) are modelled from
the spec; each such definition carries a doc comment starting with
"Modelled from the spec:".
-/

namespace LuauUnify

/-- Modelled from the spec: TypeLevel is a pair (major, minor) ordering
scopes. -/
structure TypeLevel where
  level : Nat
  subLevel : Nat
deriving DecidableEq, Repr

instance : Inhabited TypeLevel := ⟨⟨0, 0⟩⟩

/-- Modelled from the spec: a.subsumes(b) iff a.major <= b.major. -/
def TypeLevel.subsumes (a b : TypeLevel) : Bool :=
  a.level ≤ b.level

/-- Modelled from the spec: strict subsumption uses the minor component as a
tiebreak. -/
def TypeLevel.subsumesStrict (a b : TypeLevel) : Bool :=
  a.level < b.level ∨ (a.level = b.level ∧ a.subLevel < b.subLevel)

/-- Modelled from the spec: min of two levels picks the subsuming (outer)
one. -/
def minLevel (a b : TypeLevel) : TypeLevel :=
  if a.subsumes b then a else b

/-- Primitive type kinds (PrimitiveTypeVar::Type). -/
inductive PrimKind where
  | nilPrim | booleanPrim | numberPrim | stringPrim | threadPrim
deriving DecidableEq, Repr

/-- Singleton type payloads (BoolSingleton / StringSingleton). -/
inductive SingletonVal where
  | boolSing (b : Bool)
  | stringSing (s : String)
deriving DecidableEq, Repr

/-- Table lifecycle state (TableState). -/
inductive TableState where
  | free | unsealed | sealed | generic
deriving DecidableEq, Repr

/-- A table / class property.  The C++ Property also carries an optional
definition location, which we reduce to a presence flag: the only behaviour
that depends on it is the location-aware error reporting branch of
tryUnifySealedTables. -/
structure Property where
  ty : Nat
  hasLoc : Bool := false
deriving DecidableEq, Repr

/-- Type graph nodes (the TypeVariant tagged sum).  Ids are arena indices.
FunctionTypeVar's definition metadata is reduced to an opaque optional
payload. -/
inductive TyNode where
  | freeTy (lvl : TypeLevel)
  | boundTy (t : Nat)
  | genericTy (lvl : TypeLevel)
  | errorTy
  | anyTy
  | prim (k : PrimKind)
  | singleton (s : SingletonVal)
  | fn (lvl : TypeLevel) (generics : List Nat) (genericPacks : List Nat)
      (argTypes : Nat) (retType : Nat) (definition : Option Nat)
  | table (props : List (String × Property)) (indexer : Option (Nat × Nat))
      (state : TableState) (boundTo : Option Nat) (lvl : TypeLevel)
      (name : Option String) (syntheticName : Option String)
  | mt (tableTy : Nat) (metatableTy : Nat)
  | cls (name : String) (parent : Option Nat) (props : List (String × Property))
  | union (options : List Nat)
  | inter (parts : List Nat)
deriving DecidableEq, Repr

/-- Type pack graph nodes. -/
inductive PackNode where
  | freeTp (lvl : TypeLevel)
  | boundTp (p : Nat)
  | genericTp
  | errorTp
  | pack (head : List Nat) (tail : Option Nat)
  | variadic (ty : Nat)
deriving DecidableEq, Repr

/-- The arena of type and pack nodes.  persistentT is the set of ids whose
TypeVar is persistent (used by the function-definition propagation). -/
structure Arena where
  types : List TyNode
  packs : List PackNode
  persistentT : List Nat := []
deriving DecidableEq, Repr

def getTy (a : Arena) (i : Nat) : TyNode := a.types.getD i .errorTy

def getTp (a : Arena) (i : Nat) : PackNode := a.packs.getD i .errorTp

def setTy (a : Arena) (i : Nat) (n : TyNode) : Arena :=
  { a with types := a.types.set i n }

def setTp (a : Arena) (i : Nat) (n : PackNode) : Arena :=
  { a with packs := a.packs.set i n }

/-- Arena::addType: allocate a fresh type node, returning its id. -/
def addTy (a : Arena) (n : TyNode) : Arena × Nat :=
  ({ a with types := a.types ++ [n] }, a.types.length)

/-- Arena::addTypePack. -/
def addTp (a : Arena) (n : PackNode) : Arena × Nat :=
  ({ a with packs := a.packs ++ [n] }, a.packs.length)

/-- Arena::freshType(level). -/
def freshTy (a : Arena) (lvl : TypeLevel) : Arena × Nat :=
  addTy a (.freeTy lvl)

/-- Modelled from the spec: follow chases Bound indirections (and a table's
boundTo field) until a non-Bound node is reached.  Bound chains are acyclic
by construction, so the internal fuel (the arena size) never runs out on
well-formed graphs. -/
def followTyAux (a : Arena) : Nat → Nat → Nat
  | 0, t => t
  | fuel + 1, t =>
    match getTy a t with
    | .boundTy u => followTyAux a fuel u
    | .table _ _ _ (some u) _ _ _ => followTyAux a fuel u
    | _ => t

def followTy (a : Arena) (t : Nat) : Nat :=
  followTyAux a (a.types.length + 1) t

/-- Modelled from the spec: follow for packs. -/
def followTpAux (a : Arena) : Nat → Nat → Nat
  | 0, t => t
  | fuel + 1, t =>
    match getTp a t with
    | .boundTp u => followTpAux a fuel u
    | _ => t

def followTp (a : Arena) (t : Nat) : Nat :=
  followTpAux a (a.packs.length + 1) t

/-- get<PrimitiveTypeVar>(follow ty) != nullptr and the kind matches. -/
def isPrimK (a : Arena) (t : Nat) (k : PrimKind) : Bool :=
  match getTy a (followTy a t) with
  | .prim k' => k' = k
  | _ => false

/-- Modelled from the spec: isNil. -/
def isNilT (a : Arena) (t : Nat) : Bool := isPrimK a t .nilPrim

/-- Modelled from the spec: isString. -/
def isStringT (a : Arena) (t : Nat) : Bool := isPrimK a t .stringPrim

/-- Modelled from the spec: isOptional(t) iff t is a Union whose options
include nil. -/
def isOptionalT (a : Arena) (t : Nat) : Bool :=
  match getTy a (followTy a t) with
  | .union opts => opts.any (fun o => isNilT a o)
  | _ => false

/-- Heads of a pack, flattened across chained TypePacks (the behaviour of
TypePackIterator: follow the tail and keep walking while it is a
TypePack). -/
def packHeadsAux (a : Arena) : Nat → Nat → List Nat
  | 0, _ => []
  | fuel + 1, tp =>
    match getTp a (followTp a tp) with
    | .pack head (some tail) => head ++ packHeadsAux a fuel tail
    | .pack head none => head
    | _ => []

def packHeads (a : Arena) (tp : Nat) : List Nat :=
  packHeadsAux a (a.packs.length + 1) tp

/-- Modelled from the spec: flatten(pack) returns all heads plus the final
non-TypePack tail, if any. -/
def flattenPackAux (a : Arena) : Nat → Nat → List Nat × Option Nat
  | 0, tp => ([], some tp)
  | fuel + 1, tp =>
    match getTp a (followTp a tp) with
    | .pack head (some tail) =>
      let (hs, t) := flattenPackAux a fuel tail
      (head ++ hs, t)
    | .pack head none => (head, none)
    | _ => ([], some (followTp a tp))

def flattenPack (a : Arena) (tp : Nat) : List Nat × Option Nat :=
  flattenPackAux a (a.packs.length + 1) tp

/-- Modelled from the spec: size(pack) is the number of flattened heads. -/
def sizePack (a : Arena) (tp : Nat) : Nat :=
  (flattenPack a tp).1.length

/-- Modelled from the spec: finite(pack) holds when the pack has no
(variadic or free or generic) tail left after flattening. -/
def finitePack (a : Arena) (tp : Nat) : Bool :=
  match (flattenPack a tp).2 with
  | none => true
  | some _ => false

/-- Modelled from the spec: getName returns the bound name of a table
(or its synthetic name), the name of a class, or the name of a metatable's
inner table. -/
def getNameT (a : Arena) (t : Nat) : Option String :=
  match getTy a (followTy a t) with
  | .table _ _ _ _ _ (some n) _ => some n
  | .table _ _ _ _ _ none (some n) => some n
  | .cls n _ _ => some n
  | .mt tableTy _ =>
    match getTy a (followTy a tableTy) with
    | .table _ _ _ _ _ (some n) _ => some n
    | .table _ _ _ _ _ none (some n) => some n
    | _ => none
  | _ => none

/-- getTableMatchTag (Unifier.cpp lines 203-224): the first property whose
type is a singleton, used by the tagged-union matching heuristic. -/
def getTableMatchTag (a : Arena) (t : Nat) : Option (String × SingletonVal) :=
  match getTy a (followTy a t) with
  | .table props _ _ _ _ _ _ =>
    (props.find? fun p =>
        match getTy a (followTy a p.2.ty) with
        | .singleton _ => true
        | _ => false).bind
      fun p =>
        match getTy a (followTy a p.2.ty) with
        | .singleton s => some (p.1, s)
        | _ => none
  | .mt tableTy _ =>
    match getTy a (followTy a tableTy) with
    | .table props _ _ _ _ _ _ =>
      (props.find? fun p =>
          match getTy a (followTy a p.2.ty) with
          | .singleton _ => true
          | _ => false).bind
        fun p =>
          match getTy a (followTy a p.2.ty) with
          | .singleton s => some (p.1, s)
          | _ => none
    | _ => none
  | _ => none

/-- Modelled from the spec: isSubclass walks the parent chain of the sub
class looking for the super class (equality counts). -/
def isSubclassF (a : Arena) : Nat → Nat → Nat → Bool
  | 0, _, _ => false
  | fuel + 1, c, sup =>
    if c = sup then true
    else
      match getTy a c with
      | .cls _ (some p) _ => isSubclassF a fuel p sup
      | _ => false

/-- Modelled from the spec: lookupClassProp finds a property on a class or
its ancestors. -/
def lookupClassProp (a : Arena) : Nat → Nat → String → Option Property
  | 0, _, _ => none
  | fuel + 1, c, nm =>
    match getTy a c with
    | .cls _ parent props =>
      match props.find? (fun p => p.1 = nm) with
      | some p => some p.2
      | none =>
        match parent with
        | some p => lookupClassProp a fuel p nm
        | none => none
    | _ => none

/-- Modelled from the spec: findTablePropertyRespectingMeta finds a property
of a table, looking through a metatable's table and its __index table. -/
def findTablePropRespectingMeta (a : Arena) : Nat → Nat → String → Option Nat
  | 0, _, _ => none
  | fuel + 1, t, nm =>
    match getTy a (followTy a t) with
    | .table props _ _ _ _ _ _ =>
      (props.find? (fun p => p.1 = nm)).map (fun p => p.2.ty)
    | .mt tableTy metatableTy =>
      match findTablePropRespectingMeta a fuel tableTy nm with
      | some r => some r
      | none =>
        match findTablePropRespectingMeta a fuel metatableTy "__index" with
        | some idx => findTablePropRespectingMeta a fuel idx nm
        | none => none
    | _ => none

/-- CountMismatch::Context. -/
inductive CMCtx where
  | arg | result | ret
deriving DecidableEq, Repr

/-- TypeError payloads (location dropped; it never influences control
flow we model).  A C++ TypeMismatch optionally carries a nested cause
error; the with-cause form is a separate constructor so that equality
stays derivable. -/
inductive TypeError where
  | typeMismatch (wanted given : Nat) (reason : Option String)
  | typeMismatchCaused (wanted given : Nat) (reason : Option String)
      (cause : TypeError)
  | missingProperties (superT subT : Nat) (props : List String) (extra : Bool)
  | unknownProperty (ty : Nat) (name : String)
  | countMismatch (expected actual : Nat) (context : CMCtx)
  | occursCheckFailed
  | genericError (msg : String)
  | unificationTooComplex
  | cannotExtendTable (ty : Nat) (indexerKind : Bool)
deriving DecidableEq, Repr

/-- hasUnificationTooComplex (Unifier.cpp lines 190-201). -/
def hasUTC (errors : List TypeError) : Option TypeError :=
  errors.find? fun e =>
    match e with
    | .unificationTooComplex => true
    | _ => false

/-- Modelled from the spec: a TxnLog entry snapshotting a node's prior
state. -/
inductive LogEntry where
  | tyE (id : Nat) (old : TyNode)
  | tpE (id : Nat) (old : PackNode)
deriving DecidableEq, Repr

/-- Modelled from the spec: rollback restores every snapshotted node in
reverse order of appending.  The log list keeps the newest entry first, so
processing front to back restores newest first and leaves the oldest
snapshot in place. -/
def rollbackLog : List LogEntry → Arena → Arena
  | [], a => a
  | .tyE i n :: rest, a => rollbackLog rest (setTy a i n)
  | .tpE i n :: rest, a => rollbackLog rest (setTp a i n)

/-- Abnormal outcomes: an internal compiler error (aborts the session) or
fuel exhaustion (a modelling artefact; the C++ has unbounded recursion). -/
inductive Abort where
  | ice (msg : String)
  | fuel
deriving DecidableEq, Repr

inductive Variance where
  | covariant | invariant
deriving DecidableEq, Repr

inductive Mode where
  | strict | nonstrict | noCheck
deriving DecidableEq, Repr

/-- The feature flags referenced by Unifier.cpp, with their in-file
defaults; flags declared in other files default to false here and are
parameters of every theorem. -/
structure Flags where
  tableSubtypingVariance2 : Bool := false
  unionHeuristic : Bool := false
  tableUnificationEarlyTest : Bool := false
  occursCheckOkWithRecursiveFunctions : Bool := false
  extendedTypeMismatchError : Bool := false
  singletonTypes : Bool := false
  extendedClassMismatchError : Bool := false
  errorRecoveryType : Bool := false
  properTypeLevels : Bool := false
  extendedUnionMismatchError : Bool := false
  extendedFunctionMismatchError : Bool := false
deriving DecidableEq, Repr

/-- Static configuration: mode, flags, tunables and the ids of the
persistent singleton types (getSingletonTypes()), which concrete runs
allocate inside the arena. -/
structure Config where
  flags : Flags := {}
  mode : Mode := .strict
  iterationLimit : Nat := 2000
  packLoopLimit : Nat := 0
  nilId : Nat := 0
  anyId : Nat := 0
  stringId : Nat := 0
  errorId : Nat := 0
  errorTpId : Nat := 0
deriving DecidableEq, Repr

/-- The full unifier state: the session-shared parts (arena, seen stack,
iteration counter, cache) plus the per-unifier parts (log, errors, ctx,
firstPackErrorPos, variance). -/
structure UState where
  arena : Arena
  sharedSeen : List (Nat × Nat) := []
  iterationCount : Nat := 0
  cachedUnify : List (Nat × Nat) := []
  skipCacheMap : List (Nat × Bool) := []
  log : List LogEntry := []
  errors : List TypeError := []
  ctx : CMCtx := .arg
  firstPackErrorPos : Option Nat := none
  variance : Variance := .covariant
deriving DecidableEq, Repr

/-- makeChildUnifier: shares arena, seen stack, counters and caches; fresh
log and error vector; same variance. -/
def mkChild (st : UState) : UState :=
  { st with log := [], errors := [], ctx := .arg, firstPackErrorPos := none }

/-- Adopt the shared parts of a finished child unifier back into the
parent. -/
def absorb (parent child : UState) : UState :=
  { child with
    log := parent.log
    errors := parent.errors
    ctx := parent.ctx
    firstPackErrorPos := parent.firstPackErrorPos
    variance := parent.variance }

def pushErr (st : UState) (e : TypeError) : UState :=
  { st with errors := st.errors ++ [e] }

/-- TxnLog::operator()(TypeId): snapshot the node before mutation. -/
def logTy (st : UState) (i : Nat) : UState :=
  { st with log := .tyE i (getTy st.arena i) :: st.log }

/-- TxnLog::operator()(TypePackId). -/
def logTp (st : UState) (i : Nat) : UState :=
  { st with log := .tpE i (getTp st.arena i) :: st.log }

/-- Modelled from the spec: the seen stack of pairs currently being
proved, shared by reference between a parent and its children. -/
def haveSeen (st : UState) (a b : Nat) : Bool :=
  st.sharedSeen.contains (a, b)

def pushSeen (st : UState) (a b : Nat) : UState :=
  { st with sharedSeen := (a, b) :: st.sharedSeen }

def popSeen (st : UState) (_a _b : Nat) : UState :=
  { st with sharedSeen := st.sharedSeen.tail }

def cacheContains (st : UState) (a b : Nat) : Bool :=
  st.cachedUnify.contains (a, b)

/-- Unifier::isNonstrictMode. -/
def isNonstrictMode (cfg : Config) : Bool :=
  cfg.mode = .nonstrict ∨ cfg.mode = .noCheck

end LuauUnify

namespace LuauUnify

def isFreeNode : TyNode → Bool
  | .freeTy _ => true
  | _ => false

def isFreePack : PackNode → Bool
  | .freeTp _ => true
  | _ => false

/-- Modelled from the spec: getMutableLevel yields the level slot of a
free, function or table type. -/
def getLevelOf : TyNode → Option TypeLevel
  | .freeTy lvl => some lvl
  | .fn lvl _ _ _ _ _ => some lvl
  | .table _ _ _ _ lvl _ _ => some lvl
  | _ => none

/-- Write the level slot of a free, function or table node. -/
def withLevel : TyNode → TypeLevel → TyNode
  | .freeTy _, l => .freeTy l
  | .fn _ gs gps a r d, l => .fn l gs gps a r d
  | .table  p i s b _ n sn, l => .table p i s b l n sn
  | n, _ => n

def lookupMemo (st : UState) (ty : Nat) : Option Bool :=
  (st.skipCacheMap.find? (fun p => p.1 = ty)).map (fun p => p.2)

mutual

/-- Unifier::occursCheck(seen, needle, haystack) for types
(Unifier.cpp lines 2054-2107). -/
def occursCheckTyAux (cfg : Config) : Nat → UState → List Nat → Nat → Nat →
    Except Abort (UState × List Nat)
  | 0, _, _, _, _ => throw .fuel
  | fuel + 1, st, seen, needle, haystack =>
    let needle := followTy st.arena needle
    let haystack := followTy st.arena haystack
    if haystack ∈ seen then pure (st, seen)
    else
      let seen := haystack :: seen
      if getTy st.arena needle = .errorTy then pure (st, seen)
      else if ¬ isFreeNode (getTy st.arena needle) then
        throw (.ice "Expected needle to be free")
      else if needle = haystack then
        let st := pushErr st .occursCheckFailed
        let st := logTy st needle
        pure ({ st with arena := setTy st.arena needle .errorTy }, seen)
      else
        match getTy st.arena haystack with
        | .freeTy _ => pure (st, seen)
        | .fn _ _ _ argTypes retType _ =>
          if cfg.flags.occursCheckOkWithRecursiveFunctions then pure (st, seen)
          else do
            let (st, seen) ←
              occursCheckTyList cfg fuel st seen needle (packHeads st.arena argTypes)
            occursCheckTyList cfg fuel st seen needle (packHeads st.arena retType)
        | .union opts => occursCheckTyList cfg fuel st seen needle opts
        | .inter parts => occursCheckTyList cfg fuel st seen needle parts
        | _ => pure (st, seen)

/-- The for-each-child loops of the type occurs check. -/
def occursCheckTyList (cfg : Config) : Nat → UState → List Nat → Nat → List Nat →
    Except Abort (UState × List Nat)
  | 0, _, _, _, _ => throw .fuel
  | fuel + 1, st, seen, needle, tys =>
    match tys with
    | [] => pure (st, seen)
    | t :: rest => do
      let (st, seen) ← occursCheckTyAux cfg fuel st seen needle t
      occursCheckTyList cfg fuel st seen needle rest

end

/-- Unifier::occursCheck(TypeId, TypeId): clears the scratch seen set and
runs the recursive check (lines 2047-2052). -/
def occursCheckTy (cfg : Config) (fuel : Nat) (st : UState) (needle haystack : Nat) :
    Except Abort UState :=
  (fun r => r.1) <$> occursCheckTyAux cfg fuel st [] needle haystack

mutual

/-- Unifier::occursCheck(seen, needle, haystack) for packs
(lines 2116-2166): the entry checks. -/
def occursCheckTpAux (cfg : Config) : Nat → UState → List Nat → Nat → Nat →
    Except Abort (UState × List Nat)
  | 0, _, _, _, _ => throw .fuel
  | fuel + 1, st, seen, needle, haystack =>
    let needle := followTp st.arena needle
    let haystack := followTp st.arena haystack
    if haystack ∈ seen then pure (st, seen)
    else
      let seen := haystack :: seen
      if getTp st.arena needle = .errorTp then pure (st, seen)
      else if ¬ isFreePack (getTp st.arena needle) then
        throw (.ice "Expected needle pack to be free")
      else occursCheckTpWhile cfg fuel st seen needle haystack

/-- The while loop walking the tail chain of the haystack pack. -/
def occursCheckTpWhile (cfg : Config) : Nat → UState → List Nat → Nat → Nat →
    Except Abort (UState × List Nat)
  | 0, _, _, _, _ => throw .fuel
  | fuel + 1, st, seen, needle, haystack =>
    if getTp st.arena haystack = .errorTp then pure (st, seen)
    else if needle = haystack then
      let st := pushErr st .occursCheckFailed
      let st := logTp st needle
      pure ({ st with arena := setTp st.arena needle .errorTp }, seen)
    else
      match getTp st.arena haystack with
      | .pack head tail => do
        let (st, seen) ←
          if cfg.flags.occursCheckOkWithRecursiveFunctions then pure (st, seen)
          else occursCheckTpHeads cfg fuel st seen needle head
        match tail with
        | some t => occursCheckTpWhile cfg fuel st seen needle (followTp st.arena t)
        | none => pure (st, seen)
      | _ => pure (st, seen)

/-- For each head that is a function, recurse into its argument and return
packs. -/
def occursCheckTpHeads (cfg : Config) : Nat → UState → List Nat → Nat → List Nat →
    Except Abort (UState × List Nat)
  | 0, _, _, _, _ => throw .fuel
  | fuel + 1, st, seen, needle, tys =>
    match tys with
    | [] => pure (st, seen)
    | ty :: rest =>
      match getTy st.arena (followTy st.arena ty) with
      | .fn _ _ _ argTypes retType _ => do
        let (st, seen) ← occursCheckTpAux cfg fuel st seen needle argTypes
        let (st, seen) ← occursCheckTpAux cfg fuel st seen needle retType
        occursCheckTpHeads cfg fuel st seen needle rest
      | _ => occursCheckTpHeads cfg fuel st seen needle rest

end

/-- Unifier::occursCheck(TypePackId, TypePackId) (lines 2109-2114). -/
def occursCheckTp (cfg : Config) (fuel : Nat) (st : UState) (needle haystack : Nat) :
    Except Abort UState :=
  (fun r => r.1) <$> occursCheckTpAux cfg fuel st [] needle haystack

/-- queueTypePack (lines 1876-1900).  The worklist is kept reversed: the
head of the list is the back of the C++ vector. -/
def queueTypePackF (cfg : Config) : Nat → UState → List Nat → List Nat → Nat → Nat →
    Except Abort (UState × List Nat × List Nat)
  | 0, _, _, _, _, _ => throw .fuel
  | fuel + 1, st, queue, seenTp, a, anyTp =>
    let a := followTp st.arena a
    if a ∈ seenTp then pure (st, queue, seenTp)
    else
      let seenTp := a :: seenTp
      match getTp st.arena a with
      | .freeTp _ =>
        let st := logTp st a
        let st := { st with arena := setTp st.arena a (.boundTp anyTp) }
        queueTypePackF cfg fuel st queue seenTp a anyTp
      | .pack head tail =>
        let queue := head.reverse ++ queue
        match tail with
        | some t => queueTypePackF cfg fuel st queue seenTp t anyTp
        | none => pure (st, queue, seenTp)
      | _ => queueTypePackF cfg fuel st queue seenTp a anyTp

/-- The static tryUnifyWithAny worklist (lines 1955-2004): binds every
reachable free type variable to anyType. -/
def tryUnifyWithAnyLoop (cfg : Config) : Nat → UState → List Nat → List Nat →
    List Nat → Nat → Nat → Except Abort UState
  | 0, _, _, _, _, _, _ => throw .fuel
  | fuel + 1, st, queue, seenTy, seenTp, anyType, anyTp =>
    match queue with
    | [] => pure st
    | q :: rest =>
      let ty := followTy st.arena q
      if ty ∈ seenTy then tryUnifyWithAnyLoop cfg fuel st rest seenTy seenTp anyType anyTp
      else
        let seenTy := ty :: seenTy
        match getTy st.arena ty with
        | .freeTy _ =>
          let st := logTy st ty
          let st := { st with arena := setTy st.arena ty (.boundTy anyType) }
          tryUnifyWithAnyLoop cfg fuel st rest seenTy seenTp anyType anyTp
        | .fn _ _ _ argTypes retType _ => do
          let (st, rest, seenTp) ← queueTypePackF cfg fuel st rest seenTp argTypes anyTp
          let (st, rest, seenTp) ← queueTypePackF cfg fuel st rest seenTp retType anyTp
          tryUnifyWithAnyLoop cfg fuel st rest seenTy seenTp anyType anyTp
        | .table props indexer _ _ _ _ _ =>
          let rest := (props.map (fun p => p.2.ty)).reverse ++ rest
          let rest :=
            match indexer with
            | some (it, rt) => rt :: it :: rest
            | none => rest
          tryUnifyWithAnyLoop cfg fuel st rest seenTy seenTp anyType anyTp
        | .mt t m => tryUnifyWithAnyLoop cfg fuel st (m :: t :: rest) seenTy seenTp anyType anyTp
        | .union opts => tryUnifyWithAnyLoop cfg fuel st (opts.reverse ++ rest) seenTy seenTp anyType anyTp
        | .inter parts => tryUnifyWithAnyLoop cfg fuel st (parts.reverse ++ rest) seenTy seenTp anyType anyTp
        | _ => tryUnifyWithAnyLoop cfg fuel st rest seenTy seenTp anyType anyTp

/-- Unifier::tryUnifyWithAny(TypeId any, TypeId ty) (lines 2006-2024).
anyParam is the Any or Error side; ty is the side being absorbed. -/
def tryUnifyWithAnyTy (cfg : Config) : Nat → UState → Nat → Nat → Except Abort UState
  | 0, _, _, _ => throw .fuel
  | fuel + 1, st, anyParam, ty =>
    match getTy st.arena ty with
    | .prim _ => pure st
    | .anyTy => pure st
    | .cls _ _ _ => pure st
    | _ =>
      let (a1, anyTypePack) := addTp st.arena (.variadic cfg.anyId)
      let (a2, anyTP) :=
        if getTy a1 anyParam = .anyTy then (a1, anyTypePack) else addTp a1 .errorTp
      tryUnifyWithAnyLoop cfg fuel { st with arena := a2 } [ty] [] [] cfg.anyId anyTP

/-- Unifier::tryUnifyWithAny(TypePackId any, TypePackId ty)
(lines 2026-2040). -/
def tryUnifyWithAnyTp (cfg : Config) : Nat → UState → Nat → Nat → Except Abort UState
  | 0, _, _, _ => throw .fuel
  | fuel + 1, st, anyTp, ty => do
    let (st, queue, seenTp) ← queueTypePackF cfg fuel st [] [] ty anyTp
    tryUnifyWithAnyLoop cfg fuel st queue [] seenTp cfg.errorId anyTp

mutual

/-- PromoteTypeLevels (lines 33-99): walk the graph once, lowering the
level of every free/function/table type node (and free pack node) whose
level is strictly subsumed by minLevel, logging each mutation.  The
traversal order is modelled from the spec (visitTypeVarOnce's header is
not part of the snapshot). -/
def promoteTyVisit (cfg : Config) (minL : TypeLevel) : Nat → UState → List Nat →
    List Nat → Nat → Except Abort (UState × List Nat × List Nat)
  | 0, _, _, _, _ => throw .fuel
  | fuel + 1, st, seenT, seenP, ty =>
    if ty ∈ seenT then pure (st, seenT, seenP)
    else
      let seenT := ty :: seenT
      match getTy st.arena ty with
      | .freeTy lvl =>
        if minL.subsumesStrict lvl then
          let st := logTy st ty
          pure ({ st with arena := setTy st.arena ty (.freeTy minL) }, seenT, seenP)
        else pure (st, seenT, seenP)
      | .boundTy u => promoteTyVisit cfg minL fuel st seenT seenP u
      | .fn lvl gs gps argTypes retType defn => do
        let st :=
          if minL.subsumesStrict lvl then
            let st := logTy st ty
            { st with arena := setTy st.arena ty (.fn minL gs gps argTypes retType defn) }
          else st
        let (st, seenT, seenP) ← promoteTpVisit cfg minL fuel st seenT seenP argTypes
        promoteTpVisit cfg minL fuel st seenT seenP retType
      | .table props indexer stt bt lvl nm snm => do
        let st :=
          if minL.subsumesStrict lvl then
            let st := logTy st ty
            { st with arena := setTy st.arena ty (.table props indexer stt bt minL nm snm) }
          else st
        let (st, seenT, seenP) ←
          promoteTyList cfg minL fuel st seenT seenP (props.map (fun p => p.2.ty))
        match indexer with
        | some (it, rt) => do
          let (st, seenT, seenP) ← promoteTyVisit cfg minL fuel st seenT seenP it
          promoteTyVisit cfg minL fuel st seenT seenP rt
        | none => pure (st, seenT, seenP)
      | .mt t m => do
        let (st, seenT, seenP) ← promoteTyVisit cfg minL fuel st seenT seenP t
        promoteTyVisit cfg minL fuel st seenT seenP m
      | .union opts => promoteTyList cfg minL fuel st seenT seenP opts
      | .inter parts => promoteTyList cfg minL fuel st seenT seenP parts
      | _ => pure (st, seenT, seenP)

def promoteTyList (cfg : Config) (minL : TypeLevel) : Nat → UState → List Nat →
    List Nat → List Nat → Except Abort (UState × List Nat × List Nat)
  | 0, _, _, _, _ => throw .fuel
  | fuel + 1, st, seenT, seenP, tys =>
    match tys with
    | [] => pure (st, seenT, seenP)
    | t :: rest => do
      let (st, seenT, seenP) ← promoteTyVisit cfg minL fuel st seenT seenP t
      promoteTyList cfg minL fuel st seenT seenP rest

def promoteTpVisit (cfg : Config) (minL : TypeLevel) : Nat → UState → List Nat →
    List Nat → Nat → Except Abort (UState × List Nat × List Nat)
  | 0, _, _, _, _ => throw .fuel
  | fuel + 1, st, seenT, seenP, tp =>
    if tp ∈ seenP then pure (st, seenT, seenP)
    else
      let seenP := tp :: seenP
      match getTp st.arena tp with
      | .freeTp lvl =>
        if minL.subsumesStrict lvl then
          let st := logTp st tp
          pure ({ st with arena := setTp st.arena tp (.freeTp minL) }, seenT, seenP)
        else pure (st, seenT, seenP)
      | .boundTp u => promoteTpVisit cfg minL fuel st seenT seenP u
      | .pack head tail => do
        let (st, seenT, seenP) ← promoteTyList cfg minL fuel st seenT seenP head
        match tail with
        | some t => promoteTpVisit cfg minL fuel st seenT seenP t
        | none => pure (st, seenT, seenP)
      | .variadic t => promoteTyVisit cfg minL fuel st seenT seenP t
      | _ => pure (st, seenT, seenP)

end

/-- promoteTypeLevels(log, minLevel, TypeId) (lines 87-92). -/
def promoteTypeLevelsTy (cfg : Config) (fuel : Nat) (st : UState) (minL : TypeLevel)
    (ty : Nat) : Except Abort UState :=
  (fun r => r.1) <$> promoteTyVisit cfg minL fuel st [] [] ty

mutual

/-- SkipCacheForType (lines 101-188): true when the subtree contains a
free, bound or generic node, a non-sealed or bound table, or a node already
memoized as skippable. -/
def skipCacheTyVisit : Nat → UState → List Nat → List Nat → Nat →
    Except Abort (Bool × List Nat × List Nat)
  | 0, _, _, _, _ => throw .fuel
  | fuel + 1, st, seenT, seenP, ty =>
    if ty ∈ seenT then pure (false, seenT, seenP)
    else
      let seenT := ty :: seenT
      match getTy st.arena ty with
      | .freeTy _ => pure (true, seenT, seenP)
      | .boundTy _ => pure (true, seenT, seenP)
      | .genericTy _ => pure (true, seenT, seenP)
      | .table props indexer stt bt _ _ _ =>
        if bt.isSome then pure (true, seenT, seenP)
        else if stt ≠ .sealed then pure (true, seenT, seenP)
        else
          skipCacheTyList fuel st seenT seenP
            (props.map (fun p => p.2.ty) ++
              (match indexer with | some (it, rt) => [it, rt] | none => []))
      | .fn _ _ _ argTypes retType _ =>
        if lookupMemo st ty = some true then pure (true, seenT, seenP)
        else do
          let (r, seenT, seenP) ← skipCacheTpVisit fuel st seenT seenP argTypes
          if r then pure (true, seenT, seenP)
          else skipCacheTpVisit fuel st seenT seenP retType
      | .mt t m =>
        if lookupMemo st ty = some true then pure (true, seenT, seenP)
        else skipCacheTyList fuel st seenT seenP [t, m]
      | .union opts =>
        if lookupMemo st ty = some true then pure (true, seenT, seenP)
        else skipCacheTyList fuel st seenT seenP opts
      | .inter parts =>
        if lookupMemo st ty = some true then pure (true, seenT, seenP)
        else skipCacheTyList fuel st seenT seenP parts
      | _ =>
        if lookupMemo st ty = some true then pure (true, seenT, seenP)
        else pure (false, seenT, seenP)

def skipCacheTyList : Nat → UState → List Nat → List Nat → List Nat →
    Except Abort (Bool × List Nat × List Nat)
  | 0, _, _, _, _ => throw .fuel
  | fuel + 1, st, seenT, seenP, tys =>
    match tys with
    | [] => pure (false, seenT, seenP)
    | t :: rest => do
      let (r, seenT, seenP) ← skipCacheTyVisit fuel st seenT seenP t
      if r then pure (true, seenT, seenP)
      else skipCacheTyList fuel st seenT seenP rest

def skipCacheTpVisit : Nat → UState → List Nat → List Nat → Nat →
    Except Abort (Bool × List Nat × List Nat)
  | 0, _, _, _, _ => throw .fuel
  | fuel + 1, st, seenT, seenP, tp =>
    if tp ∈ seenP then pure (false, seenT, seenP)
    else
      let seenP := tp :: seenP
      match getTp st.arena tp with
      | .freeTp _ => pure (true, seenT, seenP)
      | .boundTp _ => pure (true, seenT, seenP)
      | .genericTp => pure (true, seenT, seenP)
      | .pack head tail => do
        let (r, seenT, seenP) ← skipCacheTyList fuel st seenT seenP head
        if r then pure (true, seenT, seenP)
        else
          match tail with
          | some t => skipCacheTpVisit fuel st seenT seenP t
          | none => pure (false, seenT, seenP)
      | .variadic t => skipCacheTyVisit fuel st seenT seenP t
      | _ => pure (false, seenT, seenP)

end

/-- Unifier::cacheResult (lines 672-703). -/
def cacheResultF (fuel : Nat) (st : UState) (superTy subTy : Nat) :
    Except Abort UState := do
  let supInfo := lookupMemo st superTy
  if supInfo = some true then pure st
  else
    let subInfo := lookupMemo st subTy
    if subInfo = some true then pure st
    else do
      let (stopSup, st) ←
        if supInfo = none then do
          let (r, _, _) ← skipCacheTyVisit fuel st [] [] superTy
          pure (r, { st with skipCacheMap := st.skipCacheMap ++ [(superTy, r)] })
        else pure (false, st)
      if stopSup then pure st
      else do
        let (stopSub, st) ←
          if subInfo = none then do
            let (r, _, _) ← skipCacheTyVisit fuel st [] [] subTy
            pure (r, { st with skipCacheMap := st.skipCacheMap ++ [(subTy, r)] })
          else pure (false, st)
        if stopSub then pure st
        else
          let st := { st with cachedUnify := st.cachedUnify ++ [(superTy, subTy)] }
          pure
            (if st.variance = .invariant then
              { st with cachedUnify := st.cachedUnify ++ [(subTy, superTy)] }
            else st)

mutual

/-- Unifier::deeplyOptional (lines 1414-1434): wrap every nested structural
type in a union with nil, copying tables. -/
def deeplyOptionalF (cfg : Config) : Nat → Arena → List (Nat × Nat) → Nat →
    Except Abort (Arena × List (Nat × Nat) × Nat)
  | 0, _, _, _ => throw .fuel
  | fuel + 1, a, seen, ty =>
    let ty := followTy a ty
    match getTy a ty with
    | .anyTy => pure (a, seen, ty)
    | _ =>
      if isOptionalT a ty then pure (a, seen, ty)
      else
        match getTy a ty with
        | .table props indexer stt bt lvl nm snm =>
          match seen.find? (fun p => p.1 = ty) with
          | some p => pure (a, seen, p.2)
          | none => do
            let (a, result) := addTy a (.table props indexer stt bt lvl nm snm)
            let seen := (ty, result) :: seen
            let (a, seen) ← deeplyOptionalProps cfg fuel a seen result props
            let (a, u) := addTy a (.union [cfg.nilId, result])
            pure (a, seen, u)
        | _ =>
          let (a, u) := addTy a (.union [cfg.nilId, ty])
          pure (a, seen, u)

/-- The per-property loop of deeplyOptional, updating the copied table's
properties one at a time. -/
def deeplyOptionalProps (cfg : Config) : Nat → Arena → List (Nat × Nat) → Nat →
    List (String × Property) → Except Abort (Arena × List (Nat × Nat))
  | 0, _, _, _, _ => throw .fuel
  | fuel + 1, a, seen, result, props =>
    match props with
    | [] => pure (a, seen)
    | (nm, p) :: rest => do
      let (a, seen, d) ← deeplyOptionalF cfg fuel a seen p.ty
      let a :=
        match getTy a result with
        | .table rprops indexer stt bt lvl rn sn =>
          setTy a result
            (.table (rprops.map (fun q => if q.1 = nm then (q.1, { q.2 with ty := d }) else q))
              indexer stt bt lvl rn sn)
        | _ => a
      deeplyOptionalProps cfg fuel a seen result rest

end

end LuauUnify

namespace LuauUnify

def isPrimNode : TyNode → Bool
  | .prim _ => true
  | _ => false

def isSingletonNode : TyNode → Bool
  | .singleton _ => true
  | _ => false

def isFnNode : TyNode → Bool
  | .fn _ _ _ _ _ _ => true
  | _ => false

def isTableNode : TyNode → Bool
  | .table _ _ _ _ _ _ _ => true
  | _ => false

def isMtNode : TyNode → Bool
  | .mt _ _ => true
  | _ => false

def isClsNode : TyNode → Bool
  | .cls _ _ _ => true
  | _ => false

def isVariadicNode : PackNode → Bool
  | .variadic _ => true
  | _ => false

/-- Unifier::checkChildUnifierTypeMismatch (lines 2178-2184). -/
def checkChildUTM (st : UState) (innerErrors : List TypeError) (wanted given : Nat) :
    UState :=
  match hasUTC innerErrors with
  | some e => pushErr st e
  | none =>
    if innerErrors ≠ [] then pushErr st (.typeMismatch wanted given none) else st

/-- Unifier::checkChildUnifierTypeMismatch with a property name
(lines 2186-2195). -/
def checkChildUTMProp (st : UState) (innerErrors : List TypeError) (propName : String)
    (wanted given : Nat) : UState :=
  match hasUTC innerErrors with
  | some e => pushErr st e
  | none =>
    if innerErrors ≠ [] then
      pushErr st (.typeMismatchCaused wanted given
        (some ("Property '" ++ propName ++ "' is not compatible."))
        (innerErrors.headD .occursCheckFailed))
    else st

/-- The union-supertype option-ordering heuristic (lines 452-501): returns
(startIndex, foundHeuristic). -/
def unionStartIndex (cfg : Config) (st : UState) (subTy : Nat) (opts : List Nat)
    (cacheEnabled : Bool) : Nat × Bool :=
  if ¬ cfg.flags.unionHeuristic then (0, false)
  else
    let p1 : Nat × Bool :=
      match getNameT st.arena subTy with
      | some n =>
        match opts.findIdx? (fun o => getNameT st.arena o = some n) with
        | some i => (i, true)
        | none => (0, false)
      | none => (0, false)
    let p2 : Nat × Bool :=
      if cfg.flags.extendedUnionMismatchError then
        match getTableMatchTag st.arena subTy with
        | some tag =>
          match opts.findIdx? (fun o => getTableMatchTag st.arena o = some tag) with
          | some i => (i, true)
          | none => p1
        | none => p1
      else p1
    if ¬ p2.2 ∧ cacheEnabled then
      match opts.findIdx? (fun o =>
          cacheContains st o subTy ∧
          (st.variance = .covariant ∨ cacheContains st subTy o)) with
      | some i => (i, p2.2)
      | none => p2
    else p2

/-- Unifier::tryUnifyPrimitives (lines 1019-1028). -/
def tryUnifyPrimitivesF (st : UState) (superTy subTy : Nat) : Except Abort UState :=
  match getTy st.arena superTy, getTy st.arena subTy with
  | .prim lk, .prim rk =>
    if lk ≠ rk then pure (pushErr st (.typeMismatch superTy subTy none)) else pure st
  | _, _ => throw (.ice "passed non primitive types to unifyPrimitives")

/-- Unifier::tryUnifySingletons (lines 1030-1049). -/
def tryUnifySingletonsF (st : UState) (superTy subTy : Nat) : Except Abort UState :=
  match getTy st.arena superTy, getTy st.arena subTy with
  | .singleton ls, .singleton rs =>
    if ls = rs then pure st
    else pure (pushErr st (.typeMismatch superTy subTy none))
  | .prim lk, .singleton rs =>
    if lk = .booleanPrim && (match rs with | .boolSing _ => true | _ => false) &&
        st.variance = .covariant then pure st
    else if lk = .stringPrim && (match rs with | .stringSing _ => true | _ => false) &&
        st.variance = .covariant then pure st
    else pure (pushErr st (.typeMismatch superTy subTy none))
  | _, _ => throw (.ice "passed non singleton/primitive types to unifySingletons")

/-- The empty-head-skip loops at the start of the pack unifier
(lines 819-833). -/
def skipEmptyPacks (a : Arena) : Nat → Nat → Nat
  | 0, tp => tp
  | fuel + 1, tp =>
    match getTp a tp with
    | .pack [] (some tail) => skipEmptyPacks a fuel (followTp a tail)
    | _ => tp

/-- WeirdIter (lines 705-775): a cursor over a rope of TypePacks. -/
structure WIter where
  packId : Nat
  index : Nat
  growing : Bool
  level : TypeLevel := default
deriving DecidableEq, Repr

/-- The TypePack view of the iterator's current pack (the cached pack
pointer of the C++ struct, re-read from the arena). -/
def wpack (a : Arena) (it : WIter) : Option (List Nat × Option Nat) :=
  match getTp a it.packId with
  | .pack h t => some (h, t)
  | _ => none

/-- The constructor's skip of empty-headed packs (which does not follow
tails). -/
def mkWIterAux (a : Arena) : Nat → Nat → Nat
  | 0, p => p
  | fuel + 1, p =>
    match getTp a p with
    | .pack [] (some tail) => mkWIterAux a fuel tail
    | _ => p

def mkWIter (a : Arena) (packId : Nat) : WIter :=
  { packId := mkWIterAux a (a.packs.length + 1) packId, index := 0, growing := false }

def wgood (a : Arena) (it : WIter) : Bool :=
  match wpack a it with
  | some (h, _) => it.index < h.length
  | none => false

def wget (a : Arena) (it : WIter) : Nat :=
  match wpack a it with
  | some (h, _) => h.getD it.index 0
  | none => 0

def wadvance (a : Arena) (it : WIter) : WIter :=
  match wpack a it with
  | none => it
  | some (h, t) =>
    let index := if it.index < h.length then it.index + 1 else it.index
    let it2 := { it with index := index }
    if it2.growing ∨ index < h.length then it2
    else
      match t with
      | some tail => { it2 with packId := followTp a tail, index := 0 }
      | none => it2

def wcanGrow (a : Arena) (it : WIter) : Bool := isFreePack (getTp a it.packId)

def wgrow (a : Arena) (it : WIter) (newTail : Nat) : Arena × WIter :=
  let lvl := match getTp a it.packId with | .freeTp l => l | _ => default
  let a := setTp a it.packId (.boundTp newTail)
  (a, { packId := newTail, index := 0, growing := true, level := lvl })

end LuauUnify

namespace LuauUnify

/-- A read-only view of a table node. -/
structure TView where
  props : List (String × Property)
  indexer : Option (Nat × Nat)
  state : TableState
  boundTo : Option Nat
  lvl : TypeLevel
  name : Option String
  syntheticName : Option String
deriving DecidableEq, Repr

def tview : TyNode → Option TView
  | .table p i s b l n sn => some ⟨p, i, s, b, l, n, sn⟩
  | _ => none

def findProp (props : List (String × Property)) (nm : String) :
    Option (String × Property) :=
  props.find? (fun q => q.1 = nm)

/-- Write through the live table pointer: set boundTo. -/
def setTableBoundTo (a : Arena) (i : Nat) (bt : Option Nat) : Arena :=
  match getTy a i with
  | .table p idx s _ l n sn => setTy a i (.table p idx s bt l n sn)
  | _ => a

/-- Write through the live table pointer: set the indexer. -/
def setTableIndexer (a : Arena) (i : Nat) (idx : Option (Nat × Nat)) : Arena :=
  match getTy a i with
  | .table p _ s b l n sn => setTy a i (.table p idx s b l n sn)
  | _ => a

/-- Write through the live table pointer: map-insert a property (names are
unique, so appending matches std::map insertion up to iteration order). -/
def insertTableProp (a : Arena) (i : Nat) (nm : String) (p : Property) : Arena :=
  match getTy a i with
  | .table props idx s b l n sn =>
    setTy a i (.table (props ++ [(nm, p)]) idx s b l n sn)
  | _ => a

mutual

/-- Unifier::tryUnify_(TypeId, TypeId, bool, bool) (lines 257-670): guards,
follow, free-variable rules, any/error absorption, cache, cycle guard, then
the structural dispatch. -/
def tryUnifyTy (cfg : Config) (fuel : Nat) (st0 : UState) (superTy0 : Nat) (subTy0 : Nat) (ff : Bool) (ii : Bool) :
    Except Abort UState :=
  match fuel with
  | 0 => throw .fuel
  | fuel + 1 =>
    let st := { st0 with iterationCount := st0.iterationCount + 1 }
    if 0 < cfg.iterationLimit ∧ cfg.iterationLimit < st.iterationCount then
      pure (pushErr st .unificationTooComplex)
    else
      let superTy := followTy st.arena superTy0
      let subTy := followTy st.arena subTy0
      if superTy = subTy then pure st
      else
        match getTy st.arena superTy, getTy st.arena subTy with
        | .freeTy ll, .freeTy rl =>
          if ll.subsumes rl then do
            let st ← occursCheckTy cfg fuel st subTy superTy
            if getTy st.arena subTy = .errorTy then pure st
            else
              let st := logTy st subTy
              pure { st with arena := setTy st.arena subTy (.boundTy superTy) }
          else do
            let st := if ¬ cfg.flags.errorRecoveryType then logTy st superTy else st
            let st ← occursCheckTy cfg fuel st superTy subTy
            let st := { st with arena := setTy st.arena subTy (.freeTy (minLevel rl ll)) }
            if ¬ cfg.flags.errorRecoveryType then
              pure { st with arena := setTy st.arena superTy (.boundTy subTy) }
            else if getTy st.arena superTy = .errorTy then pure st
            else
              let st := logTy st superTy
              pure { st with arena := setTy st.arena superTy (.boundTy subTy) }
        | .freeTy ll, _ => do
          let st ← occursCheckTy cfg fuel st superTy subTy
          let escaping :=
            match getTy st.arena subTy with
            | .genericTy glvl => !(glvl.subsumes ll)
            | _ => false
          if escaping then
            pure (pushErr st (.genericError "Generic subtype escaping scope"))
          else if getTy st.arena superTy = .errorTy then pure st
          else do
            let st ←
              if cfg.flags.properTypeLevels then promoteTypeLevelsTy cfg fuel st ll subTy
              else
                match getLevelOf (getTy st.arena subTy) with
                | some rlvl =>
                  if ¬ rlvl.subsumes ll then
                    let a2 := setTy st.arena subTy (withLevel (getTy st.arena subTy) ll)
                    pure { st with arena := a2 }
                  else pure st
                | none => pure st
            let st := logTy st superTy
            pure { st with arena := setTy st.arena superTy (.boundTy subTy) }
        | _, .freeTy rl => do
          let st ← occursCheckTy cfg fuel st subTy superTy
          let escaping :=
            match getTy st.arena superTy with
            | .genericTy glvl => !(glvl.subsumes rl)
            | _ => false
          if escaping then
            pure (pushErr st (.genericError "Generic supertype escaping scope"))
          else if getTy st.arena subTy = .errorTy then pure st
          else do
            let st ←
              if cfg.flags.properTypeLevels then promoteTypeLevelsTy cfg fuel st rl superTy
              else pure st
            let st :=
              match getLevelOf (getTy st.arena superTy) with
              | some slvl =>
                if ¬ slvl.subsumes rl then
                  let st := logTy st superTy
                  let a2 := setTy st.arena superTy (withLevel (getTy st.arena superTy) rl)
                  { st with arena := a2 }
                else st
              | none => st
            let st := logTy st subTy
            pure { st with arena := setTy st.arena subTy (.boundTy superTy) }
        | _, _ =>
          if getTy st.arena superTy = .errorTy ∨ getTy st.arena superTy = .anyTy then
            tryUnifyWithAnyTy cfg fuel st superTy subTy
          else if getTy st.arena subTy = .errorTy ∨ getTy st.arena subTy = .anyTy then
            tryUnifyWithAnyTy cfg fuel st subTy superTy
          else
            let cacheEnabled := ¬ ff ∧ ¬ ii
            if cacheEnabled ∧ cacheContains st superTy subTy ∧
                (st.variance = .covariant ∨ cacheContains st subTy superTy) then
              pure st
            else if haveSeen st superTy subTy then pure st
            else do
              let st := pushSeen st superTy subTy
              let st ← tryUnifyDispatch cfg fuel st superTy subTy ff ii cacheEnabled
              pure (popSeen st superTy subTy)

termination_by structural fuel

/-- The structural dispatch of tryUnify_ (lines 399-667), bracketed by
pushSeen / popSeen in the caller. -/
def tryUnifyDispatch (cfg : Config) (fuel : Nat) (st : UState) (superTy : Nat) (subTy : Nat) (ff : Bool) (ii : Bool) (cacheEnabled : Bool) :
    Except Abort UState :=
  match fuel with
  | 0 => throw .fuel
  | fuel + 1 =>
    if let .union opts := getTy st.arena subTy then do
      -- A | B <: T if A <: T and B <: T (lines 399-442)
      let (st, failed, utc, ffo) ← unionSubLoop cfg fuel st superTy opts false none none
      match utc with
      | some e => pure (pushErr st e)
      | none =>
        if failed then
          if cfg.flags.extendedTypeMismatchError ∧ ffo.isSome then
            pure (pushErr st (.typeMismatchCaused superTy subTy
              (some "Not all union options are compatible.")
              (ffo.getD .occursCheckFailed)))
          else pure (pushErr st (.typeMismatch superTy subTy none))
        else pure st
    else if let .union opts := getTy st.arena superTy then
      unionSuperBranch cfg fuel st superTy subTy ff cacheEnabled opts
    else if let .inter parts := getTy st.arena superTy then
      -- T <: A & B if A <: T and B <: T (lines 545-582)
      if cfg.flags.extendedTypeMismatchError then do
        let (st, utc, ffo) ← interSuperLoopExt cfg fuel st subTy parts none none
        match utc with
        | some e => pure (pushErr st e)
        | none =>
          match ffo with
          | some f => pure (pushErr st (.typeMismatchCaused superTy subTy
              (some "Not all intersection parts are compatible.") f))
          | none => pure st
      else interSuperLoopOld cfg fuel st subTy parts
    else if let .inter parts := getTy st.arena subTy then do
      -- A & B <: T if T <: A or T <: B (lines 583-634)
      let startIndex :=
        if cacheEnabled then
          match parts.findIdx? (fun p =>
              cacheContains st superTy p ∧
              (st.variance = .covariant ∨ cacheContains st p superTy)) with
          | some i => i
          | none => 0
        else 0
      let rparts := parts.drop startIndex ++ parts.take startIndex
      let (st, found, utc) ← interSubLoop cfg fuel st superTy rparts ff none
      match utc with
      | some e => pure (pushErr st e)
      | none =>
        if found then pure st
        else if cfg.flags.extendedTypeMismatchError then
          pure (pushErr st (.typeMismatch superTy subTy
            (some "none of the intersection parts are compatible")))
        else pure (pushErr st (.typeMismatch superTy subTy none))
    else if isPrimNode (getTy st.arena superTy) ∧ isPrimNode (getTy st.arena subTy) then
      tryUnifyPrimitivesF st superTy subTy
    else if cfg.flags.singletonTypes ∧
        (isPrimNode (getTy st.arena superTy) ∨ isSingletonNode (getTy st.arena superTy)) ∧
        isSingletonNode (getTy st.arena subTy) then
      tryUnifySingletonsF st superTy subTy
    else if isFnNode (getTy st.arena superTy) ∧ isFnNode (getTy st.arena subTy) then
      tryUnifyFunctionsF cfg fuel st superTy subTy ff
    else if isTableNode (getTy st.arena superTy) ∧ isTableNode (getTy st.arena subTy) then do
      let st ← tryUnifyTablesF cfg fuel st superTy subTy ii
      if cacheEnabled ∧ st.errors = [] then cacheResultF fuel st superTy subTy
      else pure st
    else if isMtNode (getTy st.arena superTy) then
      tryUnifyWithMetatableF cfg fuel st superTy subTy false
    else if isMtNode (getTy st.arena subTy) then
      tryUnifyWithMetatableF cfg fuel st subTy superTy true
    else if isClsNode (getTy st.arena superTy) then
      tryUnifyWithClassF cfg fuel st superTy subTy false
    else if isClsNode (getTy st.arena subTy) then
      tryUnifyWithClassF cfg fuel st superTy subTy true
    else pure (pushErr st (.typeMismatch superTy subTy none))

termination_by structural fuel

/-- The union-supertype branch of the dispatch (lines 443-543): pick the
heuristic start index, try the options cyclically from it, then report. -/
def unionSuperBranch (cfg : Config) (fuel : Nat) (st : UState) (superTy subTy : Nat)
    (ff cacheEnabled : Bool) (opts : List Nat) : Except Abort UState :=
  match fuel with
  | 0 => throw .fuel
  | fuel + 1 => do
    let (startIndex, foundHeuristic) := unionStartIndex cfg st subTy opts cacheEnabled
    let ropts := opts.drop startIndex ++ opts.take startIndex
    let (st, found, utc, foc, fo) ← unionSuperLoop cfg fuel st subTy ropts ff none 0 none
    match utc with
    | some e => pure (pushErr st e)
    | none =>
      if found then pure st
      else if cfg.flags.extendedUnionMismatchError ∧ (foc = 1 ∨ foundHeuristic) ∧
          fo.isSome then
        pure (pushErr st (.typeMismatchCaused superTy subTy
          (some "None of the union options are compatible. For example:")
          (fo.getD .occursCheckFailed)))
      else if cfg.flags.extendedTypeMismatchError then
        pure (pushErr st (.typeMismatch superTy subTy
          (some "none of the union options are compatible")))
      else pure (pushErr st (.typeMismatch superTy subTy none))
termination_by structural fuel

/-- The option loop of the union-subtype branch (lines 406-431).  The C++
loop detects the last option with an index comparison (i != count - 1),
which is equivalent to rest being empty here. -/
def unionSubLoop (cfg : Config) (fuel : Nat) (st : UState) (superTy : Nat) (opts : List Nat) (failed : Bool) (utc : Option TypeError) (ffo : Option TypeError) :
    Except Abort (UState × Bool × Option TypeError × Option TypeError) :=
  match fuel with
  | 0 => throw .fuel
  | fuel + 1 =>
    match opts with
    | [] => pure (st, failed, utc, ffo)
    | ty :: rest => do
      let inner ← tryUnifyTy cfg fuel (mkChild st) superTy ty false false
      let acc :=
        match hasUTC inner.errors with
        | some e => (failed, some e, ffo)
        | none =>
          if inner.errors ≠ [] then
            (true, utc,
              if cfg.flags.extendedTypeMismatchError ∧ ffo = none ∧
                  ¬ isNilT inner.arena ty then
                some (inner.errors.headD .occursCheckFailed)
              else ffo)
          else (failed, utc, ffo)
      let st :=
        if rest ≠ [] then { absorb st inner with arena := rollbackLog inner.log inner.arena }
        else { absorb st inner with log := inner.log ++ st.log }
      unionSubLoop cfg fuel st superTy rest acc.1 acc.2.1 acc.2.2

termination_by structural fuel

/-- The option loop of the union-supertype branch (lines 503-528): stop on
the first success, concatenating that child's log; roll back failures. -/
def unionSuperLoop (cfg : Config) (fuel : Nat) (st : UState) (subTy : Nat) (opts : List Nat) (ff : Bool) (utc : Option TypeError) (foc : Nat) (fo : Option TypeError) :
    Except Abort (UState × Bool × Option TypeError × Nat × Option TypeError) :=
  match fuel with
  | 0 => throw .fuel
  | fuel + 1 =>
    match opts with
    | [] => pure (st, false, utc, foc, fo)
    | ty :: rest => do
      let inner ← tryUnifyTy cfg fuel (mkChild st) ty subTy ff false
      if inner.errors = [] then
        pure ({ absorb st inner with log := inner.log ++ st.log }, true, utc, foc, fo)
      else
        let acc :=
          match hasUTC inner.errors with
          | some e => (some e, foc, fo)
          | none =>
            if cfg.flags.extendedUnionMismatchError ∧ ¬ isNilT inner.arena ty then
              (utc, foc + 1,
                if fo = none then some (inner.errors.headD .occursCheckFailed) else fo)
            else (utc, foc, fo)
        let st := { absorb st inner with arena := rollbackLog inner.log inner.arena }
        unionSuperLoop cfg fuel st subTy rest ff acc.1 acc.2.1 acc.2.2

termination_by structural fuel

/-- The part loop of the intersection-supertype branch under
LuauExtendedTypeMismatchError (lines 547-567): all child logs concatenate. -/
def interSuperLoopExt (cfg : Config) (fuel : Nat) (st : UState) (subTy : Nat) (parts : List Nat) (utc : Option TypeError) (ffo : Option TypeError) :
    Except Abort (UState × Option TypeError × Option TypeError) :=
  match fuel with
  | 0 => throw .fuel
  | fuel + 1 =>
    match parts with
    | [] => pure (st, utc, ffo)
    | ty :: rest => do
      let inner ← tryUnifyTy cfg fuel (mkChild st) ty subTy false true
      let acc :=
        match hasUTC inner.errors with
        | some e => (some e, ffo)
        | none =>
          if inner.errors ≠ [] ∧ ffo = none then
            (utc, some (inner.errors.headD .occursCheckFailed))
          else (utc, ffo)
      let st := { absorb st inner with log := inner.log ++ st.log }
      interSuperLoopExt cfg fuel st subTy rest acc.1 acc.2

termination_by structural fuel

/-- The part loop of the intersection-supertype branch without the flag
(lines 574-581): recursion in the same unifier. -/
def interSuperLoopOld (cfg : Config) (fuel : Nat) (st : UState) (subTy : Nat) (parts : List Nat) :
    Except Abort UState :=
  match fuel with
  | 0 => throw .fuel
  | fuel + 1 =>
    match parts with
    | [] => pure st
    | ty :: rest => do
      let st ← tryUnifyTy cfg fuel st ty subTy false true
      interSuperLoopOld cfg fuel st subTy rest

termination_by structural fuel

/-- The part loop of the intersection-subtype branch (lines 605-623). -/
def interSubLoop (cfg : Config) (fuel : Nat) (st : UState) (superTy : Nat) (parts : List Nat) (ff : Bool) (utc : Option TypeError) :
    Except Abort (UState × Bool × Option TypeError) :=
  match fuel with
  | 0 => throw .fuel
  | fuel + 1 =>
    match parts with
    | [] => pure (st, false, utc)
    | ty :: rest => do
      let inner ← tryUnifyTy cfg fuel (mkChild st) superTy ty ff false
      if inner.errors = [] then
        pure ({ absorb st inner with log := inner.log ++ st.log }, true, utc)
      else
        let utc := match hasUTC inner.errors with | some e => some e | none => utc
        let st := { absorb st inner with arena := rollbackLog inner.log inner.arena }
        interSubLoop cfg fuel st superTy rest ff utc

termination_by structural fuel

/-- Unifier::tryUnifyFunctions (lines 1051-1157). -/
def tryUnifyFunctionsF (cfg : Config) (fuel : Nat) (st : UState) (superTy : Nat) (subTy : Nat) (isFunctionCall : Bool) :
    Except Abort UState :=
  match fuel with
  | 0 => throw .fuel
  | fuel + 1 =>
    match getTy st.arena superTy, getTy st.arena subTy with
    | .fn _ lgs lgps largs lret _, .fn _ rgs rgps _ _ _ =>
      let (st, numGenerics) :=
        if lgs.length ≠ rgs.length then
          (pushErr st
            (if cfg.flags.extendedFunctionMismatchError then
              .typeMismatch superTy subTy (some "different number of generic type parameters")
            else .typeMismatch superTy subTy none),
            min lgs.length rgs.length)
        else (st, lgs.length)
      let st :=
        if lgps.length ≠ rgps.length then
          pushErr st
            (if cfg.flags.extendedFunctionMismatchError then
              .typeMismatch superTy subTy
                (some "different number of generic type pack parameters")
            else .typeMismatch superTy subTy none)
        else st
      let pairs := (lgs.take numGenerics).zip (rgs.take numGenerics)
      let st := pairs.foldl (fun s p => pushSeen s p.1 p.2) st
      let context := st.ctx
      do
        let st ←
          if ¬ isFunctionCall then
            if cfg.flags.extendedFunctionMismatchError then do
              let rargs := match getTy st.arena subTy with
                | .fn _ _ _ ra _ _ => ra
                | _ => 0
              let rret := match getTy st.arena subTy with
                | .fn _ _ _ _ rr _ => rr
                | _ => 0
              let inner0 := { mkChild st with ctx := .arg }
              let inner ← tryUnifyTp cfg fuel inner0 rargs largs isFunctionCall
              let reported := inner.errors ≠ []
              let st :=
                match hasUTC inner.errors with
                | some e => pushErr st e
                | none =>
                  if inner.errors ≠ [] ∧ inner.firstPackErrorPos.isSome then
                    pushErr st (.typeMismatchCaused superTy subTy
                      (some ("Argument #" ++ toString (inner.firstPackErrorPos.getD 0) ++
                        " type is not compatible."))
                      (inner.errors.headD .occursCheckFailed))
                  else if inner.errors ≠ [] then
                    pushErr st (.typeMismatchCaused superTy subTy (some "")
                      (inner.errors.headD .occursCheckFailed))
                  else st
              let inner := { inner with ctx := .result }
              let inner ← tryUnifyTp cfg fuel inner lret rret false
              let st :=
                if ¬ reported then
                  match hasUTC inner.errors with
                  | some e => pushErr st e
                  | none =>
                    if inner.errors ≠ [] ∧ sizePack inner.arena lret = 1 ∧
                        finitePack inner.arena lret then
                      pushErr st (.typeMismatchCaused superTy subTy
                        (some "Return type is not compatible.")
                        (inner.errors.headD .occursCheckFailed))
                    else if inner.errors ≠ [] ∧ inner.firstPackErrorPos.isSome then
                      pushErr st (.typeMismatchCaused superTy subTy
                        (some ("Return #" ++ toString (inner.firstPackErrorPos.getD 0) ++
                          " type is not compatible."))
                        (inner.errors.headD .occursCheckFailed))
                    else if inner.errors ≠ [] then
                      pushErr st (.typeMismatchCaused superTy subTy (some "")
                        (inner.errors.headD .occursCheckFailed))
                    else st
                else st
              pure { absorb st inner with log := inner.log ++ st.log }
            else do
              let rargs := match getTy st.arena subTy with
                | .fn _ _ _ ra _ _ => ra
                | _ => 0
              let rret := match getTy st.arena subTy with
                | .fn _ _ _ _ rr _ => rr
                | _ => 0
              let st := { st with ctx := .arg }
              let inner0 := mkChild st
              let inner ← tryUnifyTp cfg fuel inner0 rargs largs isFunctionCall
              let st := { st with ctx := .result }
              let inner ← tryUnifyTp cfg fuel inner lret rret false
              let st := checkChildUTM st inner.errors superTy subTy
              pure { absorb st inner with log := inner.log ++ st.log }
          else do
            let rargs := match getTy st.arena subTy with
              | .fn _ _ _ ra _ _ => ra
              | _ => 0
            let rret := match getTy st.arena subTy with
              | .fn _ _ _ _ rr _ => rr
              | _ => 0
            let st := { st with ctx := .arg }
            let st ← tryUnifyTp cfg fuel st rargs largs isFunctionCall
            let st := { st with ctx := .result }
            tryUnifyTp cfg fuel st lret rret false
        -- definition metadata propagation (lines 1144-1151), unlogged
        let st :=
          match getTy st.arena superTy, getTy st.arena subTy with
          | .fn al ags agps aargs aret adef, .fn bl bgs bgps bargs bret bdef =>
            if adef.isSome ∧ bdef.isNone ∧ ¬ st.arena.persistentT.contains subTy then
              { st with arena := setTy st.arena subTy (.fn bl bgs bgps bargs bret adef) }
            else if adef.isNone ∧ bdef.isSome ∧ ¬ st.arena.persistentT.contains superTy then
              { st with arena := setTy st.arena superTy (.fn al ags agps aargs aret bdef) }
            else st
          | _, _ => st
        let st := { st with ctx := context }
        let st := pairs.reverse.foldl (fun s p => popSeen s p.1 p.2) st
        pure st
    | _, _ => throw (.ice "passed non-function types to unifyFunction")

termination_by structural fuel

/-- Unifier::tryUnifyTables (lines 1181-1412). -/
def tryUnifyTablesF (cfg : Config) (fuel : Nat) (st : UState) (left : Nat) (right : Nat) (isIntersection : Bool) :
    Except Abort UState :=
  match fuel with
  | 0 => throw .fuel
  | fuel + 1 =>
    if ¬ cfg.flags.tableSubtypingVariance2 then
      deprecatedTryUnifyTablesF cfg fuel st left right isIntersection
    else
      match tview (getTy st.arena left), tview (getTy st.arena right) with
      | some lt, some rt =>
        let missing0 : List String :=
          if cfg.flags.tableUnificationEarlyTest ∧ rt.indexer.isNone ∧
              rt.state ≠ .free then
            (lt.props.filter (fun p =>
              (findProp rt.props p.1).isNone ∧
              ¬ isOptionalT st.arena p.2.ty ∧
              ¬ (getTy st.arena (followTy st.arena p.2.ty) = .anyTy))).map (fun p => p.1)
          else []
        if missing0 ≠ [] then
          pure (pushErr st (.missingProperties left right missing0 false))
        else
          let extra0 : List String :=
            if cfg.flags.tableUnificationEarlyTest ∧ st.variance = .invariant ∧
                lt.indexer.isNone ∧ lt.state ≠ .unsealed ∧ lt.state ≠ .free then
              (rt.props.filter (fun p =>
                (findProp lt.props p.1).isNone ∧
                ¬ isOptionalT st.arena p.2.ty ∧
                ¬ (getTy st.arena (followTy st.arena p.2.ty) = .anyTy))).map (fun p => p.1)
            else []
          if extra0 ≠ [] then
            pure (pushErr st (.missingProperties left right extra0 true))
          else do
            let (st, missing) ← tablePropsLoopL cfg fuel st left right lt.props []
            let (st, extra) ← tablePropsLoopR cfg fuel st left right rt.props []
            let st ← tableIndexersStep cfg fuel st left right
            if missing ≠ [] then
              pure (pushErr st (.missingProperties left right missing false))
            else if extra ≠ [] then
              pure (pushErr st (.missingProperties left right extra true))
            else
              match tview (getTy st.arena left), tview (getTy st.arena right) with
              | some lt2, some rt2 =>
                if lt2.boundTo.isSome ∨ rt2.boundTo.isSome then
                  tryUnifyTy cfg fuel st left right false false
                else if lt2.state = .free then
                  let st := logTy st left
                  pure { st with arena := setTableBoundTo st.arena left (some right) }
                else if rt2.state = .free then
                  let st := logTy st right
                  pure { st with arena := setTableBoundTo st.arena right (some left) }
                else pure st
              | _, _ => pure st
      | _, _ => throw (.ice "passed non-table types to unifyTables")

termination_by structural fuel

/-- The supertype property pass of tryUnifyTables (lines 1232-1286). -/
def tablePropsLoopL (cfg : Config) (fuel : Nat) (st : UState) (left : Nat) (right : Nat) (props : List (String × Property)) (missing : List String) :
    Except Abort (UState × List String) :=
  match fuel with
  | 0 => throw .fuel
  | fuel + 1 =>
    match props with
    | [] => pure (st, missing)
    | (name, prop) :: rest =>
      match tview (getTy st.arena right) with
      | some rt =>
        match findProp rt.props name with
        | some q => do
          let inner0 := { mkChild st with variance := .invariant }
          let inner ← tryUnifyTy cfg fuel inner0 prop.ty q.2.ty false false
          let st :=
            if cfg.flags.extendedTypeMismatchError then
              checkChildUTMProp st inner.errors name left right
            else checkChildUTM st inner.errors left right
          let st :=
            if inner.errors = [] then
              { absorb st inner with log := inner.log ++ st.log }
            else { absorb st inner with arena := rollbackLog inner.log inner.arena }
          tablePropsLoopL cfg fuel st left right rest missing
        | none =>
          let hasStringIndexer :=
            match rt.indexer with
            | some (it, _) => isStringT st.arena it
            | none => false
          if hasStringIndexer then do
            let rvalue := match rt.indexer with | some (_, rv) => rv | none => 0
            let inner0 := { mkChild st with variance := .invariant }
            let inner ← tryUnifyTy cfg fuel inner0 prop.ty rvalue false false
            let st :=
              if cfg.flags.extendedTypeMismatchError then
                checkChildUTMProp st inner.errors name left right
              else checkChildUTM st inner.errors left right
            let st :=
              if inner.errors = [] then
                { absorb st inner with log := inner.log ++ st.log }
              else { absorb st inner with arena := rollbackLog inner.log inner.arena }
            tablePropsLoopL cfg fuel st left right rest missing
          else if isOptionalT st.arena prop.ty ∨
              getTy st.arena (followTy st.arena prop.ty) = .anyTy then
            -- unsound acceptance, documented in the source (line 1274)
            tablePropsLoopL cfg fuel st left right rest missing
          else if rt.state = .free then
            let st := logTy st right
            let st := { st with arena := insertTableProp st.arena right name prop }
            tablePropsLoopL cfg fuel st left right rest missing
          else tablePropsLoopL cfg fuel st left right rest (missing ++ [name])
      | none => tablePropsLoopL cfg fuel st left right rest missing

termination_by structural fuel

/-- The subtype property pass of tryUnifyTables (lines 1288-1340). -/
def tablePropsLoopR (cfg : Config) (fuel : Nat) (st : UState) (left : Nat) (right : Nat) (props : List (String × Property)) (extra : List String) :
    Except Abort (UState × List String) :=
  match fuel with
  | 0 => throw .fuel
  | fuel + 1 =>
    match props with
    | [] => pure (st, extra)
    | (name, prop) :: rest =>
      match tview (getTy st.arena left) with
      | some lt =>
        if (findProp lt.props name).isSome then
          tablePropsLoopR cfg fuel st left right rest extra
        else
          let hasStringIndexer :=
            match lt.indexer with
            | some (it, _) => isStringT st.arena it
            | none => false
          if hasStringIndexer then do
            let lvalue := match lt.indexer with | some (_, lv) => lv | none => 0
            let inner0 := { mkChild st with variance := .invariant }
            let inner ← tryUnifyTy cfg fuel inner0 prop.ty lvalue false false
            let st :=
              if cfg.flags.extendedTypeMismatchError then
                checkChildUTMProp st inner.errors name left right
              else checkChildUTM st inner.errors left right
            let st :=
              if inner.errors = [] then
                { absorb st inner with log := inner.log ++ st.log }
              else { absorb st inner with arena := rollbackLog inner.log inner.arena }
            tablePropsLoopR cfg fuel st left right rest extra
          else if lt.state = .unsealed then do
            let (a, seen, d) ← deeplyOptionalF cfg fuel st.arena [] prop.ty
            let _ := seen
            let st := { st with arena := a }
            let st := logTy st left
            let a2 := insertTableProp st.arena left name { prop with ty := d }
            let st := { st with arena := a2 }
            tablePropsLoopR cfg fuel st left right rest extra
          else if st.variance = .covariant then
            tablePropsLoopR cfg fuel st left right rest extra
          else if isOptionalT st.arena prop.ty ∨
              getTy st.arena (followTy st.arena prop.ty) = .anyTy then
            tablePropsLoopR cfg fuel st left right rest extra
          else if lt.state = .free then
            let st := logTy st left
            let st := { st with arena := insertTableProp st.arena left name prop }
            tablePropsLoopR cfg fuel st left right rest extra
          else tablePropsLoopR cfg fuel st left right rest (extra ++ [name])
      | none => tablePropsLoopR cfg fuel st left right rest extra

termination_by structural fuel

/-- The indexer unification step of tryUnifyTables (lines 1342-1377). -/
def tableIndexersStep (cfg : Config) (fuel : Nat) (st : UState) (left : Nat) (right : Nat) :
    Except Abort UState :=
  match fuel with
  | 0 => throw .fuel
  | fuel + 1 =>
    match tview (getTy st.arena left), tview (getTy st.arena right) with
    | some lt, some rt =>
      match lt.indexer, rt.indexer with
      | some lix, some rix => do
        let inner0 := { mkChild st with variance := .invariant }
        let inner ← tryUnifyIndexerF cfg fuel inner0 lix rix
        let st := checkChildUTM st inner.errors left right
        if inner.errors = [] then
          pure { absorb st inner with log := inner.log ++ st.log }
        else pure { absorb st inner with arena := rollbackLog inner.log inner.arena }
      | some lix, none =>
        if rt.state = .unsealed ∨ rt.state = .free then
          let st := logTy st right
          pure { st with arena := setTableIndexer st.arena right (some lix) }
        else pure st
      | none, some rix =>
        if st.variance = .invariant then
          if lt.state = .unsealed ∨ lt.state = .free then
            let st := logTy st left
            pure { st with arena := setTableIndexer st.arena left (some rix) }
          else pure st
        else pure st
      | none, none => pure st
    | _, _ => pure st

termination_by structural fuel

/-- Unifier::tryUnify(TableIndexer, TableIndexer) (lines 1870-1874). -/
def tryUnifyIndexerF (cfg : Config) (fuel : Nat) (st : UState) (li : (Nat × Nat)) (ri : (Nat × Nat)) :
    Except Abort UState :=
  match fuel with
  | 0 => throw .fuel
  | fuel + 1 => do
    let st ← tryUnifyTy cfg fuel st li.1 ri.1 false false
    tryUnifyTy cfg fuel st li.2 ri.2 false false

termination_by structural fuel

/-- Unifier::DEPRECATED_tryUnifyTables (lines 1436-1513): the Resetter
forces Invariant for the whole call and restores on exit. -/
def deprecatedTryUnifyTablesF (cfg : Config) (fuel : Nat) (st : UState) (left : Nat) (right : Nat) (isIntersection : Bool) :
    Except Abort UState :=
  match fuel with
  | 0 => throw .fuel
  | fuel + 1 => do
    let oldVariance := st.variance
    let st ← deprecatedTablesBody cfg fuel { st with variance := .invariant }
      left right isIntersection
    pure { st with variance := oldVariance }

termination_by structural fuel

/-- The body of DEPRECATED_tryUnifyTables after the Resetter. -/
def deprecatedTablesBody (cfg : Config) (fuel : Nat) (st : UState) (left : Nat) (right : Nat) (isIntersection : Bool) :
    Except Abort UState :=
  match fuel with
  | 0 => throw .fuel
  | fuel + 1 =>
    match tview (getTy st.arena left), tview (getTy st.arena right) with
    | some lt, some rt =>
      if lt.state = .sealed ∧ rt.state = .sealed then
        tryUnifySealedTablesF cfg fuel st left right isIntersection
      else if (lt.state = .sealed ∧ rt.state = .unsealed) ∨
          (lt.state = .unsealed ∧ rt.state = .sealed) then
        tryUnifySealedTablesF cfg fuel st left right isIntersection
      else if (lt.state = .sealed ∧ rt.state = .generic) ∨
          (lt.state = .generic ∧ rt.state = .sealed) then
        pure (pushErr st (.typeMismatch left right none))
      else if decide (lt.state = .free) ≠ decide (rt.state = .free) then
        let freeId := if rt.state = .free then right else left
        let otherId := if rt.state = .free then left else right
        tryUnifyFreeTableF cfg fuel st freeId otherId
      else if lt.state = .free ∧ rt.state = .free then do
        let st ← tryUnifyFreeTableF cfg fuel st left right
        if followTy st.arena left ≠ followTy st.arena right then
          let st := logTy st left
          pure { st with arena := setTableBoundTo st.arena left (some right) }
        else pure st
      else if lt.state ≠ .sealed ∧ rt.state ≠ .sealed then do
        let st ← deprecatedPropsLoop cfg fuel st left right lt.props
        match tview (getTy st.arena left), tview (getTy st.arena right) with
        | some lt2, some rt2 =>
          match lt2.indexer, rt2.indexer with
          | some lix, some rix => tryUnifyIndexerF cfg fuel st lix rix
          | some lix, none =>
            if rt2.state = .unsealed then
              pure { st with arena := setTableIndexer st.arena right (some lix) }
            else pure (pushErr st (.cannotExtendTable right true))
          | none, _ => pure st
        | _, _ => pure st
      else if lt.state = .sealed then
        throw (.ice "unsealed tables are not working yet")
      else if rt.state = .sealed then
        tryUnifyTablesF cfg fuel st right left isIntersection
      else throw (.ice "tryUnifyTables")
    | _, _ => throw (.ice "passed non-table types to unifyTables")

termination_by structural fuel

/-- The property loop of the non-sealed DEPRECATED table branch
(lines 1482-1489). -/
def deprecatedPropsLoop (cfg : Config) (fuel : Nat) (st : UState) (left : Nat) (right : Nat) (props : List (String × Property)) :
    Except Abort UState :=
  match fuel with
  | 0 => throw .fuel
  | fuel + 1 =>
    match props with
    | [] => pure st
    | (name, prop) :: rest =>
      match tview (getTy st.arena right) with
      | some rt =>
        match findProp rt.props name with
        | none =>
          deprecatedPropsLoop cfg fuel
            (pushErr st (.unknownProperty right name)) left right rest
        | some q => do
          let st ← tryUnifyTy cfg fuel st prop.ty q.2.ty false false
          deprecatedPropsLoop cfg fuel st left right rest
      | none => deprecatedPropsLoop cfg fuel st left right rest

termination_by structural fuel

/-- Unifier::tryUnifyFreeTable (lines 1515-1572). -/
def tryUnifyFreeTableF (cfg : Config) (fuel : Nat) (st : UState) (freeId : Nat) (otherId : Nat) :
    Except Abort UState :=
  match fuel with
  | 0 => throw .fuel
  | fuel + 1 =>
    match tview (getTy st.arena freeId), tview (getTy st.arena otherId) with
    | some ft, some _ => do
      let (early, st) ← freeTablePropsLoop cfg fuel st freeId otherId ft.props
      if early then pure st
      else
        match tview (getTy st.arena freeId), tview (getTy st.arena otherId) with
        | some ft2, some ot2 => do
          let st ←
            match ft2.indexer, ot2.indexer with
            | some fix, some oix => do
              let inner ← tryUnifyIndexerF cfg fuel (mkChild st) fix oix
              let st := checkChildUTM st inner.errors freeId otherId
              pure { absorb st inner with log := inner.log ++ st.log }
            | _, _ =>
              if ot2.state = .free ∧ ft2.indexer.isSome then
                -- freeTable->indexer = otherTable->indexer (line 1565), unlogged
                pure { st with arena := setTableIndexer st.arena freeId ot2.indexer }
              else pure st
          match tview (getTy st.arena freeId), tview (getTy st.arena otherId) with
          | some ft3, some ot3 =>
            if ft3.boundTo.isNone ∧ ot3.state ≠ .free then
              let st := logTy st freeId
              pure { st with arena := setTableBoundTo st.arena freeId (some otherId) }
            else pure st
          | _, _ => pure st
        | _, _ => pure st
    | _, _ => throw (.ice "passed non-table types to tryUnifyFreeTable")

termination_by structural fuel

/-- The property loop of tryUnifyFreeTable (lines 1524-1553).  Returns true
when the loop returned early by restarting tryUnify_ on the two tables. -/
def freeTablePropsLoop (cfg : Config) (fuel : Nat) (st : UState) (freeId : Nat) (otherId : Nat) (props : List (String × Property)) :
    Except Abort (Bool × UState) :=
  match fuel with
  | 0 => throw .fuel
  | fuel + 1 =>
    match props with
    | [] => pure (false, st)
    | (name, prop) :: rest =>
      match findTablePropRespectingMeta st.arena fuel otherId name with
      | some otherProp => do
        let st ← tryUnifyTy cfg fuel st otherProp prop.ty false false
        if ¬ isTableNode (getTy st.arena freeId) ∨
            ¬ isTableNode (getTy st.arena otherId) then do
          let st ← tryUnifyTy cfg fuel st freeId otherId false false
          pure (true, st)
        else
          let bound :=
            match tview (getTy st.arena freeId) with
            | some ft => ft.boundTo.isSome
            | none => false
          if bound then do
            let st ← tryUnifyTy cfg fuel st freeId otherId false false
            pure (true, st)
          else freeTablePropsLoop cfg fuel st freeId otherId rest
      | none =>
        match tview (getTy st.arena otherId) with
        | some ot =>
          if ot.state = .free then
            -- otherTable->props.insert (line 1549), unlogged
            let st := { st with arena := insertTableProp st.arena otherId name prop }
            freeTablePropsLoop cfg fuel st freeId otherId rest
          else
            freeTablePropsLoop cfg fuel
              (pushErr st (.unknownProperty otherId name)) freeId otherId rest
        | none => freeTablePropsLoop cfg fuel st freeId otherId rest

termination_by structural fuel

/-- Unifier::tryUnifySealedTables (lines 1574-1710). -/
def tryUnifySealedTablesF (cfg : Config) (fuel : Nat) (st : UState) (left : Nat) (right : Nat) (isIntersection : Bool) :
    Except Abort UState :=
  match fuel with
  | 0 => throw .fuel
  | fuel + 1 =>
    match tview (getTy st.arena left), tview (getTy st.arena right) with
    | some lt, some rt =>
      let isUnnamedTable := rt.name = none ∧ rt.syntheticName = none
      let missing0 : List String :=
        if cfg.flags.tableUnificationEarlyTest ∧ rt.indexer.isNone then
          (lt.props.filter (fun p =>
            (findProp rt.props p.1).isNone ∧ ¬ isOptionalT st.arena p.2.ty)).map
            (fun p => p.1)
        else []
      if missing0 ≠ [] then
        pure (pushErr st (.missingProperties left right missing0 false))
      else do
        let (st, inner, missingInSuper, errorReported) ←
          sealedPropsLoop cfg fuel st (mkChild st) left right lt.props [] false
            isUnnamedTable
        let inner ← sealedIndexerStep cfg fuel inner left right
        let st := { absorb st inner with log := inner.log ++ st.log }
        if errorReported then pure st
        else if missingInSuper ≠ [] then
          pure (pushErr st (.missingProperties left right missingInSuper false))
        else
          match tview (getTy st.arena left), tview (getTy st.arena right) with
          | some lt2, some rt2 =>
            if ¬ isIntersection ∧ lt2.state ≠ .unsealed ∧ lt2.indexer.isNone then
              let extraInSub : List String :=
                (rt2.props.filter (fun p =>
                  (findProp lt2.props p.1).isNone ∧
                  ¬ isOptionalT st.arena p.2.ty)).map (fun p => p.1)
              if extraInSub ≠ [] then
                pure (pushErr st (.missingProperties left right extraInSub true))
              else pure (checkChildUTM st inner.errors left right)
            else pure (checkChildUTM st inner.errors left right)
          | _, _ => pure (checkChildUTM st inner.errors left right)
    | _, _ => throw (.ice "passed non-table types to unifySealedTables")

termination_by structural fuel

/-- The property loop of tryUnifySealedTables (lines 1605-1638), threading
the parent state, the child unifier, the missing list and the
errorReported flag. -/
def sealedPropsLoop (cfg : Config) (fuel : Nat) (st : UState) (inner : UState) (left : Nat) (right : Nat) (props : List (String × Property)) (missing : List String) (errorReported : Bool) (isUnnamed : Bool) :
    Except Abort (UState × UState × List String × Bool) :=
  match fuel with
  | 0 => throw .fuel
  | fuel + 1 =>
    match props with
    | [] => pure (st, inner, missing, errorReported)
    | (name, prop) :: rest =>
      match tview (getTy inner.arena right) with
      | some rt =>
        match findProp rt.props name with
        | none =>
          if isOptionalT inner.arena prop.ty then
            sealedPropsLoop cfg fuel st inner left right rest missing errorReported
              isUnnamed
          else
            let inner := pushErr inner (.typeMismatch left right none)
            sealedPropsLoop cfg fuel st inner left right rest (missing ++ [name])
              errorReported isUnnamed
        | some q =>
          if isUnnamed ∧ q.2.hasLoc then do
            let oldSize := inner.errors.length
            let inner ← tryUnifyTy cfg fuel inner prop.ty q.2.ty false false
            if oldSize ≠ inner.errors.length ∧ ¬ errorReported then
              let st := pushErr st (inner.errors.getLastD .occursCheckFailed)
              sealedPropsLoop cfg fuel st inner left right rest missing true isUnnamed
            else
              sealedPropsLoop cfg fuel st inner left right rest missing errorReported
                isUnnamed
          else do
            let inner ← tryUnifyTy cfg fuel inner prop.ty q.2.ty false false
            sealedPropsLoop cfg fuel st inner left right rest missing errorReported
              isUnnamed
      | none => pure (st, inner, missing, errorReported)

termination_by structural fuel

/-- The indexer section of tryUnifySealedTables (lines 1640-1668), run in
the child unifier. -/
def sealedIndexerStep (cfg : Config) (fuel : Nat) (inner : UState) (left : Nat) (right : Nat) :
    Except Abort UState :=
  match fuel with
  | 0 => throw .fuel
  | fuel + 1 =>
    match tview (getTy inner.arena left), tview (getTy inner.arena right) with
    | some lt, some rt =>
      if lt.indexer.isSome ∨ rt.indexer.isSome then
        match lt.indexer, rt.indexer with
        | some lix, some rix => tryUnifyIndexerF cfg fuel inner lix rix
        | _, _ =>
          if rt.state = .unsealed then
            if lt.indexer.isSome ∧ rt.indexer.isNone then
              pure { inner with arena := setTableIndexer inner.arena right lt.indexer }
            else pure inner
          else if lt.state = .unsealed then
            if rt.indexer.isSome ∧ lt.indexer.isNone then
              pure { inner with arena := setTableIndexer inner.arena left rt.indexer }
            else pure inner
          else
            match lt.indexer with
            | some lix => do
              let inner ← tryUnifyTy cfg fuel inner lix.1 cfg.stringId false false
              sealedIndexerPropsLoop cfg fuel inner left lix.2 rt.props
            | none => pure (pushErr inner (.typeMismatch left right none))
      else pure inner
    | _, _ => pure inner

termination_by structural fuel

/-- The leftover-against-indexer loop of tryUnifySealedTables
(lines 1659-1664). -/
def sealedIndexerPropsLoop (cfg : Config) (fuel : Nat) (inner : UState) (left : Nat) (lixResult : Nat) (props : List (String × Property)) :
    Except Abort UState :=
  match fuel with
  | 0 => throw .fuel
  | fuel + 1 =>
    match props with
    | [] => pure inner
    | (name, p) :: rest =>
      let has :=
        match tview (getTy inner.arena left) with
        | some lt => (findProp lt.props name).isSome
        | none => false
      if has then sealedIndexerPropsLoop cfg fuel inner left lixResult rest
      else do
        let inner ← tryUnifyTy cfg fuel inner lixResult p.ty false false
        sealedIndexerPropsLoop cfg fuel inner left lixResult rest

termination_by structural fuel

/-- Unifier::tryUnifyWithMetatable (lines 1712-1766). -/
def tryUnifyWithMetatableF (cfg : Config) (fuel : Nat) (st : UState) (metatable : Nat) (other : Nat) (reversed : Bool) :
    Except Abort UState :=
  match fuel with
  | 0 => throw .fuel
  | fuel + 1 =>
    match getTy st.arena metatable with
    | .mt lhsTable lhsMeta =>
      let wanted := if reversed then other else metatable
      let given := if reversed then metatable else other
      match getTy st.arena other with
      | .mt rhsTable rhsMeta => do
        let inner0 := mkChild st
        let inner ← tryUnifyTy cfg fuel inner0 lhsTable rhsTable false false
        let inner ← tryUnifyTy cfg fuel inner lhsMeta rhsMeta false false
        let st :=
          if cfg.flags.extendedTypeMismatchError then
            match hasUTC inner.errors with
            | some e => pushErr st e
            | none =>
              if inner.errors ≠ [] then
                pushErr st (.typeMismatchCaused wanted given (some "")
                  (inner.errors.headD .occursCheckFailed))
              else st
          else checkChildUTM st inner.errors wanted given
        pure { absorb st inner with log := inner.log ++ st.log }
      | .table _ _ rstate _ _ _ _ =>
        (match rstate with
        | .free => do
          let st ← tryUnifyTy cfg fuel st lhsTable other false false
          -- rhs->boundTo = metatable (line 1748): NOT preceded by a log entry
          pure { st with arena := setTableBoundTo st.arena other (some metatable) }
        | _ => pure (pushErr st (.typeMismatch wanted given none)))
      | .anyTy => pure st
      | .errorTy => pure st
      | _ => pure (pushErr st (.typeMismatch wanted given none))
    | _ => throw (.ice "tryUnifyMetatable invoked with non-metatable TypeVar")

termination_by structural fuel

/-- Unifier::tryUnifyWithClass (lines 1768-1868). -/
def tryUnifyWithClassF (cfg : Config) (fuel : Nat) (st : UState) (superTy0 : Nat) (subTy0 : Nat) (reversed : Bool) :
    Except Abort UState :=
  match fuel with
  | 0 => throw .fuel
  | fuel + 1 =>
    let superTy := if reversed then subTy0 else superTy0
    let subTy := if reversed then superTy0 else subTy0
    let failErr : TypeError :=
      if ¬ reversed then .typeMismatch superTy subTy none
      else .typeMismatch subTy superTy none
    match getTy st.arena superTy with
    | .cls superName _ _ =>
      match getTy st.arena subTy with
      | .cls _ _ _ =>
        (match st.variance with
        | .covariant =>
          if ¬ isSubclassF st.arena fuel subTy superTy then pure (pushErr st failErr)
          else pure st
        | .invariant =>
          if subTy ≠ superTy then pure (pushErr st failErr) else pure st)
      | .table tprops _ tstate _ _ _ _ =>
        if tstate ≠ .free then pure (pushErr st failErr)
        else do
          let (st, ok) ← classTablePropsLoop cfg fuel st superTy subTy reversed
            tprops true
          let hasIndexer :=
            match tview (getTy st.arena subTy) with
            | some tv => tv.indexer.isSome
            | none => false
          let (st, ok) :=
            if hasIndexer then
              (pushErr st (.genericError
                ("Class " ++ superName ++ " does not have an indexer")), false)
            else (st, ok)
          if ¬ ok then pure st
          else
            let st := logTy st subTy
            pure { st with arena := setTableBoundTo st.arena subTy (some superTy) }
      | _ => pure (pushErr st failErr)
    | _ => throw (.ice "tryUnifyClass invoked with non-class TypeVar")

termination_by structural fuel

/-- The free-table-against-class property loop (lines 1817-1851). -/
def classTablePropsLoop (cfg : Config) (fuel : Nat) (st : UState) (superTy : Nat) (subTy : Nat) (reversed : Bool) (props : List (String × Property)) (ok : Bool) :
    Except Abort (UState × Bool) :=
  match fuel with
  | 0 => throw .fuel
  | fuel + 1 =>
    match props with
    | [] => pure (st, ok)
    | (propName, prop) :: rest =>
      match lookupClassProp st.arena fuel superTy propName with
      | none => do
        let st := pushErr st (.unknownProperty superTy propName)
        let st ←
          if ¬ cfg.flags.extendedClassMismatchError then
            tryUnifyTy cfg fuel st prop.ty cfg.errorId false false
          else pure st
        classTablePropsLoop cfg fuel st superTy subTy reversed rest false
      | some classProp =>
        if cfg.flags.extendedClassMismatchError then do
          let inner ← tryUnifyTy cfg fuel (mkChild st) prop.ty classProp.ty false false
          let st := checkChildUTMProp st inner.errors propName
            (if reversed then subTy else superTy)
            (if reversed then superTy else subTy)
          if inner.errors = [] then
            classTablePropsLoop cfg fuel
              { absorb st inner with log := inner.log ++ st.log }
              superTy subTy reversed rest ok
          else
            classTablePropsLoop cfg fuel
              { absorb st inner with arena := rollbackLog inner.log inner.arena }
              superTy subTy reversed rest false
        else do
          let st ← tryUnifyTy cfg fuel st prop.ty classProp.ty false false
          classTablePropsLoop cfg fuel st superTy subTy reversed rest ok

termination_by structural fuel

/-- Unifier::tryUnify_(TypePackId, TypePackId, bool) (lines 804-1017). -/
def tryUnifyTp (cfg : Config) (fuel : Nat) (st0 : UState) (superTp0 : Nat) (subTp0 : Nat) (isFunctionCall : Bool) :
    Except Abort UState :=
  match fuel with
  | 0 => throw .fuel
  | fuel + 1 =>
    let st := { st0 with iterationCount := st0.iterationCount + 1 }
    if 0 < cfg.iterationLimit ∧ cfg.iterationLimit < st.iterationCount then
      pure (pushErr st .unificationTooComplex)
    else
      let superTp1 := followTp st.arena superTp0
      let subTp1 := followTp st.arena subTp0
      let subTp := skipEmptyPacks st.arena (st.arena.packs.length + 1) subTp1
      let superTp := skipEmptyPacks st.arena (st.arena.packs.length + 1) superTp1
      if superTp = subTp then pure st
      else
        match getTp st.arena superTp, getTp st.arena subTp with
        | .freeTp _, _ => do
          let st ← occursCheckTp cfg fuel st superTp subTp
          if getTp st.arena superTp = .errorTp then pure st
          else
            let st := logTp st superTp
            pure { st with arena := setTp st.arena superTp (.boundTp subTp) }
        | _, .freeTp _ => do
          let st ← occursCheckTp cfg fuel st subTp superTp
          if getTp st.arena subTp = .errorTp then pure st
          else
            let st := logTp st subTp
            pure { st with arena := setTp st.arena subTp (.boundTp superTp) }
        | .errorTp, _ => tryUnifyWithAnyTp cfg fuel st superTp subTp
        | _, .errorTp => tryUnifyWithAnyTp cfg fuel st subTp superTp
        | .variadic _, _ => tryUnifyVariadicsF cfg fuel st superTp subTp false 0
        | _, .variadic _ => tryUnifyVariadicsF cfg fuel st subTp superTp true 0
        | .pack _ _, .pack _ _ =>
          let (superTypes, superTail) := flattenPack st.arena superTp
          let (subTypes, subTail) := flattenPack st.arena subTp
          let noInfiniteGrowth : Bool :=
            (superTypes.length != subTypes.length) &&
            (match superTail with
             | some t => isFreePack (getTp st.arena t)
             | none => false) &&
            (match subTail with
             | some t => isFreePack (getTp st.arena t)
             | none => false)
          let superIter := mkWIter st.arena superTp
          let subIter := mkWIter st.arena subTp
          let (a, emptyTp) := addTp st.arena (.pack [] none)
          packLoop cfg fuel { st with arena := a } superTp subTp superIter subIter
            emptyTp noInfiniteGrowth isFunctionCall 0
        | _, _ => pure (pushErr st (.genericError "Failed to unify type packs"))

termination_by structural fuel

/-- The TypePack growth loop (lines 894-1011).  loopCount and the ICE
guard mirror the C++ exactly; the do-while condition (!noInfiniteGrowth)
is checked on every continue. -/
def packLoop (cfg : Config) (fuel : Nat) (st : UState) (superTp : Nat) (subTp : Nat) (supIt0 : WIter) (subIt0 : WIter) (emptyTp : Nat) (noIG : Bool) (ff : Bool) (loopCount : Nat) :
    Except Abort UState :=
  match fuel with
  | 0 => throw .fuel
  | fuel + 1 =>
    if 0 < cfg.packLoopLimit ∧ cfg.packLoopLimit ≤ loopCount then
      throw (.ice "Detected possibly infinite TypePack growth")
    else
      let loopCount := loopCount + 1
      let (st, subIt) :=
        if wgood st.arena supIt0 ∧ subIt0.growing then
          match getTp st.arena subIt0.packId with
          | .pack h t =>
            let (a, fresh) := freshTy st.arena subIt0.level
            ({ st with arena := setTp a subIt0.packId (.pack (h ++ [fresh]) t) }, subIt0)
          | _ => (st, subIt0)
        else (st, subIt0)
      let (st, supIt) :=
        if wgood st.arena subIt ∧ supIt0.growing then
          match getTp st.arena supIt0.packId with
          | .pack h t =>
            let (a, fresh) := freshTy st.arena supIt0.level
            ({ st with arena := setTp a supIt0.packId (.pack (h ++ [fresh]) t) }, supIt0)
          | _ => (st, supIt0)
        else (st, supIt0)
      if wgood st.arena supIt ∧ wgood st.arena subIt then do
        let st ← tryUnifyTy cfg fuel st (wget st.arena supIt) (wget st.arena subIt)
          false false
        let st :=
          if cfg.flags.extendedFunctionMismatchError ∧ st.errors ≠ [] ∧
              st.firstPackErrorPos = none then
            { st with firstPackErrorPos := some loopCount }
          else st
        let supIt := wadvance st.arena supIt
        let subIt := wadvance st.arena subIt
        if noIG then pure st
        else packLoop cfg fuel st superTp subTp supIt subIt emptyTp noIG ff loopCount
      else if ¬ wgood st.arena supIt ∧ ¬ wgood st.arena subIt then
        match getTp st.arena superTp, getTp st.arena subTp with
        | .pack _ lTail, .pack _ rTail =>
          let lFree :=
            match lTail with
            | some t => isFreePack (getTp st.arena (followTp st.arena t))
            | none => false
          let rFree :=
            match rTail with
            | some t => isFreePack (getTp st.arena (followTp st.arena t))
            | none => false
          if lFree && rFree then
            tryUnifyTp cfg fuel st (lTail.getD 0) (rTail.getD 0) false
          else if lFree then tryUnifyTp cfg fuel st (lTail.getD 0) emptyTp false
          else if rFree then tryUnifyTp cfg fuel st (rTail.getD 0) emptyTp false
          else pure st
        | _, _ => pure st
      else if wcanGrow st.arena supIt ∧ wcanGrow st.arena subIt then
        (match wpack st.arena supIt, wpack st.arena subIt with
        | some (_, some lt2), some (_, some rt2) => tryUnifyTp cfg fuel st lt2 rt2 false
        | _, _ => throw (.ice "unreachable: canGrow pack without TypePack view"))
      else if wcanGrow st.arena supIt then
        let (a, newTail) := addTp st.arena (.pack [] none)
        let (a, supIt) := wgrow a supIt newTail
        if noIG then pure { st with arena := a }
        else
          packLoop cfg fuel { st with arena := a } superTp subTp supIt subIt emptyTp
            noIG ff loopCount
      else if wcanGrow st.arena subIt then
        let (a, newTail) := addTp st.arena (.pack [] none)
        let (a, subIt) := wgrow a subIt newTail
        if noIG then pure { st with arena := a }
        else
          packLoop cfg fuel { st with arena := a } superTp subTp supIt subIt emptyTp
            noIG ff loopCount
      else
        -- lines 948-1009
        if wgood st.arena supIt ∧ isOptionalT st.arena (wget st.arena supIt) then
          let supIt := wadvance st.arena supIt
          if noIG then pure st
          else packLoop cfg fuel st superTp subTp supIt subIt emptyTp noIG ff loopCount
        else if wgood st.arena subIt ∧ isOptionalT st.arena (wget st.arena subIt) then
          let subIt := wadvance st.arena subIt
          if noIG then pure st
          else packLoop cfg fuel st superTp subTp supIt subIt emptyTp noIG ff loopCount
        else if wgood st.arena supIt ∧ isNonstrictMode cfg ∧
            getTy st.arena (followTy st.arena (wget st.arena supIt)) = .anyTy then
          let supIt := wadvance st.arena supIt
          if noIG then pure st
          else packLoop cfg fuel st superTp subTp supIt subIt emptyTp noIG ff loopCount
        else if isVariadicNode (getTp st.arena supIt.packId) then
          tryUnifyVariadicsF cfg fuel st supIt.packId subIt.packId false subIt.index
        else if isVariadicNode (getTp st.arena subIt.packId) then
          tryUnifyVariadicsF cfg fuel st subIt.packId supIt.packId true supIt.index
        else if ¬ ff ∧ wgood st.arena subIt then
          -- Sometimes it is ok to pass too many arguments (lines 981-985)
          pure st
        else do
          let expectedSize := sizePack st.arena superTp
          let actualSize := sizePack st.arena subTp
          let sizes :=
            if st.ctx = .result then (actualSize, expectedSize)
            else (expectedSize, actualSize)
          let st := pushErr st (.countMismatch sizes.1 sizes.2 st.ctx)
          let (st, _) ← packRecoverLoop cfg fuel st supIt
          let (st, _) ← packRecoverLoop cfg fuel st subIt
          pure st

termination_by structural fuel

/-- The leftover recovery loops (lines 996-1006): unify each remaining
head against the error-recovery type. -/
def packRecoverLoop (cfg : Config) (fuel : Nat) (st : UState) (it : WIter) :
    Except Abort (UState × WIter) :=
  match fuel with
  | 0 => throw .fuel
  | fuel + 1 =>
    if wgood st.arena it then do
      let st ← tryUnifyTy cfg fuel st cfg.errorId (wget st.arena it) false false
      packRecoverLoop cfg fuel st (wadvance st.arena it)
    else pure (st, it)

termination_by structural fuel

/-- Unifier::tryUnifyVariadics (lines 1902-1953). -/
def tryUnifyVariadicsF (cfg : Config) (fuel : Nat) (st : UState) (superTp : Nat) (subTp : Nat) (reversed : Bool) (subOffset : Nat) :
    Except Abort UState :=
  match fuel with
  | 0 => throw .fuel
  | fuel + 1 =>
    match getTp st.arena superTp with
    | .variadic lvTy =>
      match getTp st.arena subTp with
      | .variadic rvTy =>
        if reversed then tryUnifyTy cfg fuel st rvTy lvTy false false
        else tryUnifyTy cfg fuel st lvTy rvTy false false
      | .pack _ _ => do
        let flat := flattenPack st.arena subTp
        let st ← variadicHeadsLoop cfg fuel st lvTy reversed (flat.1.drop subOffset)
        match flat.2 with
        | some tail0 =>
          let tail := followTp st.arena tail0
          (match getTp st.arena tail with
          | .freeTp _ =>
            let st := logTp st tail
            pure { st with arena := setTp st.arena tail (.boundTp superTp) }
          | .variadic vtpTy => tryUnifyTy cfg fuel st lvTy vtpTy false false
          | .genericTp =>
            pure (pushErr st (.genericError "Cannot unify variadic and generic packs"))
          | .errorTp => pure st
          | _ => throw (.ice "Unknown TypePack kind"))
        | none => pure st
      | _ => pure (pushErr st (.genericError "Failed to unify variadic packs"))
    | _ => throw (.ice "passed non-variadic pack to tryUnifyVariadics")

termination_by structural fuel

/-- The head loop of tryUnifyVariadics (lines 1917-1921). -/
def variadicHeadsLoop (cfg : Config) (fuel : Nat) (st : UState) (lvTy : Nat) (reversed : Bool) (heads : List Nat) :
    Except Abort UState :=
  match fuel with
  | 0 => throw .fuel
  | fuel + 1 =>
    match heads with
    | [] => pure st
    | ty :: rest => do
      let st ←
        if reversed then tryUnifyTy cfg fuel st ty lvTy false false
        else tryUnifyTy cfg fuel st lvTy ty false false
      variadicHeadsLoop cfg fuel st lvTy reversed rest


termination_by structural fuel

end

/-- Unifier::tryUnify(TypeId, TypeId, bool, bool) (lines 250-255): the
public entry point resets the shared iteration counter. -/
def tryUnify (cfg : Config) (fuel : Nat) (st : UState) (superTy subTy : Nat)
    (ff ii : Bool) : Except Abort UState :=
  tryUnifyTy cfg fuel { st with iterationCount := 0 } superTy subTy ff ii

/-- Unifier::tryUnify(TypePackId, TypePackId, bool) (lines 793-798). -/
def tryUnifyPack (cfg : Config) (fuel : Nat) (st : UState) (superTp subTp : Nat)
    (ff : Bool) : Except Abort UState :=
  tryUnifyTp cfg fuel { st with iterationCount := 0 } superTp subTp ff

/-- Unifier::canUnify(TypeId, TypeId) (lines 777-783): dry run in a child
with unconditional rollback. -/
def canUnify (cfg : Config) (fuel : Nat) (st : UState) (superTy subTy : Nat) :
    Except Abort (UState × List TypeError) := do
  let s ← tryUnifyTy cfg fuel (mkChild st) superTy subTy false false
  pure ({ absorb st s with arena := rollbackLog s.log s.arena }, s.errors)

end LuauUnify

namespace LuauUnify

theorem tryUnify_resets (cfg : Config) (fuel : Nat) (st : UState) (a b : Nat)
    (ff ii : Bool) :
    tryUnify cfg fuel st a b ff ii =
      tryUnifyTy cfg fuel { st with iterationCount := 0 } a b ff ii := rfl

theorem tryUnifyTy_limit (cfg : Config) (fuel : Nat) (st : UState) (a b : Nat)
    (ff ii : Bool) (h1 : 0 < cfg.iterationLimit)
    (h2 : cfg.iterationLimit < st.iterationCount + 1) :
    tryUnifyTy cfg (fuel + 1) st a b ff ii =
      .ok (pushErr { st with iterationCount := st.iterationCount + 1 }
        .unificationTooComplex) := by
  simp only [tryUnifyTy]
  rw [if_pos ⟨h1, h2⟩]
  rfl

theorem tryUnifyTp_limit (cfg : Config) (fuel : Nat) (st : UState) (a b : Nat)
    (ff : Bool) (h1 : 0 < cfg.iterationLimit)
    (h2 : cfg.iterationLimit < st.iterationCount + 1) :
    tryUnifyTp cfg (fuel + 1) st a b ff =
      .ok (pushErr { st with iterationCount := st.iterationCount + 1 }
        .unificationTooComplex) := by
  simp only [tryUnifyTp]
  rw [if_pos ⟨h1, h2⟩]
  rfl

-- identity on equal follows
theorem tryUnifyTy_identical (cfg : Config) (fuel : Nat) (st : UState) (a b : Nat)
    (ff ii : Bool) (hfollow : followTy st.arena a = followTy st.arena b)
    (hlim : ¬ (0 < cfg.iterationLimit ∧ cfg.iterationLimit < st.iterationCount + 1)) :
    tryUnifyTy cfg (fuel + 1) st a b ff ii =
      .ok { st with iterationCount := st.iterationCount + 1 } := by
  simp only [tryUnifyTy]
  rw [if_neg hlim, if_pos hfollow]
  rfl

theorem tryUnify_identity (cfg : Config) (fuel : Nat) (st : UState) (t : Nat)
    (ff ii : Bool) :
    tryUnify cfg (fuel + 1) st t t ff ii = .ok { st with iterationCount := 1 } := by
  rw [tryUnify_resets]
  have h : ¬ (0 < cfg.iterationLimit ∧ cfg.iterationLimit <
      ({ st with iterationCount := 0 } : UState).iterationCount + 1) := by
    show ¬ (0 < cfg.iterationLimit ∧ cfg.iterationLimit < 0 + 1)
    omega
  rw [tryUnifyTy_identical cfg fuel { st with iterationCount := 0 } t t ff ii rfl h]

end LuauUnify

namespace LuauUnify

/-- When the haystack follows to a free type distinct from the needle, the
occurs check is a no-op. -/
theorem occursCheckTy_free (cfg : Config) (fuel : Nat) (st : UState)
    (needle haystack : Nat) (nl hl : TypeLevel)
    (hn : getTy st.arena (followTy st.arena needle) = .freeTy nl)
    (hh : getTy st.arena (followTy st.arena haystack) = .freeTy hl)
    (hne : followTy st.arena needle ≠ followTy st.arena haystack) :
    occursCheckTy cfg (fuel + 1) st needle haystack = .ok st := by
  simp only [occursCheckTy, occursCheckTyAux]
  simp only [List.not_mem_nil, if_false, hn, hh]
  simp only [isFreeNode]
  rw [if_neg (by simp [hn]), if_neg (by simp), if_neg hne]
  rfl

def followStops : TyNode → Bool
  | .boundTy _ => false
  | .table _ _ _ (some _) _ _ _ => false
  | _ => true

theorem followTyAux_fix (a : Arena) (t : Nat) (fuel : Nat)
    (h : followStops (getTy a t) = true) : followTyAux a (fuel + 1) t = t := by
  cases hg : getTy a t
  case boundTy u => rw [hg] at h; simp [followStops] at h
  case table props idx stt bt lvl nm snm =>
    cases bt with
    | none => simp [followTyAux, hg]
    | some u => rw [hg] at h; simp [followStops] at h
  all_goals simp [followTyAux, hg]

theorem followTy_fix (a : Arena) (t : Nat) (h : followStops (getTy a t) = true) :
    followTy a t = t := by
  simp only [followTy]
  exact followTyAux_fix a t _ h

theorem getTy_lt_of_ne_error (a : Arena) (i : Nat) (h : getTy a i ≠ .errorTy) :
    i < a.types.length := by
  by_contra hc
  exact h (List.getD_eq_default _ _ (Nat.le_of_not_lt hc))

theorem getTy_setTy_self (a : Arena) (i : Nat) (n : TyNode)
    (h : i < a.types.length) : getTy (setTy a i n) i = n := by
  simp [getTy, setTy, List.getD, List.getElem?_set_self, h]

theorem getTy_setTy_ne (a : Arena) (i j : Nat) (n : TyNode) (h : j ≠ i) :
    getTy (setTy a i n) j = getTy a j := by
  simp [getTy, setTy, List.getD, List.getElem?_set_ne (fun hh => h hh.symm)]

/-- Claim C3: when both sides follow to distinct Free type variables, the
unifier binds sub to Bound(super) when super's level subsumes sub's, and
otherwise lowers sub's level to min(sub.level, super.level) and binds super
to Bound(sub); in both cases exactly one log entry snapshots the bound
node and no error is emitted (the occurs check between two distinct frees
is a no-op, and the level fields here name the C++ super as a / sub as b). -/
theorem tryUnifyTy_bothFree (cfg : Config) (fuel : Nat) (st : UState)
    (a b : Nat) (ff ii : Bool) (ls lr : TypeLevel)
    (hA : getTy st.arena (followTy st.arena a) = .freeTy ls)
    (hB : getTy st.arena (followTy st.arena b) = .freeTy lr)
    (hne : followTy st.arena a ≠ followTy st.arena b)
    (hlim : ¬ (0 < cfg.iterationLimit ∧ cfg.iterationLimit < st.iterationCount + 1)) :
    tryUnifyTy cfg (fuel + 2) st a b ff ii =
      if ls.subsumes lr then
        .ok { st with
          iterationCount := st.iterationCount + 1,
          log := .tyE (followTy st.arena b) (.freeTy lr) :: st.log,
          arena := setTy st.arena (followTy st.arena b)
            (.boundTy (followTy st.arena a)) }
      else
        .ok { st with
          iterationCount := st.iterationCount + 1,
          log := .tyE (followTy st.arena a) (.freeTy ls) :: st.log,
          arena := setTy
            (setTy st.arena (followTy st.arena b) (.freeTy (minLevel lr ls)))
            (followTy st.arena a) (.boundTy (followTy st.arena b)) } := by
  have hAfix : followTy st.arena (followTy st.arena a) = followTy st.arena a :=
    followTy_fix _ _ (by simp [followStops, hA])
  have hBfix : followTy st.arena (followTy st.arena b) = followTy st.arena b :=
    followTy_fix _ _ (by simp [followStops, hB])
  have hBlt : followTy st.arena b < st.arena.types.length :=
    getTy_lt_of_ne_error _ _ (by simp [hB])
  simp only [tryUnifyTy]
  rw [if_neg hlim, if_neg hne]
  simp only [hA, hB]
  by_cases hsub : ls.subsumes lr
  · rw [if_pos hsub]
    have hocc := occursCheckTy_free cfg fuel
      { st with iterationCount := st.iterationCount + 1 }
      (followTy st.arena b) (followTy st.arena a) lr ls
      (by simpa [hBfix] using hB) (by simpa [hAfix] using hA)
      (by simpa [hAfix, hBfix] using hne.symm)
    rw [if_pos hsub]
    simp only [bind, Except.bind, hocc, hB, logTy]
    rw [if_neg (by simp [hB])]
    rfl
  · rw [if_neg hsub, if_neg hsub]
    have hgB : getTy (setTy st.arena (followTy st.arena b)
        (.freeTy (minLevel lr ls))) (followTy st.arena a) = .freeTy ls := by
      rw [getTy_setTy_ne _ _ _ _ hne]; exact hA
    by_cases hflag : cfg.flags.errorRecoveryType = true
    · have hocc := occursCheckTy_free cfg fuel
        { st with iterationCount := st.iterationCount + 1 }
        (followTy st.arena a) (followTy st.arena b) ls lr
        (by simpa [hAfix] using hA) (by simpa [hBfix] using hB)
        (by simpa [hAfix, hBfix] using hne)
      rw [if_neg (not_not_intro hflag)]
      simp only [bind, Except.bind, hocc]
      rw [if_neg (not_not_intro hflag)]
      rw [if_neg (by simp only [hgB]; simp)]
      simp only [logTy, hgB]
      rfl
    · have hflag2 : cfg.flags.errorRecoveryType = false := by
        simpa using hflag
      have hocc := occursCheckTy_free cfg fuel
        { st with
            iterationCount := st.iterationCount + 1
            log := .tyE (followTy st.arena a) (.freeTy ls) :: st.log }
        (followTy st.arena a) (followTy st.arena b) ls lr
        (by simpa [hAfix] using hA) (by simpa [hBfix] using hB)
        (by simpa [hAfix, hBfix] using hne)
      have hcond : ¬ cfg.flags.errorRecoveryType = true := by simp [hflag2]
      rw [if_pos hcond]
      simp only [logTy, hA]
      simp only [bind, Except.bind, hocc]
      rw [if_pos hcond]
      rfl

end LuauUnify

namespace LuauUnify

/-- Claim C8: when both sides are Class types, Covariant variance succeeds
exactly when the sub class reaches the super class along its parent chain
(equality included), Invariant variance exactly when the two handles are
identical; otherwise a TypeMismatch on the original pair is pushed and the
state is otherwise unchanged (no class node is mutated). -/
theorem tryUnifyWithClass_classes (cfg : Config) (fuel : Nat) (st : UState)
    (superTy0 subTy0 : Nat) (reversed : Bool)
    (n1 n2 : String) (p1 p2 : Option Nat) (pr1 pr2 : List (String × Property))
    (hSup : getTy st.arena (if reversed then subTy0 else superTy0) = .cls n1 p1 pr1)
    (hSub : getTy st.arena (if reversed then superTy0 else subTy0) = .cls n2 p2 pr2) :
    (st.variance = .covariant →
      tryUnifyWithClassF cfg (fuel + 1) st superTy0 subTy0 reversed =
        .ok (if isSubclassF st.arena fuel (if reversed then superTy0 else subTy0)
              (if reversed then subTy0 else superTy0) then st
          else pushErr st (if reversed then
              .typeMismatch (if reversed then superTy0 else subTy0)
                (if reversed then subTy0 else superTy0) none
            else
              .typeMismatch (if reversed then subTy0 else superTy0)
                (if reversed then superTy0 else subTy0) none))) ∧
    (st.variance = .invariant →
      tryUnifyWithClassF cfg (fuel + 1) st superTy0 subTy0 reversed =
        .ok (if (if reversed then superTy0 else subTy0) =
              (if reversed then subTy0 else superTy0) then st
          else pushErr st (if reversed then
              .typeMismatch (if reversed then superTy0 else subTy0)
                (if reversed then subTy0 else superTy0) none
            else
              .typeMismatch (if reversed then subTy0 else superTy0)
                (if reversed then superTy0 else subTy0) none))) := by
  constructor
  · intro hv
    simp only [tryUnifyWithClassF, hSup, hSub, hv]
    by_cases hs : isSubclassF st.arena fuel (if reversed then superTy0 else subTy0)
        (if reversed then subTy0 else superTy0)
    · rw [if_neg (not_not_intro hs), if_pos hs]
      rfl
    · rw [if_pos hs, if_neg hs]
      cases reversed <;> rfl
  · intro hv
    simp only [tryUnifyWithClassF, hSup, hSub, hv]
    by_cases he : (if reversed then superTy0 else subTy0) =
        (if reversed then subTy0 else superTy0)
    · rw [if_neg (not_not_intro he), if_pos he]
      rfl
    · rw [if_pos he, if_neg he]
      cases reversed <;> rfl

end LuauUnify

namespace LuauUnify

/-- Claim C7: in the TypePack loop, when neither cursor can advance or
grow, no optional (or nonstrict-any) element remains and neither pack is a
Variadic tail: with isFunctionCall false and leftover sub heads the loop
returns silently; otherwise it pushes CountMismatch (sizes swapped when
the context is Result) and recovery-unifies every leftover head on both
sides against the error type. -/
theorem packLoop_tail_mismatch (cfg : Config) (fuel : Nat) (st : UState)
    (superTp subTp : Nat) (supIt subIt : WIter) (emptyTp : Nat)
    (noIG ff : Bool) (c : Nat)
    (hLim : ¬ (0 < cfg.packLoopLimit ∧ cfg.packLoopLimit ≤ c))
    (hFr1 : ¬ (wgood st.arena supIt ∧ subIt.growing = true))
    (hFr2 : ¬ (wgood st.arena subIt ∧ supIt.growing = true))
    (hGG : ¬ (wgood st.arena supIt ∧ wgood st.arena subIt))
    (hBB : ¬ (¬ wgood st.arena supIt ∧ ¬ wgood st.arena subIt))
    (hCG1 : ¬ wcanGrow st.arena supIt)
    (hCG2 : ¬ wcanGrow st.arena subIt)
    (hOpt1 : ¬ (wgood st.arena supIt ∧ isOptionalT st.arena (wget st.arena supIt) = true))
    (hOpt2 : ¬ (wgood st.arena subIt ∧ isOptionalT st.arena (wget st.arena subIt) = true))
    (hAny : ¬ (wgood st.arena supIt ∧ isNonstrictMode cfg = true ∧
      getTy st.arena (followTy st.arena (wget st.arena supIt)) = .anyTy))
    (hV1 : ¬ isVariadicNode (getTp st.arena supIt.packId) = true)
    (hV2 : ¬ isVariadicNode (getTp st.arena subIt.packId) = true) :
    (ff = false → wgood st.arena subIt = true →
      packLoop cfg (fuel + 1) st superTp subTp supIt subIt emptyTp noIG ff c = .ok st) ∧
    (ff = true ∨ wgood st.arena subIt = false →
      packLoop cfg (fuel + 1) st superTp subTp supIt subIt emptyTp noIG ff c =
        (do
          let sizes :=
            if st.ctx = .result then (sizePack st.arena subTp, sizePack st.arena superTp)
            else (sizePack st.arena superTp, sizePack st.arena subTp)
          let st1 := pushErr st (.countMismatch sizes.1 sizes.2 st.ctx)
          let (st2, _) ← packRecoverLoop cfg fuel st1 supIt
          let (st3, _) ← packRecoverLoop cfg fuel st2 subIt
          pure st3)) := by
  constructor
  · intro hff hgood
    simp only [packLoop]
    rw [if_neg hLim, if_neg hFr1, if_neg hFr2, if_neg hGG, if_neg hBB,
      if_neg (by simp [hCG1, hCG2]), if_neg hCG1, if_neg hCG2,
      if_neg hOpt1, if_neg hOpt2, if_neg hAny, if_neg hV1, if_neg hV2,
      if_pos ⟨by simp [hff], hgood⟩]
    rfl
  · intro hor
    simp only [packLoop]
    rw [if_neg hLim, if_neg hFr1, if_neg hFr2, if_neg hGG, if_neg hBB,
      if_neg (by simp [hCG1, hCG2]), if_neg hCG1, if_neg hCG2,
      if_neg hOpt1, if_neg hOpt2, if_neg hAny, if_neg hV1, if_neg hV2,
      if_neg (by rcases hor with h | h <;> simp [h])]

end LuauUnify

namespace LuauUnify

/-- Claim-side reading of C2's "every option unifies": run a child unifier
for each option of the union against the supertype, in the same order and
with the same state evolution as the code (intermediate child logs rolled
back, the last child's log concatenated), recording for each option
whether its child unifier finished without errors, together with the last
child's log. -/
def unionOptionTrials (cfg : Config) (fuel : Nat) (st : UState) (superTy : Nat)
    (opts : List Nat) : Except Abort (UState × List Bool × List LogEntry) :=
  match fuel with
  | 0 => throw .fuel
  | fuel + 1 =>
    match opts with
    | [] => pure (st, [], [])
    | ty :: rest => do
      let inner ← tryUnifyTy cfg fuel (mkChild st) superTy ty false false
      let stNext :=
        if rest ≠ [] then { absorb st inner with arena := rollbackLog inner.log inner.arena }
        else { absorb st inner with log := inner.log ++ st.log }
      let r ← unionOptionTrials cfg fuel stNext superTy rest
      pure (r.1, decide (inner.errors = []) :: r.2.1,
        if rest = [] then inner.log else r.2.2)
termination_by structural fuel

theorem unionSubLoop_trials (cfg : Config) : ∀ fuel st superTy opts failed utc ffo
    st' failed' utc' ffo',
    unionSubLoop cfg fuel st superTy opts failed utc ffo =
      .ok (st', failed', utc', ffo') →
    ∃ flags lastLog,
      unionOptionTrials cfg fuel st superTy opts = .ok (st', flags, lastLog) ∧
      ((failed' = false ∧ utc' = none) ↔
        (failed = false ∧ utc = none ∧ flags.all id = true)) ∧
      st'.log = (if opts = [] then st.log else lastLog ++ st.log) ∧
      st'.errors = st.errors := by
  intro fuel
  induction fuel with
  | zero =>
    intro st superTy opts failed utc ffo st' failed' utc' ffo' h
    simp [unionSubLoop] at h
  | succ fuel ih =>
    intro st superTy opts failed utc ffo st' failed' utc' ffo' h
    cases opts with
    | nil =>
      simp only [unionSubLoop, pure, Except.pure, Except.ok.injEq,
        Prod.mk.injEq] at h
      obtain ⟨h1, h2, h3, h4⟩ := h
      subst h1; subst h2; subst h3; subst h4
      refine ⟨[], [], rfl, by simp, by simp, rfl⟩
    | cons ty rest =>
      simp only [unionSubLoop, bind, Except.bind] at h
      cases hin : tryUnifyTy cfg fuel (mkChild st) superTy ty false false with
      | error e => rw [hin] at h; exact absurd h (by simp)
      | ok inner =>
        rw [hin] at h
        dsimp only at h
        obtain ⟨flags, lastLog, htr, hiff, hlog, herr⟩ :=
          ih _ superTy rest _ _ _ _ _ _ _ h
        refine ⟨decide (inner.errors = []) :: flags,
          if rest = [] then inner.log else lastLog, ?_, ?_, ?_, ?_⟩
        · simp only [unionOptionTrials, bind, Except.bind, hin, htr]
          rfl
        · rw [hiff]
          by_cases he : inner.errors = []
          · have hu : hasUTC ([] : List TypeError) = none := rfl
            simp [he, hu]
          · cases hu : hasUTC inner.errors with
            | some e => simp [hu, he]
            | none => simp [hu, he]
        · rw [hlog]
          cases rest with
          | nil => simp [absorb]
          | cons r rs => simp [absorb]
        · rw [herr]
          cases rest with
          | nil => simp [absorb]
          | cons r rs => simp [absorb]

end LuauUnify

namespace LuauUnify

theorem list_ne_append_singleton (l : List TypeError) (e : TypeError) :
    ¬ (l ++ [e] = l) := by
  intro h
  have := congrArg List.length h
  simp at this

/-- Claim C2: with a Union sub type, every option is tried in a child
unifier against the supertype; no error is pushed iff every option's child
finished without errors; intermediate child logs are rolled back and only
the last child's log is concatenated into the parent log. -/
theorem unionSub_branch (cfg : Config) (fuel : Nat) (st : UState)
    (superTy subTy : Nat) (ff ii cacheEnabled : Bool) (opts : List Nat)
    (hU : getTy st.arena subTy = .union opts) (res : UState)
    (hres : tryUnifyDispatch cfg (fuel + 1) st superTy subTy ff ii cacheEnabled =
      .ok res) :
    ∃ stT flags lastLog,
      unionOptionTrials cfg fuel st superTy opts = .ok (stT, flags, lastLog) ∧
      (res.errors = st.errors ↔ flags.all id = true) ∧
      (flags.all id = true →
        res = stT ∧ res.log = (if opts = [] then st.log else lastLog ++ st.log)) := by
  simp only [tryUnifyDispatch, hU, bind, Except.bind] at hres
  cases hloop : unionSubLoop cfg fuel st superTy opts false none none with
  | error e => rw [hloop] at hres; exact absurd hres (by simp)
  | ok q =>
    obtain ⟨st1, failed, utc, ffo⟩ := q
    rw [hloop] at hres
    dsimp only at hres
    obtain ⟨flags, lastLog, htr, hiff, hlog, herr⟩ :=
      unionSubLoop_trials cfg fuel st superTy opts false none none _ _ _ _ hloop
    have hiff2 : (failed = false ∧ utc = none) ↔ flags.all id = true := by
      rw [hiff]; simp
    refine ⟨st1, flags, lastLog, htr, ?_, ?_⟩
    · cases hu : utc with
      | some e =>
        rw [hu] at hres
        have hres2 : res = pushErr st1 e := by
          simpa [pure, Except.pure] using hres.symm
        constructor
        · intro habs
          rw [hres2] at habs
          simp only [pushErr] at habs
          rw [herr] at habs
          exact absurd habs (list_ne_append_singleton _ _)
        · intro hall
          have := hiff2.mpr hall
          rw [hu] at this
          exact absurd this.2 (by simp)
      | none =>
        rw [hu] at hres
        cases hf : failed with
        | true =>
          rw [hf] at hres
          simp only [if_true] at hres
          constructor
          · intro habs
            have hres2 : ∃ e, res = pushErr st1 e := by
              split at hres <;> exact ⟨_, by simpa [pure, Except.pure] using hres.symm⟩
            obtain ⟨e, hres2⟩ := hres2
            rw [hres2] at habs
            simp only [pushErr] at habs
            rw [herr] at habs
            exact absurd habs (list_ne_append_singleton _ _)
          · intro hall
            have := hiff2.mpr hall
            rw [hf] at this
            exact absurd this.1 (by simp)
        | false =>
          rw [hf] at hres
          simp only [if_false] at hres
          have hres2 : res = st1 := by simpa [pure, Except.pure] using hres.symm
          subst hres2
          constructor
          · intro _
            exact hiff2.mp ⟨hf, hu⟩
          · intro _
            exact herr
    · intro hall
      have hfu := hiff2.mpr hall
      cases hu : utc with
      | some e => rw [hu] at hfu; exact absurd hfu.2 (by simp)
      | none =>
        rw [hu] at hres
        rw [hfu.1] at hres
        simp only [if_false] at hres
        have hres2 : res = st1 := by simpa [pure, Except.pure] using hres.symm
        subst hres2
        exact ⟨rfl, hlog⟩

end LuauUnify

namespace LuauUnify

/-- Claim-side reading of C4: try the (already rotated) options in order,
each in a child unifier, stopping at the first success and keeping that
child's log; failures are rolled back; record whether any failed attempt
reported UnificationTooComplex. -/
def unionFirstSuccess (cfg : Config) (fuel : Nat) (st : UState) (subTy : Nat)
    (opts : List Nat) (ff : Bool) :
    Except Abort (UState × Option (List LogEntry) × Bool) :=
  match fuel with
  | 0 => throw .fuel
  | fuel + 1 =>
    match opts with
    | [] => pure (st, none, false)
    | ty :: rest => do
      let inner ← tryUnifyTy cfg fuel (mkChild st) ty subTy ff false
      if inner.errors = [] then
        pure ({ absorb st inner with log := inner.log ++ st.log }, some inner.log, false)
      else
        let stR := { absorb st inner with arena := rollbackLog inner.log inner.arena }
        let r ← unionFirstSuccess cfg fuel stR subTy rest ff
        pure (r.1, r.2.1, ((hasUTC inner.errors).isSome || r.2.2))
termination_by structural fuel

theorem hasUTC_some (es : List TypeError) (e : TypeError)
    (h : hasUTC es = some e) : e = .unificationTooComplex := by
  have hp := List.find?_some h
  cases e <;> first | rfl | simp at hp

/-- A TypeMismatch (possibly with a reason or a cause) on the given pair. -/
def isTypeMismatchOn (w g : Nat) : TypeError → Prop
  | .typeMismatch w' g' _ => w' = w ∧ g' = g
  | .typeMismatchCaused w' g' _ _ => w' = w ∧ g' = g
  | _ => False

theorem unionSuperLoop_search (cfg : Config) : ∀ fuel st subTy opts ff utc foc fo
    st' found' utc' foc' fo',
    unionSuperLoop cfg fuel st subTy opts ff utc foc fo =
      .ok (st', found', utc', foc', fo') →
    ∃ winner sawUTC,
      unionFirstSuccess cfg fuel st subTy opts ff = .ok (st', winner, sawUTC) ∧
      (found' = true ↔ winner.isSome) ∧
      (utc' = none ↔ (utc = none ∧ sawUTC = false)) ∧
      (∀ e, utc' = some e → (utc = some e ∨ e = .unificationTooComplex)) ∧
      st'.errors = st.errors ∧
      (∀ wl, winner = some wl → st'.log = wl ++ st.log) ∧
      (winner = none → st'.log = st.log) := by
  intro fuel
  induction fuel with
  | zero =>
    intro st subTy opts ff utc foc fo st' found' utc' foc' fo' h
    simp [unionSuperLoop] at h
  | succ fuel ih =>
    intro st subTy opts ff utc foc fo st' found' utc' foc' fo' h
    cases opts with
    | nil =>
      simp only [unionSuperLoop, pure, Except.pure, Except.ok.injEq,
        Prod.mk.injEq] at h
      obtain ⟨h1, h2, h3, h4, h5⟩ := h
      subst h1; subst h2; subst h3; subst h4; subst h5
      exact ⟨none, false, rfl, by simp, by simp, fun e he => Or.inl he, rfl,
        fun wl hw => Option.noConfusion hw, fun _ => rfl⟩
    | cons ty rest =>
      simp only [unionSuperLoop, bind, Except.bind] at h
      cases hin : tryUnifyTy cfg fuel (mkChild st) ty subTy ff false with
      | error e => rw [hin] at h; exact absurd h (by simp)
      | ok inner =>
        rw [hin] at h
        dsimp only at h
        by_cases he : inner.errors = []
        · rw [if_pos he] at h
          simp only [pure, Except.pure, Except.ok.injEq, Prod.mk.injEq] at h
          obtain ⟨h1, h2, h3, h4, h5⟩ := h
          subst h1; subst h2; subst h3; subst h4; subst h5
          refine ⟨some inner.log, false, ?_, by simp, by simp,
            fun e he2 => Or.inl he2, rfl, ?_, fun hcon => Option.noConfusion hcon⟩
          · simp only [unionFirstSuccess, bind, Except.bind, hin]
            rw [if_pos he]
            rfl
          · intro wl hw
            injection hw with h2
            rw [← h2]
        · rw [if_neg he] at h
          cases hu : hasUTC inner.errors with
          | some e0 =>
            rw [hu] at h
            dsimp only at h
            obtain ⟨winner, sawUTC, hsr, hfw, hun, husome, herr, hwl, hwn⟩ :=
              ih _ subTy rest ff _ _ _ _ _ _ _ _ h
            refine ⟨winner, true, ?_, hfw, ?_, ?_, herr, hwl, hwn⟩
            · simp only [unionFirstSuccess, bind, Except.bind, hin]
              rw [if_neg he]
              rw [hsr, hu]
              rfl
            · constructor
              · intro hn
                exact absurd (hun.mp hn).1 (by simp)
              · intro hn
                exact absurd hn.2 (by simp)
            · intro e' he'
              rcases husome e' he' with h' | h'
              · injection h' with h''
                right
                rw [← h'']
                exact hasUTC_some _ _ hu
              · right; exact h'
          | none =>
            rw [hu] at h
            dsimp only at h
            by_cases hc : cfg.flags.extendedUnionMismatchError ∧
                ¬ isNilT inner.arena ty
            · rw [if_pos hc] at h
              dsimp only at h
              obtain ⟨winner, sawUTC, hsr, hfw, hun, husome, herr, hwl, hwn⟩ :=
                ih _ subTy rest ff _ _ _ _ _ _ _ _ h
              refine ⟨winner, sawUTC, ?_, hfw, hun, husome, herr, hwl, hwn⟩
              simp only [unionFirstSuccess, bind, Except.bind, hin]
              rw [if_neg he]
              rw [hsr, hu]
              rfl
            · rw [if_neg hc] at h
              dsimp only at h
              obtain ⟨winner, sawUTC, hsr, hfw, hun, husome, herr, hwl, hwn⟩ :=
                ih _ subTy rest ff _ _ _ _ _ _ _ _ h
              refine ⟨winner, sawUTC, ?_, hfw, hun, husome, herr, hwl, hwn⟩
              simp only [unionFirstSuccess, bind, Except.bind, hin]
              rw [if_neg he]
              rw [hsr, hu]
              rfl

end LuauUnify

namespace LuauUnify

/-- Claim C4 (corrected): with a Union supertype the options are tried
cyclically from the heuristic start index, each in a child unifier; the
first success keeps that child's log and stops; if every option fails with
no UnificationTooComplex among the attempts, all child logs are rolled
back and a TypeMismatch on the pair is emitted; but if any failing
attempt reported UnificationTooComplex, that error is emitted instead —
even when a later option succeeded. -/
theorem unionSuper_corrected (cfg : Config) (fuel : Nat) (st : UState)
    (superTy subTy : Nat) (ff cacheEnabled : Bool) (opts : List Nat) (res : UState)
    (hres : unionSuperBranch cfg (fuel + 1) st superTy subTy ff cacheEnabled opts =
      .ok res) :
    ∃ startIndex stT winner sawUTC,
      unionFirstSuccess cfg fuel st subTy
        (opts.drop startIndex ++ opts.take startIndex) ff =
        .ok (stT, winner, sawUTC) ∧
      (res.errors = st.errors ↔ (winner.isSome = true ∧ sawUTC = false)) ∧
      (sawUTC = false → ∀ wl, winner = some wl →
        res = stT ∧ res.log = wl ++ st.log) ∧
      (sawUTC = true → res = pushErr stT .unificationTooComplex) ∧
      (sawUTC = false → winner = none →
        ∃ e, res = pushErr stT e ∧ res.log = st.log ∧
          isTypeMismatchOn superTy subTy e) := by
  simp only [unionSuperBranch, bind, Except.bind] at hres
  rcases hsi : unionStartIndex cfg st subTy opts cacheEnabled with ⟨si, fh⟩
  rw [hsi] at hres
  dsimp only at hres
  cases hloop : unionSuperLoop cfg fuel st subTy
      (opts.drop si ++ opts.take si) ff none 0 none with
  | error e => rw [hloop] at hres; exact absurd hres (by simp)
  | ok q =>
    obtain ⟨st1, found, utc, foc, fo⟩ := q
    rw [hloop] at hres
    dsimp only at hres
    obtain ⟨winner, sawUTC, hsearch, hfw, hun, husome, herr, hwl, hwn⟩ :=
      unionSuperLoop_search cfg fuel st subTy _ ff none 0 none _ _ _ _ _ hloop
    cases hutc : utc with
    | some e =>
      rw [hutc] at hres
      have hres2 : res = pushErr st1 e := by
        simpa [pure, Except.pure] using hres.symm
      have hsaw : sawUTC = true := by
        cases hs : sawUTC with
        | true => rfl
        | false =>
          have := hun.mpr ⟨rfl, hs⟩
          rw [hutc] at this
          exact Option.noConfusion this
      have he2 : e = .unificationTooComplex := by
        rcases husome e hutc with h' | h'
        · exact Option.noConfusion h'
        · exact h'
      refine ⟨si, st1, winner, true, ?_, ?_, ?_, ?_, ?_⟩
      · rw [← hsaw]; exact hsearch
      · constructor
        · intro habs
          rw [hres2] at habs
          simp only [pushErr] at habs
          rw [herr] at habs
          exact absurd habs (list_ne_append_singleton _ _)
        · intro habs
          exact Bool.noConfusion habs.2.symm
      · intro hcon
        exact Bool.noConfusion hcon
      · intro _
        rw [hres2, he2]
      · intro hcon
        exact Bool.noConfusion hcon
    | none =>
      rw [hutc] at hres
      have hsaw : sawUTC = false := (hun.mp hutc).2
      cases hf : found with
      | true =>
        rw [hf] at hres
        rw [if_pos rfl] at hres
        have hres2 : res = st1 := by
          simpa [pure, Except.pure] using hres.symm
        have hw0 : ∃ wl, winner = some wl := by
          have := hfw.mp hf
          cases winner with
          | none => exact absurd this (by simp)
          | some wl => exact ⟨wl, rfl⟩
        obtain ⟨wl0, hw0⟩ := hw0
        refine ⟨si, st1, winner, false, ?_, ?_, ?_, ?_, ?_⟩
        · rw [← hsaw]; exact hsearch
        · refine iff_of_true ?_ ⟨by rw [hw0]; rfl, rfl⟩
          rw [hres2]; exact herr
        · intro _ wl hw
          exact ⟨hres2, by rw [hres2]; exact hwl wl hw⟩
        · intro hcon
          exact Bool.noConfusion hcon
        · intro _ hn
          rw [hn] at hw0
          exact Option.noConfusion hw0
      | false =>
        rw [hf] at hres
        rw [if_neg (by simp)] at hres
        have hwn0 : winner = none := by
          cases hw : winner with
          | none => rfl
          | some wl =>
            have := hfw.mpr (by rw [hw]; rfl)
            rw [hf] at this
            exact Bool.noConfusion this
        have hres2 : ∃ e, res = pushErr st1 e ∧ isTypeMismatchOn superTy subTy e := by
          by_cases hA : cfg.flags.extendedUnionMismatchError = true ∧
              (foc = 1 ∨ fh = true) ∧ fo.isSome = true
          · rw [if_pos hA] at hres
            have h2 : res = pushErr st1 (.typeMismatchCaused superTy subTy
                (some "None of the union options are compatible. For example:")
                (fo.getD .occursCheckFailed)) := by
              simpa [pure, Except.pure] using hres.symm
            exact ⟨_, h2, ⟨rfl, rfl⟩⟩
          · rw [if_neg hA] at hres
            by_cases hB : cfg.flags.extendedTypeMismatchError = true
            · rw [if_pos hB] at hres
              have h2 : res = pushErr st1 (.typeMismatch superTy subTy
                  (some "none of the union options are compatible")) := by
                simpa [pure, Except.pure] using hres.symm
              exact ⟨_, h2, ⟨rfl, rfl⟩⟩
            · rw [if_neg hB] at hres
              have h2 : res = pushErr st1 (.typeMismatch superTy subTy none) := by
                simpa [pure, Except.pure] using hres.symm
              exact ⟨_, h2, ⟨rfl, rfl⟩⟩
        obtain ⟨e, hres2, hmm⟩ := hres2
        refine ⟨si, st1, winner, false, ?_, ?_, ?_, ?_, ?_⟩
        · rw [← hsaw]; exact hsearch
        · constructor
          · intro habs
            rw [hres2] at habs
            simp only [pushErr] at habs
            rw [herr] at habs
            exact absurd habs (list_ne_append_singleton _ _)
          · intro habs
            rw [hwn0] at habs
            exact absurd habs.1 (by simp)
        · intro _ wl hw
          rw [hwn0] at hw
          exact Option.noConfusion hw
        · intro hcon
          exact Bool.noConfusion hcon
        · intro _ _
          exact ⟨e, hres2, by rw [hres2]; exact hwn hwn0, hmm⟩

end LuauUnify

namespace LuauUnify

/-- A session whose iteration limit is 1, so any nested tryUnify_ call
reports UnificationTooComplex. -/
def cfgC4 : Config := { iterationLimit := 1, stringId := 2 }

/-- Arena: 0 = error, 1 = number, 2 = string, 3 = number | (union of [1]). -/
def stC4 : UState :=
  { arena := { types := [.errorTy, .prim .numberPrim, .prim .stringPrim, .union [1]],
               packs := [.errorTp] } }

/-- Counterexample to claim C4 as written: unifying the union supertype
number-only union (node 3) against the string sub type (node 2) under an
iteration limit of 1 makes every option fail (the search finds no winner and
records a UnificationTooComplex report), yet the error emitted is
UnificationTooComplex, not the TypeMismatch the claim promises. -/
theorem C4_counterexample :
    (tryUnify cfgC4 10 stC4 3 2 false false).map (fun r => r.errors) =
      .ok [.unificationTooComplex] ∧
    (unionFirstSuccess cfgC4 8 { stC4 with iterationCount := 1 } 2 [1] false).map
      (fun r => (r.2.1, r.2.2)) = .ok (none, true) ∧
    ¬ isTypeMismatchOn 3 2 .unificationTooComplex :=
  ⟨rfl, rfl, fun h => h⟩

/-- Witness for the corrected claim C4 theorem at a concrete input: an
empty option list, where the search fails with no UnificationTooComplex and
a plain TypeMismatch on the pair is pushed. -/
theorem unionSuper_corrected_witness :
    ∃ startIndex stT winner sawUTC,
      unionFirstSuccess cfgC4 5 stC4 2
        (([] : List Nat).drop startIndex ++ ([] : List Nat).take startIndex) false =
        .ok (stT, winner, sawUTC) ∧
      ((pushErr stC4 (.typeMismatch 3 2 none)).errors = stC4.errors ↔
        (winner.isSome = true ∧ sawUTC = false)) ∧
      (sawUTC = false → ∀ wl, winner = some wl →
        pushErr stC4 (.typeMismatch 3 2 none) = stT ∧
        (pushErr stC4 (.typeMismatch 3 2 none)).log = wl ++ stC4.log) ∧
      (sawUTC = true →
        pushErr stC4 (.typeMismatch 3 2 none) = pushErr stT .unificationTooComplex) ∧
      (sawUTC = false → winner = none →
        ∃ e, pushErr stC4 (.typeMismatch 3 2 none) = pushErr stT e ∧
          (pushErr stC4 (.typeMismatch 3 2 none)).log = stC4.log ∧
          isTypeMismatchOn 3 2 e) :=
  unionSuper_corrected cfgC4 5 stC4 3 2 false false []
    (pushErr stC4 (.typeMismatch 3 2 none)) (by rfl)

end LuauUnify

namespace LuauUnify

/-- Arena for the C2 witness: 1 and 2 are number, 3 is the union of both. -/
def stC2 : UState :=
  { arena := { types := [.errorTy, .prim .numberPrim, .prim .numberPrim, .union [1, 2]],
               packs := [.errorTp] } }

/-- Witness for the claim C2 theorem: unifying the union sub type (node 3)
against the number supertype (node 1) makes every option succeed, pushes no
error and leaves the log empty (the last child produced no entries). -/
theorem unionSub_branch_witness :
    ∃ stT flags lastLog,
      unionOptionTrials {} 4 stC2 1 [1, 2] = .ok (stT, flags, lastLog) ∧
      (({ stC2 with iterationCount := 2 } : UState).errors = stC2.errors ↔
        flags.all id = true) ∧
      (flags.all id = true →
        ({ stC2 with iterationCount := 2 } : UState) = stT ∧
        ({ stC2 with iterationCount := 2 } : UState).log =
          (if ([1, 2] : List Nat) = [] then stC2.log else lastLog ++ stC2.log)) :=
  unionSub_branch {} 4 stC2 1 3 false false false [1, 2] rfl
    { stC2 with iterationCount := 2 } (by rfl)

/-- Arena for the C3 witness: two distinct free type variables at levels 1
and 2. -/
def stC3 : UState :=
  { arena := { types := [.errorTy, .freeTy ⟨1, 0⟩, .freeTy ⟨2, 0⟩], packs := [] } }

/-- Witness for the claim C3 theorem at two concrete free variables: the
super level (1) subsumes the sub level (2), so sub is bound to
Bound(super) with one log entry. -/
theorem tryUnifyTy_bothFree_witness :
    getTy stC3.arena (followTy stC3.arena 1) = .freeTy ⟨1, 0⟩ ∧
    getTy stC3.arena (followTy stC3.arena 2) = .freeTy ⟨2, 0⟩ ∧
    followTy stC3.arena 1 ≠ followTy stC3.arena 2 ∧
    ¬ (0 < ({} : Config).iterationLimit ∧
        ({} : Config).iterationLimit < stC3.iterationCount + 1) ∧
    tryUnifyTy {} (3 + 2) stC3 1 2 false false =
      (if TypeLevel.subsumes ⟨1, 0⟩ ⟨2, 0⟩ then
        .ok { stC3 with
          iterationCount := stC3.iterationCount + 1,
          log := .tyE (followTy stC3.arena 2) (.freeTy ⟨2, 0⟩) :: stC3.log,
          arena := setTy stC3.arena (followTy stC3.arena 2)
            (.boundTy (followTy stC3.arena 1)) }
      else
        .ok { stC3 with
          iterationCount := stC3.iterationCount + 1,
          log := .tyE (followTy stC3.arena 1) (.freeTy ⟨1, 0⟩) :: stC3.log,
          arena := setTy
            (setTy stC3.arena (followTy stC3.arena 2) (.freeTy (minLevel ⟨2, 0⟩ ⟨1, 0⟩)))
            (followTy stC3.arena 1) (.boundTy (followTy stC3.arena 2)) }) :=
  ⟨rfl, rfl, by decide, by decide,
    tryUnifyTy_bothFree {} 3 stC3 1 2 false false ⟨1, 0⟩ ⟨2, 0⟩ rfl rfl
      (by decide) (by decide)⟩

/-- Arena for the C8 witness: class 1 derives from class 0. -/
def stC8 : UState :=
  { arena := { types := [.cls "Base" none [], .cls "Derived" (some 0) []], packs := [] },
    variance := .covariant }

/-- Witness for the claim C8 theorem: Derived (node 1) unifies covariantly
under Base (node 0) via the parent chain; invariantly the distinct handles
would mismatch. -/
theorem tryUnifyWithClass_classes_witness :
    (stC8.variance = .covariant →
      tryUnifyWithClassF {} (3 + 1) stC8 0 1 false =
        .ok (if isSubclassF stC8.arena 3 1 0 then stC8
          else pushErr stC8 (.typeMismatch 0 1 none))) ∧
    (stC8.variance = .invariant →
      tryUnifyWithClassF {} (3 + 1) stC8 0 1 false =
        .ok (if (1 : Nat) = 0 then stC8
          else pushErr stC8 (.typeMismatch 0 1 none))) :=
  tryUnifyWithClass_classes {} 3 stC8 0 1 false "Base" "Derived" none (some 0) [] []
    rfl rfl

end LuauUnify

namespace LuauUnify

/-- Claim C10: both public entry points reset the shared iteration counter
to zero before delegating to the recursive worker, so the limit gauges each
top-level unification separately; within a call, once the incremented
counter exceeds a positive limit the worker appends UnificationTooComplex
and returns at once. -/
theorem tryUnify_entry_resets_and_limits (cfg : Config) (fuel : Nat) (st : UState)
    (a b : Nat) (ff ii : Bool) :
    tryUnify cfg fuel st a b ff ii =
      tryUnifyTy cfg fuel { st with iterationCount := 0 } a b ff ii ∧
    tryUnifyPack cfg fuel st a b ff =
      tryUnifyTp cfg fuel { st with iterationCount := 0 } a b ff ∧
    (0 < cfg.iterationLimit → cfg.iterationLimit < st.iterationCount + 1 →
      tryUnifyTy cfg (fuel + 1) st a b ff ii =
        .ok (pushErr { st with iterationCount := st.iterationCount + 1 }
          .unificationTooComplex) ∧
      tryUnifyTp cfg (fuel + 1) st a b ff =
        .ok (pushErr { st with iterationCount := st.iterationCount + 1 }
          .unificationTooComplex)) :=
  ⟨rfl, rfl, fun h1 h2 => ⟨tryUnifyTy_limit cfg fuel st a b ff ii h1 h2,
    tryUnifyTp_limit cfg fuel st a b ff h1 h2⟩⟩

/-- A session whose iteration limit is 1, for exercising the limit branch. -/
def cfgC10 : Config := { iterationLimit := 1 }

/-- A state whose counter already sits at the limit. -/
def stC10 : UState :=
  { arena := { types := [.errorTy, .prim .numberPrim], packs := [.errorTp] },
    iterationCount := 1 }

/-- Witness for the claim C10 theorem: at limit 1 with the counter already
at 1, both workers report UnificationTooComplex, while the entry points
restart from a zeroed counter. -/
theorem tryUnify_entry_resets_and_limits_witness :
    tryUnify cfgC10 3 stC10 1 1 false false =
      tryUnifyTy cfgC10 3 { stC10 with iterationCount := 0 } 1 1 false false ∧
    tryUnifyPack cfgC10 3 stC10 1 1 false =
      tryUnifyTp cfgC10 3 { stC10 with iterationCount := 0 } 1 1 false ∧
    0 < cfgC10.iterationLimit ∧ cfgC10.iterationLimit < stC10.iterationCount + 1 ∧
    tryUnifyTy cfgC10 (3 + 1) stC10 1 1 false false =
      .ok (pushErr { stC10 with iterationCount := stC10.iterationCount + 1 }
        .unificationTooComplex) ∧
    tryUnifyTp cfgC10 (3 + 1) stC10 1 1 false =
      .ok (pushErr { stC10 with iterationCount := stC10.iterationCount + 1 }
        .unificationTooComplex) :=
  ⟨(tryUnify_entry_resets_and_limits cfgC10 3 stC10 1 1 false false).1,
   (tryUnify_entry_resets_and_limits cfgC10 3 stC10 1 1 false false).2.1,
   by decide, by decide,
   ((tryUnify_entry_resets_and_limits cfgC10 3 stC10 1 1 false false).2.2
     (by decide) (by decide)).1,
   ((tryUnify_entry_resets_and_limits cfgC10 3 stC10 1 1 false false).2.2
     (by decide) (by decide)).2⟩

end LuauUnify

namespace LuauUnify

/-- Claim C6 (corrected): the public tryUnify on the same handle twice
always finishes with no error and no log entry (it resets the counter, so
only the limit-0-means-disabled case could interfere, and it cannot); the
recursive worker on handles with equal follows likewise returns untouched,
but only provided the iteration limit is not yet exceeded — at the limit
it reports UnificationTooComplex instead (see the counterexample). -/
theorem identity_corrected (cfg : Config) (fuel : Nat) (st : UState)
    (t a b : Nat) (ff ii : Bool) :
    tryUnify cfg (fuel + 1) st t t ff ii = .ok { st with iterationCount := 1 } ∧
    (followTy st.arena a = followTy st.arena b →
      ¬ (0 < cfg.iterationLimit ∧ cfg.iterationLimit < st.iterationCount + 1) →
      tryUnifyTy cfg (fuel + 1) st a b ff ii =
        .ok { st with iterationCount := st.iterationCount + 1 }) :=
  ⟨tryUnify_identity cfg fuel st t ff ii,
   fun hf hl => tryUnifyTy_identical cfg fuel st a b ff ii hf hl⟩

/-- A tiny arena for the C6 witness and counterexample. -/
def stI : UState :=
  { arena := { types := [.errorTy, .prim .numberPrim], packs := [] } }

/-- A limit-1 session for the C6 counterexample. -/
def cfgC6 : Config := { iterationLimit := 1 }

/-- Counterexample to claim C6 as written: with the shared counter already
at the limit, the recursive worker pushes UnificationTooComplex even though
super and sub are the very same handle, so "whenever follow(super) and
follow(sub) are the identical handle, tryUnify_ returns without appending
any error" fails for nested calls. -/
theorem C6_counterexample :
    (tryUnifyTy cfgC6 5 { stI with iterationCount := 1 } 1 1 false false).map
      (fun r => (r.errors, r.log)) = .ok ([.unificationTooComplex], []) :=
  rfl

/-- Witness for the corrected claim C6 theorem on a concrete arena. -/
theorem identity_corrected_witness :
    tryUnify {} 3 stI 1 1 false false = .ok { stI with iterationCount := 1 } ∧
    followTy stI.arena 1 = followTy stI.arena 1 ∧
    ¬ (0 < ({} : Config).iterationLimit ∧
        ({} : Config).iterationLimit < stI.iterationCount + 1) ∧
    tryUnifyTy {} 3 stI 1 1 false false =
      .ok { stI with iterationCount := stI.iterationCount + 1 } :=
  ⟨(identity_corrected {} 2 stI 1 1 1 false false).1, rfl, by decide,
   (identity_corrected {} 2 stI 1 1 1 false false).2 rfl (by decide)⟩

end LuauUnify

namespace LuauUnify

/-- Arena exhibiting the C1 bug: node 0 is the metatable's table part (a
free table), node 1 its metatable part, node 2 the metatable super type,
node 3 a free table sub type. -/
def stC1 : UState :=
  { arena := { types := [.table [] none .free none ⟨0, 0⟩ none none,
                         .prim .numberPrim,
                         .mt 0 1,
                         .table [] none .free none ⟨0, 0⟩ none none],
               packs := [.errorTp] } }

/-- Claim C1 is a code bug: unifying the metatable super type (node 2)
against the free table sub type (node 3) succeeds, but the branch at
Unifier.cpp:1748 writes boundTo without journalling, so rolling back the
returned log leaves node 3 bound to node 2 instead of restoring the free
table it was before the call. -/
theorem C1_unlogged_boundTo :
    (tryUnify {} 20 stC1 2 3 false false).map
      (fun r => (r.errors, getTy (rollbackLog r.log r.arena) 3)) =
      .ok ([], .table [] none .free (some 2) ⟨0, 0⟩ none none) ∧
    getTy stC1.arena 3 = .table [] none .free none ⟨0, 0⟩ none none ∧
    (.table [] none .free (some 2) ⟨0, 0⟩ none none : TyNode) ≠
      .table [] none .free none ⟨0, 0⟩ none none :=
  ⟨rfl, rfl, by decide⟩

end LuauUnify

namespace LuauUnify

/-- Pack arena for the C7 witness: pack 1 is empty, pack 2 still has one
number head. -/
def stC7 : UState :=
  { arena := { types := [.errorTy, .prim .numberPrim],
               packs := [.errorTp, .pack [] none, .pack [1] none] } }

def supItC7 : WIter := { packId := 1, index := 0, growing := false }

def subItC7 : WIter := { packId := 2, index := 0, growing := false }

/-- Witness for the claim C7 theorem: the super cursor is exhausted, the
sub cursor has a leftover number head, nothing can grow or be skipped;
with isFunctionCall false the loop returns silently, and the mismatch
branch description also holds (vacuously here, its guard being false). -/
theorem packLoop_tail_mismatch_witness :
    (false = false → wgood stC7.arena subItC7 = true →
      packLoop {} (5 + 1) stC7 1 2 supItC7 subItC7 0 true false 0 = .ok stC7) ∧
    (false = true ∨ wgood stC7.arena subItC7 = false →
      packLoop {} (5 + 1) stC7 1 2 supItC7 subItC7 0 true false 0 =
        (do
          let sizes :=
            if stC7.ctx = .result then (sizePack stC7.arena 2, sizePack stC7.arena 1)
            else (sizePack stC7.arena 1, sizePack stC7.arena 2)
          let st1 := pushErr stC7 (.countMismatch sizes.1 sizes.2 stC7.ctx)
          let (st2, _) ← packRecoverLoop {} 5 st1 supItC7
          let (st3, _) ← packRecoverLoop {} 5 st2 subItC7
          pure st3)) :=
  packLoop_tail_mismatch {} 5 stC7 1 2 supItC7 subItC7 0 true false 0
    (by decide) (by decide) (by decide) (by decide) (by decide) (by decide)
    (by decide) (by decide) (by decide) (by decide) (by decide) (by decide)

end LuauUnify

namespace LuauUnify

/-- Claim-side twin of packLoop that also counts how many times the loop
body is entered (the C++ do-while iterations): each entry contributes one,
and only self-recursion accumulates; calls into other unifier routines end
this loop's count. -/
def packLoopIters (cfg : Config) (fuel : Nat) (st : UState) (superTp : Nat)
    (subTp : Nat) (supIt0 : WIter) (subIt0 : WIter) (emptyTp : Nat)
    (noIG : Bool) (ff : Bool) (loopCount : Nat) :
    Except Abort (UState × Nat) :=
  match fuel with
  | 0 => throw .fuel
  | fuel + 1 =>
    if 0 < cfg.packLoopLimit ∧ cfg.packLoopLimit ≤ loopCount then
      throw (.ice "Detected possibly infinite TypePack growth")
    else
      let loopCount := loopCount + 1
      let (st, subIt) :=
        if wgood st.arena supIt0 ∧ subIt0.growing then
          match getTp st.arena subIt0.packId with
          | .pack h t =>
            let (a, fresh) := freshTy st.arena subIt0.level
            ({ st with arena := setTp a subIt0.packId (.pack (h ++ [fresh]) t) }, subIt0)
          | _ => (st, subIt0)
        else (st, subIt0)
      let (st, supIt) :=
        if wgood st.arena subIt ∧ supIt0.growing then
          match getTp st.arena supIt0.packId with
          | .pack h t =>
            let (a, fresh) := freshTy st.arena supIt0.level
            ({ st with arena := setTp a supIt0.packId (.pack (h ++ [fresh]) t) }, supIt0)
          | _ => (st, supIt0)
        else (st, supIt0)
      if wgood st.arena supIt ∧ wgood st.arena subIt then do
        let st ← tryUnifyTy cfg fuel st (wget st.arena supIt) (wget st.arena subIt)
          false false
        let st :=
          if cfg.flags.extendedFunctionMismatchError ∧ st.errors ≠ [] ∧
              st.firstPackErrorPos = none then
            { st with firstPackErrorPos := some loopCount }
          else st
        let supIt := wadvance st.arena supIt
        let subIt := wadvance st.arena subIt
        if noIG then pure (st, 1)
        else do
          let r ← packLoopIters cfg fuel st superTp subTp supIt subIt emptyTp noIG ff loopCount
          pure (r.1, r.2 + 1)
      else if ¬ wgood st.arena supIt ∧ ¬ wgood st.arena subIt then
        match getTp st.arena superTp, getTp st.arena subTp with
        | .pack _ lTail, .pack _ rTail =>
          let lFree :=
            match lTail with
            | some t => isFreePack (getTp st.arena (followTp st.arena t))
            | none => false
          let rFree :=
            match rTail with
            | some t => isFreePack (getTp st.arena (followTp st.arena t))
            | none => false
          if lFree && rFree then
            (tryUnifyTp cfg fuel st (lTail.getD 0) (rTail.getD 0) false).map (fun s => (s, 1))
          else if lFree then
            (tryUnifyTp cfg fuel st (lTail.getD 0) emptyTp false).map (fun s => (s, 1))
          else if rFree then
            (tryUnifyTp cfg fuel st (rTail.getD 0) emptyTp false).map (fun s => (s, 1))
          else pure (st, 1)
        | _, _ => pure (st, 1)
      else if wcanGrow st.arena supIt ∧ wcanGrow st.arena subIt then
        (match wpack st.arena supIt, wpack st.arena subIt with
        | some (_, some lt2), some (_, some rt2) =>
          (tryUnifyTp cfg fuel st lt2 rt2 false).map (fun s => (s, 1))
        | _, _ => throw (.ice "unreachable: canGrow pack without TypePack view"))
      else if wcanGrow st.arena supIt then
        let (a, newTail) := addTp st.arena (.pack [] none)
        let (a, supIt) := wgrow a supIt newTail
        if noIG then pure ({ st with arena := a }, 1)
        else do
          let r ← packLoopIters cfg fuel { st with arena := a } superTp subTp supIt subIt
            emptyTp noIG ff loopCount
          pure (r.1, r.2 + 1)
      else if wcanGrow st.arena subIt then
        let (a, newTail) := addTp st.arena (.pack [] none)
        let (a, subIt) := wgrow a subIt newTail
        if noIG then pure ({ st with arena := a }, 1)
        else do
          let r ← packLoopIters cfg fuel { st with arena := a } superTp subTp supIt subIt
            emptyTp noIG ff loopCount
          pure (r.1, r.2 + 1)
      else
        if wgood st.arena supIt ∧ isOptionalT st.arena (wget st.arena supIt) then
          let supIt := wadvance st.arena supIt
          if noIG then pure (st, 1)
          else do
            let r ← packLoopIters cfg fuel st superTp subTp supIt subIt emptyTp noIG ff loopCount
            pure (r.1, r.2 + 1)
        else if wgood st.arena subIt ∧ isOptionalT st.arena (wget st.arena subIt) then
          let subIt := wadvance st.arena subIt
          if noIG then pure (st, 1)
          else do
            let r ← packLoopIters cfg fuel st superTp subTp supIt subIt emptyTp noIG ff loopCount
            pure (r.1, r.2 + 1)
        else if wgood st.arena supIt ∧ isNonstrictMode cfg ∧
            getTy st.arena (followTy st.arena (wget st.arena supIt)) = .anyTy then
          let supIt := wadvance st.arena supIt
          if noIG then pure (st, 1)
          else do
            let r ← packLoopIters cfg fuel st superTp subTp supIt subIt emptyTp noIG ff loopCount
            pure (r.1, r.2 + 1)
        else if isVariadicNode (getTp st.arena supIt.packId) then
          (tryUnifyVariadicsF cfg fuel st supIt.packId subIt.packId false subIt.index).map
            (fun s => (s, 1))
        else if isVariadicNode (getTp st.arena subIt.packId) then
          (tryUnifyVariadicsF cfg fuel st subIt.packId supIt.packId true supIt.index).map
            (fun s => (s, 1))
        else if ¬ ff ∧ wgood st.arena subIt then
          pure (st, 1)
        else do
          let expectedSize := sizePack st.arena superTp
          let actualSize := sizePack st.arena subTp
          let sizes :=
            if st.ctx = .result then (actualSize, expectedSize)
            else (expectedSize, actualSize)
          let st := pushErr st (.countMismatch sizes.1 sizes.2 st.ctx)
          let (st, _) ← packRecoverLoop cfg fuel st supIt
          let (st, _) ← packRecoverLoop cfg fuel st subIt
          pure (st, 1)
termination_by structural fuel

end LuauUnify

namespace LuauUnify

/-- The sub-side growth prologue of the pack loop (lines 886-γ: grow the
sub pack by one fresh type when the super cursor still has heads and the
sub side is a growing cursor). -/
def growSub (st : UState) (supIt0 subIt0 : WIter) : UState × WIter :=
  if wgood st.arena supIt0 ∧ subIt0.growing then
    match getTp st.arena subIt0.packId with
    | .pack h t =>
      let (a, fresh) := freshTy st.arena subIt0.level
      ({ st with arena := setTp a subIt0.packId (.pack (h ++ [fresh]) t) }, subIt0)
    | _ => (st, subIt0)
  else (st, subIt0)

/-- The super-side growth prologue, run after the sub side. -/
def growSup (st : UState) (supIt0 subIt : WIter) : UState × WIter :=
  if wgood st.arena subIt ∧ supIt0.growing then
    match getTp st.arena supIt0.packId with
    | .pack h t =>
      let (a, fresh) := freshTy st.arena supIt0.level
      ({ st with arena := setTp a supIt0.packId (.pack (h ++ [fresh]) t) }, supIt0)
    | _ => (st, supIt0)
  else (st, supIt0)

/-- The pack-loop body after the limit guard, counter increment and growth
prologues, with the grown state and cursors as parameters. -/
def packLoopTail (cfg : Config) (fuel : Nat) (st : UState) (superTp subTp : Nat)
    (supIt subIt : WIter) (emptyTp : Nat) (noIG ff : Bool) (loopCount : Nat) :
    Except Abort UState :=
  if wgood st.arena supIt ∧ wgood st.arena subIt then do
    let st ← tryUnifyTy cfg fuel st (wget st.arena supIt) (wget st.arena subIt)
      false false
    let st :=
      if cfg.flags.extendedFunctionMismatchError ∧ st.errors ≠ [] ∧
          st.firstPackErrorPos = none then
        { st with firstPackErrorPos := some loopCount }
      else st
    let supIt := wadvance st.arena supIt
    let subIt := wadvance st.arena subIt
    if noIG then pure st
    else packLoop cfg fuel st superTp subTp supIt subIt emptyTp noIG ff loopCount
  else if ¬ wgood st.arena supIt ∧ ¬ wgood st.arena subIt then
    match getTp st.arena superTp, getTp st.arena subTp with
    | .pack _ lTail, .pack _ rTail =>
      let lFree :=
        match lTail with
        | some t => isFreePack (getTp st.arena (followTp st.arena t))
        | none => false
      let rFree :=
        match rTail with
        | some t => isFreePack (getTp st.arena (followTp st.arena t))
        | none => false
      if lFree && rFree then
        tryUnifyTp cfg fuel st (lTail.getD 0) (rTail.getD 0) false
      else if lFree then tryUnifyTp cfg fuel st (lTail.getD 0) emptyTp false
      else if rFree then tryUnifyTp cfg fuel st (rTail.getD 0) emptyTp false
      else pure st
    | _, _ => pure st
  else if wcanGrow st.arena supIt ∧ wcanGrow st.arena subIt then
    (match wpack st.arena supIt, wpack st.arena subIt with
    | some (_, some lt2), some (_, some rt2) => tryUnifyTp cfg fuel st lt2 rt2 false
    | _, _ => throw (.ice "unreachable: canGrow pack without TypePack view"))
  else if wcanGrow st.arena supIt then
    let (a, newTail) := addTp st.arena (.pack [] none)
    let (a, supIt) := wgrow a supIt newTail
    if noIG then pure { st with arena := a }
    else
      packLoop cfg fuel { st with arena := a } superTp subTp supIt subIt emptyTp
        noIG ff loopCount
  else if wcanGrow st.arena subIt then
    let (a, newTail) := addTp st.arena (.pack [] none)
    let (a, subIt) := wgrow a subIt newTail
    if noIG then pure { st with arena := a }
    else
      packLoop cfg fuel { st with arena := a } superTp subTp supIt subIt emptyTp
        noIG ff loopCount
  else
    if wgood st.arena supIt ∧ isOptionalT st.arena (wget st.arena supIt) then
      let supIt := wadvance st.arena supIt
      if noIG then pure st
      else packLoop cfg fuel st superTp subTp supIt subIt emptyTp noIG ff loopCount
    else if wgood st.arena subIt ∧ isOptionalT st.arena (wget st.arena subIt) then
      let subIt := wadvance st.arena subIt
      if noIG then pure st
      else packLoop cfg fuel st superTp subTp supIt subIt emptyTp noIG ff loopCount
    else if wgood st.arena supIt ∧ isNonstrictMode cfg ∧
        getTy st.arena (followTy st.arena (wget st.arena supIt)) = .anyTy then
      let supIt := wadvance st.arena supIt
      if noIG then pure st
      else packLoop cfg fuel st superTp subTp supIt subIt emptyTp noIG ff loopCount
    else if isVariadicNode (getTp st.arena supIt.packId) then
      tryUnifyVariadicsF cfg fuel st supIt.packId subIt.packId false subIt.index
    else if isVariadicNode (getTp st.arena subIt.packId) then
      tryUnifyVariadicsF cfg fuel st subIt.packId supIt.packId true supIt.index
    else if ¬ ff ∧ wgood st.arena subIt then
      pure st
    else do
      let expectedSize := sizePack st.arena superTp
      let actualSize := sizePack st.arena subTp
      let sizes :=
        if st.ctx = .result then (actualSize, expectedSize)
        else (expectedSize, actualSize)
      let st := pushErr st (.countMismatch sizes.1 sizes.2 st.ctx)
      let (st, _) ← packRecoverLoop cfg fuel st supIt
      let (st, _) ← packRecoverLoop cfg fuel st subIt
      pure st

/-- The counting twin of packLoopTail. -/
def packLoopItersTail (cfg : Config) (fuel : Nat) (st : UState) (superTp subTp : Nat)
    (supIt subIt : WIter) (emptyTp : Nat) (noIG ff : Bool) (loopCount : Nat) :
    Except Abort (UState × Nat) :=
  if wgood st.arena supIt ∧ wgood st.arena subIt then do
    let st ← tryUnifyTy cfg fuel st (wget st.arena supIt) (wget st.arena subIt)
      false false
    let st :=
      if cfg.flags.extendedFunctionMismatchError ∧ st.errors ≠ [] ∧
          st.firstPackErrorPos = none then
        { st with firstPackErrorPos := some loopCount }
      else st
    let supIt := wadvance st.arena supIt
    let subIt := wadvance st.arena subIt
    if noIG then pure (st, 1)
    else do
      let r ← packLoopIters cfg fuel st superTp subTp supIt subIt emptyTp noIG ff loopCount
      pure (r.1, r.2 + 1)
  else if ¬ wgood st.arena supIt ∧ ¬ wgood st.arena subIt then
    match getTp st.arena superTp, getTp st.arena subTp with
    | .pack _ lTail, .pack _ rTail =>
      let lFree :=
        match lTail with
        | some t => isFreePack (getTp st.arena (followTp st.arena t))
        | none => false
      let rFree :=
        match rTail with
        | some t => isFreePack (getTp st.arena (followTp st.arena t))
        | none => false
      if lFree && rFree then
        (tryUnifyTp cfg fuel st (lTail.getD 0) (rTail.getD 0) false).map (fun s => (s, 1))
      else if lFree then
        (tryUnifyTp cfg fuel st (lTail.getD 0) emptyTp false).map (fun s => (s, 1))
      else if rFree then
        (tryUnifyTp cfg fuel st (rTail.getD 0) emptyTp false).map (fun s => (s, 1))
      else pure (st, 1)
    | _, _ => pure (st, 1)
  else if wcanGrow st.arena supIt ∧ wcanGrow st.arena subIt then
    (match wpack st.arena supIt, wpack st.arena subIt with
    | some (_, some lt2), some (_, some rt2) =>
      (tryUnifyTp cfg fuel st lt2 rt2 false).map (fun s => (s, 1))
    | _, _ => throw (.ice "unreachable: canGrow pack without TypePack view"))
  else if wcanGrow st.arena supIt then
    let (a, newTail) := addTp st.arena (.pack [] none)
    let (a, supIt) := wgrow a supIt newTail
    if noIG then pure ({ st with arena := a }, 1)
    else do
      let r ← packLoopIters cfg fuel { st with arena := a } superTp subTp supIt subIt
        emptyTp noIG ff loopCount
      pure (r.1, r.2 + 1)
  else if wcanGrow st.arena subIt then
    let (a, newTail) := addTp st.arena (.pack [] none)
    let (a, subIt) := wgrow a subIt newTail
    if noIG then pure ({ st with arena := a }, 1)
    else do
      let r ← packLoopIters cfg fuel { st with arena := a } superTp subTp supIt subIt
        emptyTp noIG ff loopCount
      pure (r.1, r.2 + 1)
  else
    if wgood st.arena supIt ∧ isOptionalT st.arena (wget st.arena supIt) then
      let supIt := wadvance st.arena supIt
      if noIG then pure (st, 1)
      else do
        let r ← packLoopIters cfg fuel st superTp subTp supIt subIt emptyTp noIG ff loopCount
        pure (r.1, r.2 + 1)
    else if wgood st.arena subIt ∧ isOptionalT st.arena (wget st.arena subIt) then
      let subIt := wadvance st.arena subIt
      if noIG then pure (st, 1)
      else do
        let r ← packLoopIters cfg fuel st superTp subTp supIt subIt emptyTp noIG ff loopCount
        pure (r.1, r.2 + 1)
    else if wgood st.arena supIt ∧ isNonstrictMode cfg ∧
        getTy st.arena (followTy st.arena (wget st.arena supIt)) = .anyTy then
      let supIt := wadvance st.arena supIt
      if noIG then pure (st, 1)
      else do
        let r ← packLoopIters cfg fuel st superTp subTp supIt subIt emptyTp noIG ff loopCount
        pure (r.1, r.2 + 1)
    else if isVariadicNode (getTp st.arena supIt.packId) then
      (tryUnifyVariadicsF cfg fuel st supIt.packId subIt.packId false subIt.index).map
        (fun s => (s, 1))
    else if isVariadicNode (getTp st.arena subIt.packId) then
      (tryUnifyVariadicsF cfg fuel st subIt.packId supIt.packId true supIt.index).map
        (fun s => (s, 1))
    else if ¬ ff ∧ wgood st.arena subIt then
      pure (st, 1)
    else do
      let expectedSize := sizePack st.arena superTp
      let actualSize := sizePack st.arena subTp
      let sizes :=
        if st.ctx = .result then (actualSize, expectedSize)
        else (expectedSize, actualSize)
      let st := pushErr st (.countMismatch sizes.1 sizes.2 st.ctx)
      let (st, _) ← packRecoverLoop cfg fuel st supIt
      let (st, _) ← packRecoverLoop cfg fuel st subIt
      pure (st, 1)

theorem packLoop_succ (cfg : Config) (fuel : Nat) (st : UState) (superTp subTp : Nat)
    (supIt0 subIt0 : WIter) (emptyTp : Nat) (noIG ff : Bool) (c : Nat) :
    packLoop cfg (fuel + 1) st superTp subTp supIt0 subIt0 emptyTp noIG ff c =
      if 0 < cfg.packLoopLimit ∧ cfg.packLoopLimit ≤ c then
        throw (.ice "Detected possibly infinite TypePack growth")
      else
        packLoopTail cfg fuel
          (growSup (growSub st supIt0 subIt0).1 supIt0 (growSub st supIt0 subIt0).2).1
          superTp subTp
          (growSup (growSub st supIt0 subIt0).1 supIt0 (growSub st supIt0 subIt0).2).2
          (growSub st supIt0 subIt0).2 emptyTp noIG ff (c + 1) := rfl

theorem packLoopIters_succ (cfg : Config) (fuel : Nat) (st : UState)
    (superTp subTp : Nat) (supIt0 subIt0 : WIter) (emptyTp : Nat) (noIG ff : Bool)
    (c : Nat) :
    packLoopIters cfg (fuel + 1) st superTp subTp supIt0 subIt0 emptyTp noIG ff c =
      if 0 < cfg.packLoopLimit ∧ cfg.packLoopLimit ≤ c then
        throw (.ice "Detected possibly infinite TypePack growth")
      else
        packLoopItersTail cfg fuel
          (growSup (growSub st supIt0 subIt0).1 supIt0 (growSub st supIt0 subIt0).2).1
          superTp subTp
          (growSup (growSub st supIt0 subIt0).1 supIt0 (growSub st supIt0 subIt0).2).2
          (growSub st supIt0 subIt0).2 emptyTp noIG ff (c + 1) := rfl

end LuauUnify

namespace LuauUnify

theorem emap_fst (x : Except Abort UState) :
    (x.map (fun s => (s, 1))).map Prod.fst = x := by
  cases x <;> rfl

theorem ebindinc_fst (x : Except Abort (UState × Nat)) (y : Except Abort UState)
    (hxy : x.map Prod.fst = y) :
    (do
      let r ← x
      pure (r.1, r.2 + 1) : Except Abort (UState × Nat)).map Prod.fst = y := by
  cases x with
  | error e => rw [← hxy]; rfl
  | ok r => rw [← hxy]; rfl

theorem ebind_mapfst {α : Type} (x : Except Abort α)
    (f : α → Except Abort (UState × Nat)) (g : α → Except Abort UState)
    (h : ∀ s, (f s).map Prod.fst = g s) :
    (Except.bind x f).map Prod.fst = Except.bind x g := by
  cases x with
  | error e => rfl
  | ok v => exact h v

theorem packLoopItersTail_fst (cfg : Config) (fuel : Nat) (st : UState)
    (superTp subTp : Nat) (supIt subIt : WIter) (emptyTp : Nat) (noIG ff : Bool)
    (lc : Nat)
    (ih : ∀ st2 sp2 sb2 si2 bi2 e2 g2 f2 c2,
      (packLoopIters cfg fuel st2 sp2 sb2 si2 bi2 e2 g2 f2 c2).map Prod.fst =
        packLoop cfg fuel st2 sp2 sb2 si2 bi2 e2 g2 f2 c2) :
    (packLoopItersTail cfg fuel st superTp subTp supIt subIt emptyTp noIG ff lc).map
      Prod.fst =
      packLoopTail cfg fuel st superTp subTp supIt subIt emptyTp noIG ff lc := by
  simp only [packLoopItersTail, packLoopTail, bind]
  by_cases h1 : wgood st.arena supIt = true ∧ wgood st.arena subIt = true
  · rw [if_pos h1, if_pos h1]
    refine ebind_mapfst _ _ _ (fun s => ?_)
    try dsimp only
    by_cases hN : noIG = true
    · rw [if_pos hN, if_pos hN]; rfl
    · rw [if_neg hN, if_neg hN]
      rw [← ih]
      exact ebindinc_fst _ _ rfl
  · rw [if_neg h1, if_neg h1]
    by_cases h2 : ¬ wgood st.arena supIt = true ∧ ¬ wgood st.arena subIt = true
    · rw [if_pos h2, if_pos h2]
      cases hL : getTp st.arena superTp <;> cases hR : getTp st.arena subTp <;>
        first
          | rfl
          | (dsimp only
             repeat' split
             all_goals first | rfl | exact emap_fst _)
    · rw [if_neg h2, if_neg h2]
      by_cases h3 : wcanGrow st.arena supIt = true ∧ wcanGrow st.arena subIt = true
      · rw [if_pos h3, if_pos h3]
        rcases hA : wpack st.arena supIt with _ | ⟨hh1, _ | tA⟩ <;>
          rcases hB : wpack st.arena subIt with _ | ⟨hh2, _ | tB⟩ <;>
            first | rfl | exact emap_fst _
      · rw [if_neg h3, if_neg h3]
        by_cases h4 : wcanGrow st.arena supIt = true
        · rw [if_pos h4, if_pos h4]
          dsimp only [addTp, wgrow]
          by_cases hN : noIG = true
          · rw [if_pos hN, if_pos hN]; rfl
          · rw [if_neg hN, if_neg hN]
            rw [← ih]
            exact ebindinc_fst _ _ rfl
        · rw [if_neg h4, if_neg h4]
          by_cases h5 : wcanGrow st.arena subIt = true
          · rw [if_pos h5, if_pos h5]
            dsimp only [addTp, wgrow]
            by_cases hN : noIG = true
            · rw [if_pos hN, if_pos hN]; rfl
            · rw [if_neg hN, if_neg hN]
              rw [← ih]
              exact ebindinc_fst _ _ rfl
          · rw [if_neg h5, if_neg h5]
            by_cases h6 : wgood st.arena supIt = true ∧
                isOptionalT st.arena (wget st.arena supIt) = true
            · rw [if_pos h6, if_pos h6]
              try dsimp only
              by_cases hN : noIG = true
              · rw [if_pos hN, if_pos hN]; rfl
              · rw [if_neg hN, if_neg hN]
                rw [← ih]
                exact ebindinc_fst _ _ rfl
            · rw [if_neg h6, if_neg h6]
              by_cases h7 : wgood st.arena subIt = true ∧
                  isOptionalT st.arena (wget st.arena subIt) = true
              · rw [if_pos h7, if_pos h7]
                try dsimp only
                by_cases hN : noIG = true
                · rw [if_pos hN, if_pos hN]; rfl
                · rw [if_neg hN, if_neg hN]
                  rw [← ih]
                  exact ebindinc_fst _ _ rfl
              · rw [if_neg h7, if_neg h7]
                by_cases h8 : wgood st.arena supIt = true ∧
                    isNonstrictMode cfg = true ∧
                    getTy st.arena (followTy st.arena (wget st.arena supIt)) = .anyTy
                · rw [if_pos h8, if_pos h8]
                  try dsimp only
                  by_cases hN : noIG = true
                  · rw [if_pos hN, if_pos hN]; rfl
                  · rw [if_neg hN, if_neg hN]
                    rw [← ih]
                    exact ebindinc_fst _ _ rfl
                · rw [if_neg h8, if_neg h8]
                  by_cases h9 : isVariadicNode (getTp st.arena supIt.packId) = true
                  · rw [if_pos h9, if_pos h9]
                    exact emap_fst _
                  · rw [if_neg h9, if_neg h9]
                    by_cases h10 : isVariadicNode (getTp st.arena subIt.packId) = true
                    · rw [if_pos h10, if_pos h10]
                      exact emap_fst _
                    · rw [if_neg h10, if_neg h10]
                      by_cases h11 : ¬ ff = true ∧ wgood st.arena subIt = true
                      · rw [if_pos h11, if_pos h11]; rfl
                      · rw [if_neg h11, if_neg h11]
                        try dsimp only
                        refine ebind_mapfst _ _ _ (fun p => ?_)
                        obtain ⟨s2, it2⟩ := p
                        try dsimp only
                        refine ebind_mapfst _ _ _ (fun q => ?_)
                        obtain ⟨s3, it3⟩ := q
                        rfl

end LuauUnify

namespace LuauUnify

theorem ebind_ok {α : Type} (x : Except Abort α) (f : α → Except Abort (UState × Nat))
    (st' : UState) (n : Nat) (h : Except.bind x f = .ok (st', n)) :
    ∃ v, x = .ok v ∧ f v = .ok (st', n) := by
  cases x with
  | error e => exact absurd h (by simp [Except.bind])
  | ok v => exact ⟨v, rfl, h⟩

theorem ebindinc_ok (x : Except Abort (UState × Nat)) (st' : UState) (n : Nat)
    (h : Except.bind x (fun r => pure (r.1, r.2 + 1)) = .ok (st', n)) :
    ∃ r, x = .ok r ∧ n = r.2 + 1 := by
  cases x with
  | error e => exact absurd h (by simp [Except.bind])
  | ok r =>
    simp only [Except.bind, pure, Except.pure, Except.ok.injEq, Prod.mk.injEq] at h
    exact ⟨r, rfl, h.2.symm⟩

theorem emap_ok (x : Except Abort UState) (st' : UState) (n : Nat)
    (h : x.map (fun s => (s, 1)) = .ok (st', n)) : n = 1 := by
  cases x with
  | error e => exact absurd h (by simp [Except.map])
  | ok s =>
    simp only [Except.map, Except.ok.injEq, Prod.mk.injEq] at h
    exact h.2.symm

theorem packLoopItersTail_le (cfg : Config) (fuel : Nat) (st : UState)
    (superTp subTp : Nat) (supIt subIt : WIter) (emptyTp : Nat) (noIG ff : Bool)
    (lc : Nat) (hlc : lc ≤ cfg.packLoopLimit)
    (ihb : ∀ st2 sp2 sb2 si2 bi2 e2 g2 f2 c2 st' n,
      packLoopIters cfg fuel st2 sp2 sb2 si2 bi2 e2 g2 f2 c2 = .ok (st', n) →
      c2 + n ≤ cfg.packLoopLimit) :
    ∀ st' n,
      packLoopItersTail cfg fuel st superTp subTp supIt subIt emptyTp noIG ff lc =
        .ok (st', n) → lc + n ≤ cfg.packLoopLimit + 1 := by
  intro st' n h
  simp only [packLoopItersTail, bind] at h
  by_cases h1 : wgood st.arena supIt = true ∧ wgood st.arena subIt = true
  · rw [if_pos h1] at h
    obtain ⟨v, hv, h⟩ := ebind_ok _ _ _ _ h
    by_cases hN : noIG = true
    · rw [if_pos hN] at h
      simp only [pure, Except.pure, Except.ok.injEq, Prod.mk.injEq] at h
      obtain ⟨h1a, h2⟩ := h
      omega
    · rw [if_neg hN] at h
      obtain ⟨r, hr, hn⟩ := ebindinc_ok _ _ _ h
      have hb := ihb _ _ _ _ _ _ _ _ _ _ _ hr
      omega
  · rw [if_neg h1] at h
    by_cases h2 : ¬ wgood st.arena supIt = true ∧ ¬ wgood st.arena subIt = true
    · rw [if_pos h2] at h
      split at h
      · repeat' split at h
        all_goals
          first
          | (have hn1 := emap_ok _ _ _ h; omega)
          | (simp only [pure, Except.pure, Except.ok.injEq, Prod.mk.injEq] at h
             obtain ⟨h1a, h2a⟩ := h
             omega)
      · simp only [pure, Except.pure, Except.ok.injEq, Prod.mk.injEq] at h
        obtain ⟨h1a, h2a⟩ := h
        omega
    · rw [if_neg h2] at h
      by_cases h3 : wcanGrow st.arena supIt = true ∧ wcanGrow st.arena subIt = true
      · rw [if_pos h3] at h
        split at h
        · have hn1 := emap_ok _ _ _ h; omega
        · simp at h
      · rw [if_neg h3] at h
        by_cases h4 : wcanGrow st.arena supIt = true
        · rw [if_pos h4] at h
          dsimp only [addTp, wgrow] at h
          by_cases hN : noIG = true
          · rw [if_pos hN] at h
            simp only [pure, Except.pure, Except.ok.injEq, Prod.mk.injEq] at h
            obtain ⟨h1a, h2⟩ := h
            omega
          · rw [if_neg hN] at h
            obtain ⟨r, hr, hn⟩ := ebindinc_ok _ _ _ h
            have hb := ihb _ _ _ _ _ _ _ _ _ _ _ hr
            omega
        · rw [if_neg h4] at h
          by_cases h5 : wcanGrow st.arena subIt = true
          · rw [if_pos h5] at h
            dsimp only [addTp, wgrow] at h
            by_cases hN : noIG = true
            · rw [if_pos hN] at h
              simp only [pure, Except.pure, Except.ok.injEq, Prod.mk.injEq] at h
              obtain ⟨h1a, h2⟩ := h
              omega
            · rw [if_neg hN] at h
              obtain ⟨r, hr, hn⟩ := ebindinc_ok _ _ _ h
              have hb := ihb _ _ _ _ _ _ _ _ _ _ _ hr
              omega
          · rw [if_neg h5] at h
            by_cases h6 : wgood st.arena supIt = true ∧
                isOptionalT st.arena (wget st.arena supIt) = true
            · rw [if_pos h6] at h
              by_cases hN : noIG = true
              · rw [if_pos hN] at h
                simp only [pure, Except.pure, Except.ok.injEq, Prod.mk.injEq] at h
                obtain ⟨h1a, h2⟩ := h
                omega
              · rw [if_neg hN] at h
                obtain ⟨r, hr, hn⟩ := ebindinc_ok _ _ _ h
                have hb := ihb _ _ _ _ _ _ _ _ _ _ _ hr
                omega
            · rw [if_neg h6] at h
              by_cases h7 : wgood st.arena subIt = true ∧
                  isOptionalT st.arena (wget st.arena subIt) = true
              · rw [if_pos h7] at h
                by_cases hN : noIG = true
                · rw [if_pos hN] at h
                  simp only [pure, Except.pure, Except.ok.injEq, Prod.mk.injEq] at h
                  obtain ⟨h1a, h2⟩ := h
                  omega
                · rw [if_neg hN] at h
                  obtain ⟨r, hr, hn⟩ := ebindinc_ok _ _ _ h
                  have hb := ihb _ _ _ _ _ _ _ _ _ _ _ hr
                  omega
              · rw [if_neg h7] at h
                by_cases h8 : wgood st.arena supIt = true ∧
                    isNonstrictMode cfg = true ∧
                    getTy st.arena (followTy st.arena (wget st.arena supIt)) = .anyTy
                · rw [if_pos h8] at h
                  by_cases hN : noIG = true
                  · rw [if_pos hN] at h
                    simp only [pure, Except.pure, Except.ok.injEq, Prod.mk.injEq] at h
                    obtain ⟨h1a, h2⟩ := h
                    omega
                  · rw [if_neg hN] at h
                    obtain ⟨r, hr, hn⟩ := ebindinc_ok _ _ _ h
                    have hb := ihb _ _ _ _ _ _ _ _ _ _ _ hr
                    omega
                · rw [if_neg h8] at h
                  by_cases h9 : isVariadicNode (getTp st.arena supIt.packId) = true
                  · rw [if_pos h9] at h
                    have hn1 := emap_ok _ _ _ h; omega
                  · rw [if_neg h9] at h
                    by_cases h10 : isVariadicNode (getTp st.arena subIt.packId) = true
                    · rw [if_pos h10] at h
                      have hn1 := emap_ok _ _ _ h; omega
                    · rw [if_neg h10] at h
                      by_cases h11 : ¬ ff = true ∧ wgood st.arena subIt = true
                      · rw [if_pos h11] at h
                        simp only [pure, Except.pure, Except.ok.injEq, Prod.mk.injEq] at h
                        obtain ⟨h1a, h2⟩ := h
                        omega
                      · rw [if_neg h11] at h
                        obtain ⟨p, hp, h⟩ := ebind_ok _ _ _ _ h
                        obtain ⟨s2, it2⟩ := p
                        obtain ⟨q, hq, h⟩ := ebind_ok _ _ _ _ h
                        obtain ⟨s3, it3⟩ := q
                        simp only [pure, Except.pure, Except.ok.injEq, Prod.mk.injEq] at h
                        obtain ⟨h1a, h2⟩ := h
                        omega

theorem packLoopIters_fst (cfg : Config) : ∀ fuel st sp sb si bi e2 g2 f2 c,
    (packLoopIters cfg fuel st sp sb si bi e2 g2 f2 c).map Prod.fst =
      packLoop cfg fuel st sp sb si bi e2 g2 f2 c := by
  intro fuel
  induction fuel with
  | zero => intro st sp sb si bi e2 g2 f2 c; rfl
  | succ fuel ih =>
    intro st sp sb si bi e2 g2 f2 c
    rw [packLoopIters_succ, packLoop_succ]
    by_cases hg : 0 < cfg.packLoopLimit ∧ cfg.packLoopLimit ≤ c
    · rw [if_pos hg, if_pos hg]; rfl
    · rw [if_neg hg, if_neg hg]
      exact packLoopItersTail_fst cfg fuel _ _ _ _ _ _ _ _ _
        (fun st2 sp2 sb2 si2 bi2 e3 g3 f3 c2 => ih st2 sp2 sb2 si2 bi2 e3 g3 f3 c2)

theorem packLoopIters_le (cfg : Config) (hpos : 0 < cfg.packLoopLimit) :
    ∀ fuel st sp sb si bi e2 g2 f2 c st' n,
      packLoopIters cfg fuel st sp sb si bi e2 g2 f2 c = .ok (st', n) →
      c + n ≤ cfg.packLoopLimit := by
  intro fuel
  induction fuel with
  | zero => intro st sp sb si bi e2 g2 f2 c st' n h; simp [packLoopIters] at h
  | succ fuel ih =>
    intro st sp sb si bi e2 g2 f2 c st' n h
    rw [packLoopIters_succ] at h
    by_cases hg : 0 < cfg.packLoopLimit ∧ cfg.packLoopLimit ≤ c
    · rw [if_pos hg] at h
      simp at h
    · rw [if_neg hg] at h
      have hc1 : c + 1 ≤ cfg.packLoopLimit := by
        rcases Nat.lt_or_ge c cfg.packLoopLimit with h' | h'
        · omega
        · exact absurd ⟨hpos, h'⟩ hg
      have hb := packLoopItersTail_le cfg fuel _ _ _ _ _ _ _ _ _ hc1
        (fun st2 sp2 sb2 si2 bi2 e3 g3 f3 c2 st'' n' hh =>
          ih st2 sp2 sb2 si2 bi2 e3 g3 f3 c2 st'' n' hh)
        st' n h
      omega

end LuauUnify

namespace LuauUnify

/-- Claim C9: in the TypePack growth loop, once the iteration counter has
reached a positive LuauTypeInferTypePackLoopLimit the unifier aborts
through the ICE handler with the message "Detected possibly infinite
TypePack growth" and pushes no TypeError (the abort is not a normal return
with an error appended); below the limit the loop body runs a bounded
number of times per call: the counting twin packLoopIters computes the
same result, and any normal return entered with counter c performed at
most packLoopLimit - c iterations. -/
theorem packLoop_growth_limited (cfg : Config) (fuel : Nat) (st : UState)
    (superTp subTp : Nat) (supIt subIt : WIter) (emptyTp : Nat) (noIG ff : Bool)
    (c : Nat) (st' : UState) (n : Nat) :
    (0 < cfg.packLoopLimit → cfg.packLoopLimit ≤ c →
      packLoop cfg (fuel + 1) st superTp subTp supIt subIt emptyTp noIG ff c =
        throw (.ice "Detected possibly infinite TypePack growth")) ∧
    (packLoopIters cfg fuel st superTp subTp supIt subIt emptyTp noIG ff c).map
      Prod.fst =
      packLoop cfg fuel st superTp subTp supIt subIt emptyTp noIG ff c ∧
    (0 < cfg.packLoopLimit →
      packLoopIters cfg fuel st superTp subTp supIt subIt emptyTp noIG ff c =
        .ok (st', n) →
      c + n ≤ cfg.packLoopLimit) := by
  refine ⟨fun h1 h2 => ?_,
    packLoopIters_fst cfg fuel st superTp subTp supIt subIt emptyTp noIG ff c,
    fun hp hh => packLoopIters_le cfg hp fuel _ _ _ _ _ _ _ _ _ _ _ hh⟩
  rw [packLoop_succ]
  rw [if_pos ⟨h1, h2⟩]

/-- A session whose pack loop limit is 5. -/
def cfgC9 : Config := { packLoopLimit := 5 }

/-- Pack arena for the C9 witness: pack 1 is empty, pack 2 has one number
head. -/
def stC9 : UState :=
  { arena := { types := [.errorTy, .prim .numberPrim],
               packs := [.errorTp, .pack [] none, .pack [1] none] } }

def supItC9 : WIter := { packId := 1, index := 0, growing := false }

def subItC9 : WIter := { packId := 2, index := 0, growing := false }

/-- Witness for the claim C9 theorem: at counter 5 the loop aborts with the
ICE message; at counter 0 the run takes one iteration, within the limit. -/
theorem packLoop_growth_limited_witness :
    packLoop cfgC9 (3 + 1) stC9 1 2 supItC9 subItC9 0 true false 5 =
      throw (.ice "Detected possibly infinite TypePack growth") ∧
    (packLoopIters cfgC9 3 stC9 1 2 supItC9 subItC9 0 true false 0).map Prod.fst =
      packLoop cfgC9 3 stC9 1 2 supItC9 subItC9 0 true false 0 ∧
    0 + 1 ≤ cfgC9.packLoopLimit :=
  ⟨(packLoop_growth_limited cfgC9 3 stC9 1 2 supItC9 subItC9 0 true false 5 stC9 1).1
     (by decide) (by decide),
   (packLoop_growth_limited cfgC9 3 stC9 1 2 supItC9 subItC9 0 true false 0 stC9 1).2.1,
   (packLoop_growth_limited cfgC9 3 stC9 1 2 supItC9 subItC9 0 true false 0 stC9 1).2.2
     (by decide) (by rfl)⟩

end LuauUnify

namespace LuauUnify

/-- The children the occurs check walks from a (followed) node: function
argument and return pack heads, union options, intersection parts. -/
def occSuccs (a : Arena) (x : Nat) : List Nat :=
  match getTy a x with
  | .fn _ _ _ argTypes retType _ => packHeads a argTypes ++ packHeads a retType
  | .union opts => opts
  | .inter parts => parts
  | _ => []

/-- The needle f (a followed id) occurs in the structure reachable from h
through follow and occSuccs. -/
inductive OccursIn (a : Arena) (f : Nat) : Nat → Prop where
  | here (h : Nat) : followTy a h = f → OccursIn a f h
  | step (h y : Nat) : y ∈ occSuccs a (followTy a h) → OccursIn a f y →
      OccursIn a f h

/-- A successor-closed set of followed nodes avoiding f bars any
occurrence. -/
theorem occClosed_not_occurs (a : Arena) (f : Nat) (S : List Nat)
    (hS : ∀ x ∈ S, x ≠ f ∧ ∀ y ∈ occSuccs a x, followTy a y ∈ S) :
    ∀ h, OccursIn a f h → followTy a h ∈ S → False := by
  intro h hocc
  induction hocc with
  | here h2 hf =>
    intro hmem
    rw [hf] at hmem
    exact (hS f hmem).1 rfl
  | step h2 y hy hsub ih =>
    intro hmem
    exact ih ((hS _ hmem).2 y hy)

/-- The one-shot mutation of the occurs check: push OccursCheckFailed, log
the needle, overwrite it with the error node. -/
def occMutated (st : UState) (needle : Nat) (st' : UState) : Prop :=
  ∃ lvl, getTy st.arena needle = .freeTy lvl ∧
    st' = { st with
      errors := st.errors ++ [.occursCheckFailed]
      log := .tyE needle (.freeTy lvl) :: st.log
      arena := setTy st.arena needle .errorTy }

theorem occAux_errNeedle (cfg : Config) : ∀ fuel st seen needle haystack st' seen',
    followTy st.arena needle = needle →
    getTy st.arena needle = .errorTy →
    occursCheckTyAux cfg fuel st seen needle haystack = .ok (st', seen') →
    st' = st := by
  intro fuel
  cases fuel with
  | zero =>
    intro st seen needle haystack st' seen' hNf hErrN h
    simp [occursCheckTyAux] at h
  | succ fuel =>
    intro st seen needle haystack st' seen' hNf hErrN h
    simp only [occursCheckTyAux, hNf] at h
    by_cases hs : followTy st.arena haystack ∈ seen
    · rw [if_pos hs] at h
      simp only [pure, Except.pure, Except.ok.injEq, Prod.mk.injEq] at h
      exact h.1.symm
    · rw [if_neg hs] at h
      rw [if_pos hErrN] at h
      simp only [pure, Except.pure, Except.ok.injEq, Prod.mk.injEq] at h
      exact h.1.symm

theorem occList_errNeedle (cfg : Config) : ∀ fuel st seen needle tys st' seen',
    followTy st.arena needle = needle →
    getTy st.arena needle = .errorTy →
    occursCheckTyList cfg fuel st seen needle tys = .ok (st', seen') →
    st' = st := by
  intro fuel
  induction fuel with
  | zero =>
    intro st seen needle tys st' seen' hNf hErrN h
    simp [occursCheckTyList] at h
  | succ fuel ih =>
    intro st seen needle tys st' seen' hNf hErrN h
    cases tys with
    | nil =>
      simp only [occursCheckTyList, pure, Except.pure, Except.ok.injEq,
        Prod.mk.injEq] at h
      exact h.1.symm
    | cons t rest =>
      simp only [occursCheckTyList, bind, Except.bind] at h
      cases hc : occursCheckTyAux cfg fuel st seen needle t with
      | error e => rw [hc] at h; exact absurd h (by simp)
      | ok p =>
        rw [hc] at h
        obtain ⟨st1, seen1⟩ := p
        have h1 := occAux_errNeedle cfg fuel st seen needle t st1 seen1 hNf hErrN hc
        rw [h1] at h
        exact ih st seen1 needle rest st' seen' hNf hErrN h

end LuauUnify

namespace LuauUnify

theorem isFree_exists (n : TyNode) (h : isFreeNode n = true) :
    ∃ lvl, n = .freeTy lvl := by
  cases n <;> first | exact ⟨_, rfl⟩ | simp [isFreeNode] at h

theorem occMutated_err (st : UState) (needle : Nat) (st' : UState)
    (hm : occMutated st needle st') :
    followTy st'.arena needle = needle ∧ getTy st'.arena needle = .errorTy := by
  obtain ⟨lvl, hg, hst⟩ := hm
  have hlt : needle < st.arena.types.length :=
    getTy_lt_of_ne_error _ _ (by simp [hg])
  have hget : getTy st'.arena needle = .errorTy := by
    rw [hst]
    exact getTy_setTy_self _ _ _ hlt
  exact ⟨followTy_fix _ _ (by simp [followStops, hget]), hget⟩

theorem occShape_all (cfg : Config) : ∀ fuel,
    (∀ st seen needle haystack st' seen',
      followTy st.arena needle = needle →
      occursCheckTyAux cfg fuel st seen needle haystack = .ok (st', seen') →
      st' = st ∨ occMutated st needle st') ∧
    (∀ st seen needle tys st' seen',
      followTy st.arena needle = needle →
      occursCheckTyList cfg fuel st seen needle tys = .ok (st', seen') →
      st' = st ∨ occMutated st needle st') := by
  intro fuel
  induction fuel with
  | zero =>
    constructor
    · intro st seen needle haystack st' seen' hNf h
      simp [occursCheckTyAux] at h
    · intro st seen needle tys st' seen' hNf h
      simp [occursCheckTyList] at h
  | succ fuel ih =>
    constructor
    · intro st seen needle haystack st' seen' hNf h
      simp only [occursCheckTyAux, hNf] at h
      by_cases hs : followTy st.arena haystack ∈ seen
      · rw [if_pos hs] at h
        simp only [pure, Except.pure, Except.ok.injEq, Prod.mk.injEq] at h
        exact Or.inl h.1.symm
      · rw [if_neg hs] at h
        by_cases hEN : getTy st.arena needle = .errorTy
        · rw [if_pos hEN] at h
          simp only [pure, Except.pure, Except.ok.injEq, Prod.mk.injEq] at h
          exact Or.inl h.1.symm
        · rw [if_neg hEN] at h
          by_cases hFree : isFreeNode (getTy st.arena needle) = true
          · rw [if_neg (not_not_intro hFree)] at h
            obtain ⟨lvl, hgn⟩ := isFree_exists _ hFree
            by_cases hEq : needle = followTy st.arena haystack
            · rw [if_pos hEq] at h
              simp only [pushErr, logTy, pure, Except.pure, Except.ok.injEq,
                Prod.mk.injEq] at h
              refine Or.inr ⟨lvl, hgn, ?_⟩
              rw [← h.1]
              simp [hgn]
            · rw [if_neg hEq] at h
              cases hshape : getTy st.arena (followTy st.arena haystack) with
              | freeTy l =>
                rw [hshape] at h
                dsimp only at h
                simp only [pure, Except.pure, Except.ok.injEq, Prod.mk.injEq] at h
                exact Or.inl h.1.symm
              | fn lvl2 gen genP argTypes retType defn =>
                rw [hshape] at h
                dsimp only at h
                by_cases hFlag : cfg.flags.occursCheckOkWithRecursiveFunctions = true
                · rw [if_pos hFlag] at h
                  simp only [pure, Except.pure, Except.ok.injEq, Prod.mk.injEq] at h
                  exact Or.inl h.1.symm
                · rw [if_neg hFlag] at h
                  simp only [bind, Except.bind] at h
                  cases hc1 : occursCheckTyList cfg fuel st
                      (followTy st.arena haystack :: seen) needle
                      (packHeads st.arena argTypes) with
                  | error e => rw [hc1] at h; exact absurd h (by simp)
                  | ok p =>
                    rw [hc1] at h
                    obtain ⟨st1, seen1⟩ := p
                    rcases ih.2 st _ needle _ st1 seen1 hNf hc1 with h1 | h1
                    · rw [h1] at h
                      exact ih.2 st seen1 needle _ st' seen' hNf h
                    · obtain ⟨hf1, hf2⟩ := occMutated_err st needle st1 h1
                      have h3 := occList_errNeedle cfg fuel st1 seen1 needle
                        _ st' seen' hf1 hf2 h
                      rw [h3]
                      exact Or.inr h1
              | union opts =>
                rw [hshape] at h
                dsimp only at h
                exact ih.2 st _ needle opts st' seen' hNf h
              | inter parts =>
                rw [hshape] at h
                dsimp only at h
                exact ih.2 st _ needle parts st' seen' hNf h
              | boundTy t =>
                rw [hshape] at h
                dsimp only at h
                simp only [pure, Except.pure, Except.ok.injEq, Prod.mk.injEq] at h
                exact Or.inl h.1.symm
              | genericTy l =>
                rw [hshape] at h
                dsimp only at h
                simp only [pure, Except.pure, Except.ok.injEq, Prod.mk.injEq] at h
                exact Or.inl h.1.symm
              | errorTy =>
                rw [hshape] at h
                dsimp only at h
                simp only [pure, Except.pure, Except.ok.injEq, Prod.mk.injEq] at h
                exact Or.inl h.1.symm
              | anyTy =>
                rw [hshape] at h
                dsimp only at h
                simp only [pure, Except.pure, Except.ok.injEq, Prod.mk.injEq] at h
                exact Or.inl h.1.symm
              | prim k =>
                rw [hshape] at h
                dsimp only at h
                simp only [pure, Except.pure, Except.ok.injEq, Prod.mk.injEq] at h
                exact Or.inl h.1.symm
              | singleton s =>
                rw [hshape] at h
                dsimp only at h
                simp only [pure, Except.pure, Except.ok.injEq, Prod.mk.injEq] at h
                exact Or.inl h.1.symm
              | table props idx stt bt l nm snm =>
                rw [hshape] at h
                dsimp only at h
                simp only [pure, Except.pure, Except.ok.injEq, Prod.mk.injEq] at h
                exact Or.inl h.1.symm
              | mt t m =>
                rw [hshape] at h
                dsimp only at h
                simp only [pure, Except.pure, Except.ok.injEq, Prod.mk.injEq] at h
                exact Or.inl h.1.symm
              | cls nm par props =>
                rw [hshape] at h
                dsimp only at h
                simp only [pure, Except.pure, Except.ok.injEq, Prod.mk.injEq] at h
                exact Or.inl h.1.symm
          · rw [if_pos (by simpa using hFree)] at h
            exact absurd h (by simp [throw])
    · intro st seen needle tys st' seen' hNf h
      cases tys with
      | nil =>
        simp only [occursCheckTyList, pure, Except.pure, Except.ok.injEq,
          Prod.mk.injEq] at h
        exact Or.inl h.1.symm
      | cons t rest =>
        simp only [occursCheckTyList, bind, Except.bind] at h
        cases hc : occursCheckTyAux cfg fuel st seen needle t with
        | error e => rw [hc] at h; exact absurd h (by simp)
        | ok p =>
          rw [hc] at h
          obtain ⟨st1, seen1⟩ := p
          rcases ih.1 st seen needle t st1 seen1 hNf hc with h1 | h1
          · rw [h1] at h
            exact ih.2 st seen1 needle rest st' seen' hNf h
          · obtain ⟨hf1, hf2⟩ := occMutated_err st needle st1 h1
            have h2 := occList_errNeedle cfg fuel st1 seen1 needle rest st' seen'
              hf1 hf2 h
            rw [h2]
            exact Or.inr h1

end LuauUnify

namespace LuauUnify

/-- All nodes newly visited (in seen' but not seen) avoid the needle and
have every successor's follow recorded in seen'. -/
def occClosedOver (a : Arena) (needle : Nat) (seen seen' : List Nat) : Prop :=
  ∀ x, x ∈ seen' → x ∉ seen →
    x ≠ needle ∧ ∀ y ∈ occSuccs a x, followTy a y ∈ seen'

theorem occClosedOver_trans (a : Arena) (needle : Nat) (s0 s1 s2 : List Nat)
    (h01 : occClosedOver a needle s0 s1) (h12 : occClosedOver a needle s1 s2)
    (hmono : ∀ x ∈ s1, x ∈ s2) :
    occClosedOver a needle s0 s2 := by
  intro x hx2 hx0
  by_cases hx1 : x ∈ s1
  · obtain ⟨hne, hsucc⟩ := h01 x hx1 hx0
    exact ⟨hne, fun y hy => hmono _ (hsucc y hy)⟩
  · exact h12 x hx2 hx1

theorem occClosedOver_cons (a : Arena) (needle hayF : Nat) (seen s' : List Nat)
    (hne : hayF ≠ needle) (hsucc : ∀ y ∈ occSuccs a hayF, followTy a y ∈ s')
    (hrest : occClosedOver a needle (hayF :: seen) s') :
    occClosedOver a needle seen s' := by
  intro x hx hxs
  by_cases hxh : x = hayF
  · subst hxh; exact ⟨hne, hsucc⟩
  · exact hrest x hx (by simp [hxs, hxh])

theorem occClosedOver_refl (a : Arena) (needle : Nat) (s : List Nat) :
    occClosedOver a needle s s :=
  fun x hx hxs => absurd hx hxs

theorem occClean_all (cfg : Config)
    (hflag : cfg.flags.occursCheckOkWithRecursiveFunctions = false) : ∀ fuel,
    (∀ st seen needle haystack st' seen' lvl,
      followTy st.arena needle = needle →
      getTy st.arena needle = .freeTy lvl →
      occursCheckTyAux cfg fuel st seen needle haystack = .ok (st', seen') →
      st'.errors = st.errors →
      st' = st ∧ (∀ x ∈ seen, x ∈ seen') ∧ followTy st.arena haystack ∈ seen' ∧
        occClosedOver st.arena needle seen seen') ∧
    (∀ st seen needle tys st' seen' lvl,
      followTy st.arena needle = needle →
      getTy st.arena needle = .freeTy lvl →
      occursCheckTyList cfg fuel st seen needle tys = .ok (st', seen') →
      st'.errors = st.errors →
      st' = st ∧ (∀ x ∈ seen, x ∈ seen') ∧
        (∀ t ∈ tys, followTy st.arena t ∈ seen') ∧
        occClosedOver st.arena needle seen seen') := by
  intro fuel
  induction fuel with
  | zero =>
    constructor
    · intro st seen needle haystack st' seen' lvl hNf hfreeN h herr
      simp [occursCheckTyAux] at h
    · intro st seen needle tys st' seen' lvl hNf hfreeN h herr
      simp [occursCheckTyList] at h
  | succ fuel ih =>
    constructor
    · intro st seen needle haystack st' seen' lvl hNf hfreeN h herr
      simp only [occursCheckTyAux, hNf] at h
      by_cases hs : followTy st.arena haystack ∈ seen
      · rw [if_pos hs] at h
        simp only [pure, Except.pure, Except.ok.injEq, Prod.mk.injEq] at h
        obtain ⟨h1, h2⟩ := h
        subst h2
        exact ⟨h1.symm, fun x hx => hx, hs, occClosedOver_refl _ _ _⟩
      · rw [if_neg hs] at h
        rw [if_neg (by simp [hfreeN])] at h
        rw [if_neg (not_not_intro (by simp [isFreeNode, hfreeN]))] at h
        by_cases hEq : needle = followTy st.arena haystack
        · rw [if_pos hEq] at h
          simp only [pushErr, logTy, pure, Except.pure, Except.ok.injEq,
            Prod.mk.injEq] at h
          rw [← h.1] at herr
          exact absurd herr (list_ne_append_singleton _ _)
        · rw [if_neg hEq] at h
          have hne : followTy st.arena haystack ≠ needle := fun hh => hEq hh.symm
          cases hshape : getTy st.arena (followTy st.arena haystack) with
          | fn lvl2 gen genP argTypes retType defn =>
            rw [hshape] at h
            dsimp only at h
            rw [if_neg (by simp [hflag])] at h
            simp only [bind, Except.bind] at h
            cases hc1 : occursCheckTyList cfg fuel st
                (followTy st.arena haystack :: seen) needle
                (packHeads st.arena argTypes) with
            | error e => rw [hc1] at h; exact absurd h (by simp)
            | ok p =>
              rw [hc1] at h
              obtain ⟨st1, seenA⟩ := p
              rcases (occShape_all cfg fuel).2 _ _ _ _ _ _ hNf hc1 with hcl | hmut
              · subst hcl
                have herr1 : st1.errors = st1.errors := rfl
                obtain ⟨hq1, hmonoA, hmemA, hcloA⟩ :=
                  ih.2 st1 _ needle _ st1 seenA lvl hNf hfreeN hc1 rfl
                obtain ⟨hq2, hmonoB, hmemB, hcloB⟩ :=
                  ih.2 st1 seenA needle _ st' seen' lvl hNf hfreeN h herr
                refine ⟨hq2, ?_, ?_, ?_⟩
                · intro x hx
                  exact hmonoB _ (hmonoA _ (List.mem_cons_of_mem _ hx))
                · exact hmonoB _ (hmonoA _ (List.mem_cons_self _ _))
                · refine occClosedOver_cons _ _ _ _ _ hne ?_ ?_
                  · intro y hy
                    rw [occSuccs, hshape] at hy
                    rcases List.mem_append.mp hy with hy' | hy'
                    · exact hmonoB _ (hmemA y hy')
                    · exact hmemB y hy'
                  · exact occClosedOver_trans _ _ _ _ _ hcloA hcloB hmonoB
              · obtain ⟨hf1, hf2⟩ := occMutated_err st needle st1 hmut
                rcases (occShape_all cfg fuel).2 _ _ _ _ _ _ hf1 h with hcl2 | hmut2
                · subst hcl2
                  obtain ⟨lvlM, hgM, hstM⟩ := hmut
                  rw [hstM] at herr
                  exact absurd herr (list_ne_append_singleton _ _)
                · obtain ⟨lvlM, hgM, hstM⟩ := hmut
                  obtain ⟨lvl2M, hg2M, hst2M⟩ := hmut2
                  have hl := congrArg List.length herr
                  rw [hst2M, hstM] at hl
                  simp [List.length_append] at hl
          | union opts =>
            rw [hshape] at h
            dsimp only at h
            obtain ⟨hq, hmono, hmem, hclo⟩ :=
              ih.2 st _ needle opts st' seen' lvl hNf hfreeN h herr
            refine ⟨hq, ?_, ?_, ?_⟩
            · intro x hx
              exact hmono _ (List.mem_cons_of_mem _ hx)
            · exact hmono _ (List.mem_cons_self _ _)
            · refine occClosedOver_cons _ _ _ _ _ hne ?_ hclo
              intro y hy
              rw [occSuccs, hshape] at hy
              exact hmem y hy
          | inter parts =>
            rw [hshape] at h
            dsimp only at h
            obtain ⟨hq, hmono, hmem, hclo⟩ :=
              ih.2 st _ needle parts st' seen' lvl hNf hfreeN h herr
            refine ⟨hq, ?_, ?_, ?_⟩
            · intro x hx
              exact hmono _ (List.mem_cons_of_mem _ hx)
            · exact hmono _ (List.mem_cons_self _ _)
            · refine occClosedOver_cons _ _ _ _ _ hne ?_ hclo
              intro y hy
              rw [occSuccs, hshape] at hy
              exact hmem y hy
          | freeTy l =>
            rw [hshape] at h
            dsimp only at h
            simp only [pure, Except.pure, Except.ok.injEq, Prod.mk.injEq] at h
            obtain ⟨h1, h2⟩ := h
            subst h2
            refine ⟨h1.symm, fun x hx => List.mem_cons_of_mem _ hx,
              List.mem_cons_self _ _, ?_⟩
            refine occClosedOver_cons _ _ _ _ _ hne ?_ (occClosedOver_refl _ _ _)
            intro y hy
            rw [occSuccs, hshape] at hy
            simp at hy
          | boundTy t =>
            rw [hshape] at h
            dsimp only at h
            simp only [pure, Except.pure, Except.ok.injEq, Prod.mk.injEq] at h
            obtain ⟨h1, h2⟩ := h
            subst h2
            refine ⟨h1.symm, fun x hx => List.mem_cons_of_mem _ hx,
              List.mem_cons_self _ _, ?_⟩
            refine occClosedOver_cons _ _ _ _ _ hne ?_ (occClosedOver_refl _ _ _)
            intro y hy
            rw [occSuccs, hshape] at hy
            simp at hy
          | genericTy l =>
            rw [hshape] at h
            dsimp only at h
            simp only [pure, Except.pure, Except.ok.injEq, Prod.mk.injEq] at h
            obtain ⟨h1, h2⟩ := h
            subst h2
            refine ⟨h1.symm, fun x hx => List.mem_cons_of_mem _ hx,
              List.mem_cons_self _ _, ?_⟩
            refine occClosedOver_cons _ _ _ _ _ hne ?_ (occClosedOver_refl _ _ _)
            intro y hy
            rw [occSuccs, hshape] at hy
            simp at hy
          | errorTy =>
            rw [hshape] at h
            dsimp only at h
            simp only [pure, Except.pure, Except.ok.injEq, Prod.mk.injEq] at h
            obtain ⟨h1, h2⟩ := h
            subst h2
            refine ⟨h1.symm, fun x hx => List.mem_cons_of_mem _ hx,
              List.mem_cons_self _ _, ?_⟩
            refine occClosedOver_cons _ _ _ _ _ hne ?_ (occClosedOver_refl _ _ _)
            intro y hy
            rw [occSuccs, hshape] at hy
            simp at hy
          | anyTy =>
            rw [hshape] at h
            dsimp only at h
            simp only [pure, Except.pure, Except.ok.injEq, Prod.mk.injEq] at h
            obtain ⟨h1, h2⟩ := h
            subst h2
            refine ⟨h1.symm, fun x hx => List.mem_cons_of_mem _ hx,
              List.mem_cons_self _ _, ?_⟩
            refine occClosedOver_cons _ _ _ _ _ hne ?_ (occClosedOver_refl _ _ _)
            intro y hy
            rw [occSuccs, hshape] at hy
            simp at hy
          | prim k =>
            rw [hshape] at h
            dsimp only at h
            simp only [pure, Except.pure, Except.ok.injEq, Prod.mk.injEq] at h
            obtain ⟨h1, h2⟩ := h
            subst h2
            refine ⟨h1.symm, fun x hx => List.mem_cons_of_mem _ hx,
              List.mem_cons_self _ _, ?_⟩
            refine occClosedOver_cons _ _ _ _ _ hne ?_ (occClosedOver_refl _ _ _)
            intro y hy
            rw [occSuccs, hshape] at hy
            simp at hy
          | singleton sv =>
            rw [hshape] at h
            dsimp only at h
            simp only [pure, Except.pure, Except.ok.injEq, Prod.mk.injEq] at h
            obtain ⟨h1, h2⟩ := h
            subst h2
            refine ⟨h1.symm, fun x hx => List.mem_cons_of_mem _ hx,
              List.mem_cons_self _ _, ?_⟩
            refine occClosedOver_cons _ _ _ _ _ hne ?_ (occClosedOver_refl _ _ _)
            intro y hy
            rw [occSuccs, hshape] at hy
            simp at hy
          | table props idx stt bt l nm snm =>
            rw [hshape] at h
            dsimp only at h
            simp only [pure, Except.pure, Except.ok.injEq, Prod.mk.injEq] at h
            obtain ⟨h1, h2⟩ := h
            subst h2
            refine ⟨h1.symm, fun x hx => List.mem_cons_of_mem _ hx,
              List.mem_cons_self _ _, ?_⟩
            refine occClosedOver_cons _ _ _ _ _ hne ?_ (occClosedOver_refl _ _ _)
            intro y hy
            rw [occSuccs, hshape] at hy
            simp at hy
          | mt t m =>
            rw [hshape] at h
            dsimp only at h
            simp only [pure, Except.pure, Except.ok.injEq, Prod.mk.injEq] at h
            obtain ⟨h1, h2⟩ := h
            subst h2
            refine ⟨h1.symm, fun x hx => List.mem_cons_of_mem _ hx,
              List.mem_cons_self _ _, ?_⟩
            refine occClosedOver_cons _ _ _ _ _ hne ?_ (occClosedOver_refl _ _ _)
            intro y hy
            rw [occSuccs, hshape] at hy
            simp at hy
          | cls nm par props =>
            rw [hshape] at h
            dsimp only at h
            simp only [pure, Except.pure, Except.ok.injEq, Prod.mk.injEq] at h
            obtain ⟨h1, h2⟩ := h
            subst h2
            refine ⟨h1.symm, fun x hx => List.mem_cons_of_mem _ hx,
              List.mem_cons_self _ _, ?_⟩
            refine occClosedOver_cons _ _ _ _ _ hne ?_ (occClosedOver_refl _ _ _)
            intro y hy
            rw [occSuccs, hshape] at hy
            simp at hy
    · intro st seen needle tys st' seen' lvl hNf hfreeN h herr
      cases tys with
      | nil =>
        simp only [occursCheckTyList, pure, Except.pure, Except.ok.injEq,
          Prod.mk.injEq] at h
        obtain ⟨h1, h2⟩ := h
        subst h2
        exact ⟨h1.symm, fun x hx => hx, by intro t ht; exact absurd ht (by simp),
          occClosedOver_refl _ _ _⟩
      | cons t rest =>
        simp only [occursCheckTyList, bind, Except.bind] at h
        cases hc : occursCheckTyAux cfg fuel st seen needle t with
        | error e => rw [hc] at h; exact absurd h (by simp)
        | ok p =>
          rw [hc] at h
          obtain ⟨st1, seenA⟩ := p
          rcases (occShape_all cfg fuel).1 _ _ _ _ _ _ hNf hc with hcl | hmut
          · subst hcl
            obtain ⟨hq1, hmonoA, hmemA, hcloA⟩ :=
              ih.1 st1 seen needle t st1 seenA lvl hNf hfreeN hc rfl
            obtain ⟨hq2, hmonoB, hmemB, hcloB⟩ :=
              ih.2 st1 seenA needle rest st' seen' lvl hNf hfreeN h herr
            refine ⟨hq2, fun x hx => hmonoB _ (hmonoA _ hx), ?_, ?_⟩
            · intro t2 ht2
              rcases List.mem_cons.mp ht2 with ht2' | ht2'
              · subst ht2'
                exact hmonoB _ hmemA
              · exact hmemB t2 ht2'
            · exact occClosedOver_trans _ _ _ _ _ hcloA hcloB hmonoB
          · obtain ⟨hf1, hf2⟩ := occMutated_err st needle st1 hmut
            rcases (occShape_all cfg fuel).2 _ _ _ _ _ _ hf1 h with hcl2 | hmut2
            · subst hcl2
              obtain ⟨lvlM, hgM, hstM⟩ := hmut
              rw [hstM] at herr
              exact absurd herr (list_ne_append_singleton _ _)
            · obtain ⟨lvlM, hgM, hstM⟩ := hmut
              obtain ⟨lvl2M, hg2M, hst2M⟩ := hmut2
              have hl := congrArg List.length herr
              rw [hst2M, hstM] at hl
              simp [List.length_append] at hl

end LuauUnify

namespace LuauUnify

theorem occAux_follow_congr (cfg : Config) (fuel : Nat) (st : UState)
    (seen : List Nat) (needleRaw f haystack : Nat)
    (h1 : followTy st.arena needleRaw = f) (h2 : followTy st.arena f = f) :
    occursCheckTyAux cfg fuel st seen needleRaw haystack =
      occursCheckTyAux cfg fuel st seen f haystack := by
  cases fuel with
  | zero => rfl
  | succ fuel => simp only [occursCheckTyAux, h1, h2]

theorem occursCheckTy_full (cfg : Config) (fuel : Nat) (st : UState)
    (needle haystack : Nat) (lvl : TypeLevel) (st' : UState)
    (hflag : cfg.flags.occursCheckOkWithRecursiveFunctions = false)
    (hfree : getTy st.arena (followTy st.arena needle) = .freeTy lvl)
    (hocc : OccursIn st.arena (followTy st.arena needle) haystack)
    (hrun : occursCheckTy cfg fuel st needle haystack = .ok st') :
    st'.errors = st.errors ++ [.occursCheckFailed] ∧
    getTy st'.arena (followTy st.arena needle) = .errorTy ∧
    st'.arena = setTy st.arena (followTy st.arena needle) .errorTy ∧
    st'.log = .tyE (followTy st.arena needle) (.freeTy lvl) :: st.log := by
  have hNf : followTy st.arena (followTy st.arena needle) = followTy st.arena needle :=
    followTy_fix _ _ (by simp [followStops, hfree])
  simp only [occursCheckTy] at hrun
  cases fuel with
  | zero =>
    have hz : (Except.error Abort.fuel : Except Abort UState) = Except.ok st' := hrun
    exact Except.noConfusion hz
  | succ fuel =>
    rw [occAux_follow_congr cfg (fuel + 1) st [] needle (followTy st.arena needle)
      haystack rfl hNf] at hrun
    cases hAux : occursCheckTyAux cfg (fuel + 1) st [] (followTy st.arena needle)
        haystack with
    | error e => rw [hAux] at hrun; exact absurd hrun (by simp)
    | ok p =>
      rw [hAux] at hrun
      obtain ⟨stA, seenA⟩ := p
      have hst' : stA = st' := by
        simpa [Functor.map, Except.map] using hrun
      subst hst'
      rcases (occShape_all cfg (fuel + 1)).1 _ _ _ _ _ _ hNf hAux with hcl | hmut
      · exfalso
        obtain ⟨hq, hmono, hmem, hclo⟩ :=
          (occClean_all cfg hflag (fuel + 1)).1 st [] (followTy st.arena needle)
            haystack stA seenA lvl hNf hfree hAux (by rw [hcl])
        refine occClosed_not_occurs st.arena (followTy st.arena needle) seenA
          ?_ haystack hocc hmem
        intro x hx
        exact hclo x hx (by simp)
      · obtain ⟨lvl2, hg2, hst2⟩ := hmut
        rw [hfree] at hg2
        injection hg2 with hlvl
        subst hlvl
        rw [hst2]
        refine ⟨rfl, ?_, rfl, rfl⟩
        have hlt : followTy st.arena needle < st.arena.types.length :=
          getTy_lt_of_ne_error _ _ (by simp [hfree])
        exact getTy_setTy_self _ _ _ hlt

end LuauUnify

namespace LuauUnify

theorem freeSuper_errorGuard (cfg : Config) (fuel2 : Nat) (st2 : UState)
    (sup sub : Nat) (ff ii : Bool) (stO : UState) (ll : TypeLevel)
    (hlim : ¬ (0 < cfg.iterationLimit ∧ cfg.iterationLimit < st2.iterationCount + 1))
    (hne : followTy st2.arena sup ≠ followTy st2.arena sub)
    (hsupfree : getTy st2.arena (followTy st2.arena sup) = .freeTy ll)
    (hsubnotfree : isFreeNode (getTy st2.arena (followTy st2.arena sub)) = false)
    (hoccrun : occursCheckTy cfg fuel2
      { st2 with iterationCount := st2.iterationCount + 1 }
      (followTy st2.arena sup) (followTy st2.arena sub) = .ok stO)
    (hnotgen : ∀ glvl, getTy stO.arena (followTy st2.arena sub) ≠ .genericTy glvl)
    (herrty : getTy stO.arena (followTy st2.arena sup) = .errorTy) :
    tryUnifyTy cfg (fuel2 + 1) st2 sup sub ff ii = .ok stO := by
  simp only [tryUnifyTy]
  rw [if_neg hlim]
  rw [if_neg hne]
  cases hS : getTy st2.arena (followTy st2.arena sub)
  case freeTy rl =>
    rw [hS] at hsubnotfree
    simp [isFreeNode] at hsubnotfree
  all_goals
    (rw [hsupfree]
     try dsimp only
     simp only [bind, Except.bind, hoccrun]
     try dsimp only
     split
     · rename_i hEsc
       first
         | exact absurd hEsc (by simp)
         | (rename_i glvl heq
            exact absurd heq (hnotgen _))
         | (rename_i heq glvl
            exact absurd glvl (hnotgen _))
     · first
         | rfl
         | (rw [if_pos herrty]
            rfl)
         | (rename_i hcon
            exact absurd herrty hcon))

end LuauUnify

namespace LuauUnify

/-- Claim C5: when the free needle occurs in the structure reachable from
the haystack (through follow, union options, intersection parts and
function argument/return pack heads), the occurs check appends
OccursCheckFailed, logs the needle and overwrites it with the error node,
so the needle does not remain Free; and at the binding site, a free
supertype that the occurs check turned into the error node is not bound:
tryUnify_ returns the occurs-check state unchanged, so no cyclic Bound
chain is created. -/
theorem occursCheck_prevents_cycles (cfg : Config) (fuel : Nat) (st : UState)
    (needle haystack : Nat) (lvl : TypeLevel) (st' : UState)
    (hflag : cfg.flags.occursCheckOkWithRecursiveFunctions = false)
    (hfree : getTy st.arena (followTy st.arena needle) = .freeTy lvl)
    (hocc : OccursIn st.arena (followTy st.arena needle) haystack)
    (hrun : occursCheckTy cfg fuel st needle haystack = .ok st') :
    (st'.errors = st.errors ++ [.occursCheckFailed] ∧
     getTy st'.arena (followTy st.arena needle) = .errorTy ∧
     st'.arena = setTy st.arena (followTy st.arena needle) .errorTy ∧
     st'.log = .tyE (followTy st.arena needle) (.freeTy lvl) :: st.log) ∧
    (∀ fuel2 st2 sup sub ff ii stO ll,
      ¬ (0 < cfg.iterationLimit ∧ cfg.iterationLimit < st2.iterationCount + 1) →
      followTy st2.arena sup ≠ followTy st2.arena sub →
      getTy st2.arena (followTy st2.arena sup) = .freeTy ll →
      isFreeNode (getTy st2.arena (followTy st2.arena sub)) = false →
      occursCheckTy cfg fuel2
        { st2 with iterationCount := st2.iterationCount + 1 }
        (followTy st2.arena sup) (followTy st2.arena sub) = .ok stO →
      (∀ glvl, getTy stO.arena (followTy st2.arena sub) ≠ .genericTy glvl) →
      getTy stO.arena (followTy st2.arena sup) = .errorTy →
      tryUnifyTy cfg (fuel2 + 1) st2 sup sub ff ii = .ok stO) :=
  ⟨occursCheckTy_full cfg fuel st needle haystack lvl st' hflag hfree hocc hrun,
   fun fuel2 st2 sup sub ff ii stO ll h1 h2 h3 h4 h5 h6 h7 =>
     freeSuper_errorGuard cfg fuel2 st2 sup sub ff ii stO ll h1 h2 h3 h4 h5 h6 h7⟩

/-- Arena for the C5 witness: node 1 is free, node 2 is the union
containing it. -/
def stC5 : UState :=
  { arena := { types := [.errorTy, .freeTy ⟨1, 0⟩, .union [1]], packs := [] } }

/-- The occurs-check result on (needle 1, haystack 2): one error, one log
entry, node 1 overwritten. -/
def stM5 : UState :=
  { stC5 with
    errors := [.occursCheckFailed]
    log := [.tyE 1 (.freeTy ⟨1, 0⟩)]
    arena := setTy stC5.arena 1 .errorTy }

/-- The same end state as reached through the tryUnify_ free-super branch
(the iteration counter was bumped on entry). -/
def stO5 : UState := { stM5 with iterationCount := 1 }

/-- Witness for the claim C5 theorem: unifying the free node 1 as supertype
against the union node 2 that contains it trips the occurs check, leaves
node 1 as the error node, and creates no binding. -/
theorem occursCheck_prevents_cycles_witness :
    (stM5.errors = stC5.errors ++ [.occursCheckFailed] ∧
     getTy stM5.arena (followTy stC5.arena 1) = .errorTy ∧
     stM5.arena = setTy stC5.arena (followTy stC5.arena 1) .errorTy ∧
     stM5.log = .tyE (followTy stC5.arena 1) (.freeTy ⟨1, 0⟩) :: stC5.log) ∧
    tryUnifyTy {} (9 + 1) stC5 1 2 false false = .ok stO5 :=
  have happ := occursCheck_prevents_cycles {} 10 stC5 1 2 ⟨1, 0⟩ stM5 rfl rfl
    (OccursIn.step 2 1 (by decide) (OccursIn.here 1 rfl)) (by rfl)
  ⟨happ.1,
   happ.2 9 stC5 1 2 false false stO5 ⟨1, 0⟩ (by decide) (by decide) rfl rfl
     (by rfl)
     (fun glvl h => by
       have h2 : TyNode.union [1] = TyNode.genericTy glvl := h
       exact TyNode.noConfusion h2)
     rfl⟩

end LuauUnify
